import Mathlib

/-!
# Buffer lifecycle of types/wlr_buffer.c

A shallow embedding of the buffer core (init, drop, lock, unlock, data pointer
access sessions), of the two client buffer backends and of the import
orchestrator, followed by theorems about them.

Conventions of the embedding.

* A C object is a Lean structure with the same field names. A pointer that the
  code tests against NULL is an `Option`.
* Functions that call out of the buffer object return an `Outcome`: the value
  they return (or the state at which they stopped) together with the list of
  externally visible effects, in program order. A failed `assert` is
  `Fault.assertion`; behaviour the C standard leaves undefined (calling a NULL
  function pointer, using a freed object, a downcast of an object of another
  layout) is `Fault.undefined`.
* `size_t` is 64 bits wide, `int` and `int32_t` 32 bits.
* Code outside the file (libwayland, the renderer, other backends, listeners of
  consumers) is a parameter or an effect in the trace. A consumer listener is
  recorded when notified and does not call back into the buffer.
-/

namespace WlrBuffer

/-! ## Machine integers -/

/-- Number of values of `size_t`. -/
def SIZE_MOD : Nat := 2 ^ 64

/-- Value of `(int)u` for a `uint32_t` value `u` (two's complement). -/
def int_of_uint32 (u : Nat) : Int :=
  if u % 2 ^ 32 < 2 ^ 31 then ((u % 2 ^ 32 : Nat) : Int)
  else ((u % 2 ^ 32 : Nat) : Int) - 2 ^ 32

/-- Value of `(uint32_t)i` for an `int` value `i`. -/
def uint32_of_int (i : Int) : Nat := (i % 2 ^ 32).toNat

/-! ## Effects and outcomes -/

/-- What `wl_shm_buffer_get(resource)` refers to, with the values of its
accessors. -/
structure wl_shm_buffer where
  width : Int
  height : Int
  stride : Int
  format : Nat
  data : Nat
  pool : Nat
deriving DecidableEq, Repr

/-- Calls that leave the buffer object, in the order the code makes them. -/
inductive Effect where
  /-- Entry of `wl_signal_emit(&buffer->events.release, NULL)`. -/
  | signal_release
  /-- Entry of `wlr_signal_emit_safe(&buffer->events.destroy, NULL)`. -/
  | signal_destroy
  /-- The notify function of a listener registered by a consumer is called. -/
  | notify_external (id : Nat)
  /-- The call `buffer->impl->destroy(buffer)` through a non-NULL pointer. -/
  | impl_destroy
  | wl_buffer_send_release (resource : Nat)
  | wl_resource_post_error (resource : Nat) (code : Nat) (msg : String)
  | wl_resource_post_no_memory (resource : Nat)
  | wlr_texture_destroy (texture : Option Nat)
  | wlr_texture_write_pixels (texture : Nat) (stride : Int) (width height : Int)
      (src_x src_y dst_x dst_y : Int) (data : Nat)
  | wl_shm_buffer_begin_access (shm_buffer : wl_shm_buffer)
  | wl_shm_buffer_end_access (shm_buffer : wl_shm_buffer)
  | wl_shm_buffer_ref_pool (pool : Nat)
  | wl_shm_pool_unref (pool : Nat)
  | free
  | wlr_log (msg : String)
deriving DecidableEq, Repr

/-- Ways a call can stop without returning. -/
inductive Fault where
  /-- A failed `assert`. -/
  | assertion
  /-- Undefined behaviour. -/
  | undefined
deriving DecidableEq, Repr

/-- Result of a call: `returned v t` when it returns `v` after the effects `t`,
`aborted f s t` when it stops with fault `f` in state `s` after the effects `t`. -/
inductive Outcome (α : Type) where
  | returned (val : α) (trace : List Effect)
  | aborted (f : Fault) (state : α) (trace : List Effect)
deriving DecidableEq, Repr

/-- Effects of a call. -/
def Outcome.trace {α : Type} : Outcome α → List Effect
  | .returned _ t => t
  | .aborted _ _ t => t

/-- Returned value, or state at the fault. -/
def Outcome.state {α : Type} : Outcome α → α
  | .returned v _ => v
  | .aborted _ s _ => s

/-- The same outcome after the earlier effects `t0`. -/
def Outcome.after {α : Type} (t0 : List Effect) : Outcome α → Outcome α
  | .returned v t => .returned v (t0 ++ t)
  | .aborted f s t => .aborted f s (t0 ++ t)

/-- Change of the carried value. -/
def Outcome.map {α β : Type} (g : α → β) : Outcome α → Outcome β
  | .returned v t => .returned (g v) t
  | .aborted f s t => .aborted f (g s) t

/-- Sequencing: when the first call returns, `k` continues from its value; when
it stops, the whole stops there, in the state `g` builds from its state. -/
def Outcome.bind {α β : Type} (o : Outcome α) (g : α → β) (k : α → Outcome β) :
    Outcome β :=
  match o with
  | .returned v t => (k v).after t
  | .aborted f s t => .aborted f (g s) t

/-! ## Data model -/

/-- Functions a `destroy` slot can point to. -/
inductive DestroyFn where
  | client_buffer_destroy
  | shm_client_buffer_destroy
  | external (id : Nat)
deriving DecidableEq, Repr

/-- Functions a `get_dmabuf` slot can point to. -/
inductive GetDmabufFn where
  | client_buffer_get_dmabuf
  | external (id : Nat)
deriving DecidableEq, Repr

/-- Functions a `begin_data_ptr_access` slot can point to. -/
inductive BeginFn where
  | shm_client_buffer_begin_data_ptr_access
  | external (id : Nat)
deriving DecidableEq, Repr

/-- Functions an `end_data_ptr_access` slot can point to. -/
inductive EndFn where
  | shm_client_buffer_end_data_ptr_access
  | external (id : Nat)
deriving DecidableEq, Repr

/-- Capability table `struct wlr_buffer_impl`; `none` is a NULL slot. -/
structure wlr_buffer_impl where
  destroy : Option DestroyFn
  get_dmabuf : Option GetDmabufFn
  get_shm : Option Nat
  begin_data_ptr_access : Option BeginFn
  end_data_ptr_access : Option EndFn
deriving DecidableEq, Repr

/-- Entry of a signal's listener list: the `release` listener embedded in the
buffer object itself, or a listener owned by a consumer. -/
inductive ListenerRef where
  | own_release
  | external (id : Nat)
deriving DecidableEq, Repr

/-- Object `struct wlr_buffer`. A signal is the list of its listeners, first
added first. -/
structure wlr_buffer where
  impl : Option wlr_buffer_impl
  width : Int
  height : Int
  dropped : Bool
  n_locks : Nat
  accessing_data_ptr : Bool
  events_destroy : List ListenerRef
  events_release : List ListenerRef
  egl_stream : Option Nat
deriving DecidableEq, Repr

/-- What `wlr_dmabuf_v1_buffer_from_buffer_resource(resource)` refers to. -/
structure wlr_dmabuf_v1_buffer where
  base : wlr_buffer
  attributes_width : Int
  attributes_height : Int
deriving DecidableEq, Repr

/-- A client protocol object `struct wl_resource`. -/
structure wl_resource where
  id : Nat
  /-- Result of `wlr_resource_is_buffer`. -/
  class_is_wl_buffer : Bool
  /-- Result of `wl_shm_buffer_get`. -/
  shm_buffer : Option wl_shm_buffer
  /-- Present when `wlr_dmabuf_v1_resource_is_buffer` holds. -/
  dmabuf : Option wlr_dmabuf_v1_buffer
deriving DecidableEq, Repr

/-- Object `struct wlr_texture` of the renderer; `width` and `height` are
`uint32_t`. -/
structure wlr_texture where
  id : Nat
  width : Nat
  height : Nat
deriving DecidableEq, Repr

/-- Signals a listener of this file can be inserted in. -/
inductive SignalRef where
  | buffer_release
  | resource_destroy (resource : Nat)
deriving DecidableEq, Repr

/-- State of a `struct wl_list` link member: `null` is zeroed or removed,
`self` is the state after `wl_list_init`. -/
inductive wl_list where
  | null
  | self
  | inserted (sig : SignalRef)
deriving DecidableEq, Repr

/-- Notify functions of this file. -/
inductive NotifyFn where
  | client_buffer_handle_release
  | client_buffer_resource_handle_destroy
  | shm_client_buffer_handle_release
  | shm_client_buffer_resource_handle_destroy
deriving DecidableEq, Repr

/-- Object `struct wl_listener`. -/
structure wl_listener where
  link : wl_list
  notify : Option NotifyFn
deriving DecidableEq, Repr

/-- Object `struct wlr_client_buffer`. -/
structure wlr_client_buffer where
  base : wlr_buffer
  resource : Option wl_resource
  resource_released : Bool
  texture : Option wlr_texture
  resource_destroy : wl_listener
  release : wl_listener
deriving DecidableEq, Repr

/-- Object `struct wlr_shm_client_buffer`, with the members the code uses. -/
structure wlr_shm_client_buffer where
  base : wlr_buffer
  format : Nat
  stride : Nat
  resource : Option wl_resource
  shm_buffer : Option wl_shm_buffer
  saved_shm_pool : Option Nat
  saved_data : Nat
  resource_destroy : wl_listener
  release : wl_listener
deriving DecidableEq, Repr

/-- An allocated object whose first member is a `struct wlr_buffer`. -/
inductive Buffer where
  | client (b : wlr_client_buffer)
  | shm (b : wlr_shm_client_buffer)
  /-- A buffer of a backend defined outside the file. -/
  | other (b : wlr_buffer)
deriving DecidableEq, Repr

/-- The `struct wlr_buffer` member of an object. -/
def Buffer.base : Buffer → wlr_buffer
  | .client b => b.base
  | .shm b => b.base
  | .other b => b

/-- Store into the `struct wlr_buffer` member of an object. -/
def Buffer.set_base : Buffer → wlr_buffer → Buffer
  | .client b, base => .client { b with base := base }
  | .shm b, base => .shm { b with base := base }
  | .other _, base => .other base

/-- What a `struct wlr_buffer *` held by a caller designates. -/
inductive Ref where
  | null
  | live (b : Buffer)
  /-- The object was handed to `impl->destroy`; `last` is its content then. -/
  | freed (last : Buffer)
deriving DecidableEq, Repr

/-- Memory as returned by `calloc` for a `struct wlr_buffer`. -/
def wlr_buffer.zeroed : wlr_buffer :=
  { impl := none, width := 0, height := 0, dropped := false, n_locks := 0,
    accessing_data_ptr := false, events_destroy := [], events_release := [],
    egl_stream := none }

/-- Memory as returned by `calloc` for a `struct wl_listener`. -/
def wl_listener.zeroed : wl_listener := { link := .null, notify := none }

/-- Memory as returned by `calloc(1, sizeof(struct wlr_client_buffer))`. -/
def wlr_client_buffer.zeroed : wlr_client_buffer :=
  { base := wlr_buffer.zeroed, resource := none, resource_released := false,
    texture := none, resource_destroy := wl_listener.zeroed,
    release := wl_listener.zeroed }

/-- Memory as returned by `calloc(1, sizeof(struct wlr_shm_client_buffer))`. -/
def wlr_shm_client_buffer.zeroed : wlr_shm_client_buffer :=
  { base := wlr_buffer.zeroed, format := 0, stride := 0, resource := none,
    shm_buffer := none, saved_shm_pool := none, saved_data := 0,
    resource_destroy := wl_listener.zeroed, release := wl_listener.zeroed }

/-- Values written by a successful `begin_data_ptr_access`. -/
structure DataPtr where
  data : Nat
  format : Nat
  stride : Nat
deriving DecidableEq, Repr

/-- Behaviour of the renderer and texture functions the file calls. The second
component of `texture_from_buffer` tells whether the renderer took a lock of
its own on the buffer it was given. -/
structure wlr_renderer where
  resource_is_wl_drm_buffer : wl_resource → Bool
  texture_from_wl_drm : wl_resource → Option wlr_texture
  texture_from_buffer : Buffer → Option wlr_texture × Bool
  texture_from_wl_eglstream : wl_resource → Option wlr_texture

/-- Behaviour of the remaining code outside the file: the two `calloc` calls,
the format table of render/pixel_format.h, and `begin_data_ptr_access` of
other backends. -/
structure Sys where
  calloc_shm_client_buffer : Bool
  calloc_client_buffer : Bool
  convert_wl_shm_format_to_drm : Nat → Nat
  begin_data_ptr_access : Nat → wlr_buffer → Option DataPtr

/-! ## Buffer core -/

/-- Function `wlr_buffer_init`: the two assertions on the table, then the
stores; `wl_signal_init` leaves a signal without listeners. -/
def wlr_buffer_init (buffer : wlr_buffer) (impl : wlr_buffer_impl)
    (width height : Int) : Outcome wlr_buffer :=
  if impl.destroy.isNone then .aborted .assertion buffer []
  else if (impl.begin_data_ptr_access.isSome || impl.end_data_ptr_access.isSome)
      && !(impl.begin_data_ptr_access.isSome && impl.end_data_ptr_access.isSome) then
    .aborted .assertion buffer []
  else
    .returned { buffer with
      impl := some impl, width := width, height := height, egl_stream := none,
      events_destroy := [], events_release := [] } []

/-- Function `wl_list_remove` on a link member: reads through the neighbour
pointers, then sets them to NULL. -/
def wl_list_remove (link : wl_list) : Except Fault wl_list :=
  match link with
  | .null => .error .undefined
  | _ => .ok .null

/-- Table `client_buffer_impl`. -/
def client_buffer_impl : wlr_buffer_impl :=
  { destroy := some .client_buffer_destroy,
    get_dmabuf := some .client_buffer_get_dmabuf,
    get_shm := none, begin_data_ptr_access := none, end_data_ptr_access := none }

/-- Table `shm_client_buffer_impl`. -/
def shm_client_buffer_impl : wlr_buffer_impl :=
  { destroy := some .shm_client_buffer_destroy,
    get_dmabuf := none, get_shm := none,
    begin_data_ptr_access := some .shm_client_buffer_begin_data_ptr_access,
    end_data_ptr_access := some .shm_client_buffer_end_data_ptr_access }

/-- Listener `client_buffer_handle_release`. -/
def client_buffer_handle_release (buffer : wlr_client_buffer) :
    Outcome wlr_client_buffer :=
  match buffer.resource_released, buffer.resource with
  | false, some resource =>
    .returned { buffer with resource_released := true }
      [.wl_buffer_send_release resource.id]
  | _, _ => .returned buffer []

/-- Listener `client_buffer_resource_handle_destroy`. -/
def client_buffer_resource_handle_destroy (buffer : wlr_client_buffer) :
    Outcome wlr_client_buffer :=
  match wl_list_remove buffer.resource_destroy.link with
  | .error f => .aborted f buffer []
  | .ok _ =>
    .returned { buffer with
      resource_destroy := { buffer.resource_destroy with link := .self },
      resource := none } []

/-- Listener `shm_client_buffer_handle_release`. -/
def shm_client_buffer_handle_release (buffer : wlr_shm_client_buffer) :
    Outcome wlr_shm_client_buffer :=
  match buffer.resource with
  | some resource => .returned buffer [.wl_buffer_send_release resource.id]
  | none => .returned buffer []

/-- Listener `shm_client_buffer_resource_handle_destroy`. -/
def shm_client_buffer_resource_handle_destroy (buffer : wlr_shm_client_buffer) :
    Outcome wlr_shm_client_buffer :=
  match buffer.shm_buffer with
  | none => .aborted .undefined buffer []
  | some shm_buffer =>
    let saved := { buffer with
      saved_shm_pool := some shm_buffer.pool, saved_data := shm_buffer.data,
      resource := none, shm_buffer := none }
    match wl_list_remove buffer.resource_destroy.link with
    | .error f => .aborted f saved [.wl_shm_buffer_ref_pool shm_buffer.pool]
    | .ok _ =>
      .returned { saved with
        resource_destroy := { buffer.resource_destroy with link := .self } }
        [.wl_shm_buffer_ref_pool shm_buffer.pool]

/-- Call of a notify function of this file on the object its listener is
embedded in (`wl_container_of`). -/
def call_notify (fn : NotifyFn) (b : Buffer) : Outcome Buffer :=
  match fn, b with
  | .client_buffer_handle_release, .client cb =>
    (client_buffer_handle_release cb).map .client
  | .client_buffer_resource_handle_destroy, .client cb =>
    (client_buffer_resource_handle_destroy cb).map .client
  | .shm_client_buffer_handle_release, .shm sb =>
    (shm_client_buffer_handle_release sb).map .shm
  | .shm_client_buffer_resource_handle_destroy, .shm sb =>
    (shm_client_buffer_resource_handle_destroy sb).map .shm
  | _, _ => .aborted .undefined b []

/-- The `release` listener member of an object, when its type has one. -/
def Buffer.release_listener : Buffer → Option wl_listener
  | .client cb => some cb.release
  | .shm sb => some sb.release
  | .other _ => none

/-- One step of a signal emission: `l->notify(l, data)`. -/
def notify_listener (l : ListenerRef) (b : Buffer) : Outcome Buffer :=
  match l with
  | .external id => .returned b [.notify_external id]
  | .own_release =>
    match b.release_listener with
    | none => .aborted .undefined b []
    | some listener =>
      match listener.notify with
      | none => .aborted .undefined b []
      | some fn => call_notify fn b

/-- Loop of a signal emission over the listeners of the signal. -/
def notify_all : List ListenerRef → Buffer → Outcome Buffer
  | [], b => .returned b []
  | l :: ls, b =>
    (notify_listener l b).bind id (fun b1 => notify_all ls b1)

/-- Call `wl_signal_emit(&buffer->events.release, NULL)`. -/
def emit_release (buffer : Buffer) : Outcome Buffer :=
  (notify_all buffer.base.events_release buffer).after [.signal_release]

/-- Call `wlr_signal_emit_safe(&buffer->events.destroy, NULL)`. -/
def emit_destroy (buffer : Buffer) : Outcome Buffer :=
  (notify_all buffer.base.events_destroy buffer).after [.signal_destroy]

/-- Function `wlr_client_buffer_get`. -/
def wlr_client_buffer_get (buffer : Buffer) : Except Fault (Option wlr_client_buffer) :=
  if buffer.base.impl ≠ some client_buffer_impl then .ok none
  else
    match buffer with
    | .client cb => .ok (some cb)
    | _ => .error .undefined

/-- Function `client_buffer_from_buffer`. -/
def client_buffer_from_buffer (buffer : Buffer) : Except Fault wlr_client_buffer :=
  match wlr_client_buffer_get buffer with
  | .error f => .error f
  | .ok none => .error .assertion
  | .ok (some client_buffer) => .ok client_buffer

/-- Function `client_buffer_destroy`. -/
def client_buffer_destroy (_buffer : Buffer) : Outcome Ref :=
  match client_buffer_from_buffer _buffer with
  | .error f => .aborted f (.live _buffer) []
  | .ok buffer =>
    let sent : List Effect :=
      match buffer.resource_released, buffer.resource with
      | false, some resource => [.wl_buffer_send_release resource.id]
      | _, _ => []
    match wl_list_remove buffer.resource_destroy.link with
    | .error f => .aborted f (.live _buffer) sent
    | .ok link =>
      .returned
        (.freed (.client { buffer with
          resource_destroy := { buffer.resource_destroy with link := link } }))
        (sent ++ [.wlr_texture_destroy (buffer.texture.map (·.id)), .free])

/-- Function `shm_client_buffer_from_buffer`. -/
def shm_client_buffer_from_buffer (buffer : Buffer) :
    Except Fault wlr_shm_client_buffer :=
  if buffer.base.impl ≠ some shm_client_buffer_impl then .error .assertion
  else
    match buffer with
    | .shm sb => .ok sb
    | _ => .error .undefined

/-- Function `shm_client_buffer_destroy`. -/
def shm_client_buffer_destroy (_buffer : Buffer) : Outcome Ref :=
  match shm_client_buffer_from_buffer _buffer with
  | .error f => .aborted f (.live _buffer) []
  | .ok buffer =>
    match wl_list_remove buffer.resource_destroy.link with
    | .error f => .aborted f (.live _buffer) []
    | .ok link1 =>
      match wl_list_remove buffer.release.link with
      | .error f => .aborted f (.live _buffer) []
      | .ok link2 =>
        let unref : List Effect :=
          match buffer.saved_shm_pool with
          | some pool => [.wl_shm_pool_unref pool]
          | none => []
        .returned
          (.freed (.shm { buffer with
            base := { buffer.base with
              events_release := buffer.base.events_release.erase .own_release },
            resource_destroy := { buffer.resource_destroy with link := link1 },
            release := { buffer.release with link := link2 } }))
          (unref ++ [.free])

/-- Call `buffer->impl->destroy(buffer)`. A backend outside the file frees the
object. -/
def impl_destroy (buffer : Buffer) : Outcome Ref :=
  match buffer.base.impl with
  | none => .aborted .undefined (.live buffer) []
  | some impl =>
    match impl.destroy with
    | none => .aborted .undefined (.live buffer) []
    | some .client_buffer_destroy =>
      (client_buffer_destroy buffer).after [.impl_destroy]
    | some .shm_client_buffer_destroy =>
      (shm_client_buffer_destroy buffer).after [.impl_destroy]
    | some (.external _) => .returned (.freed buffer) [.impl_destroy]

/-- Function `buffer_consider_destroy`. -/
def buffer_consider_destroy (buffer : Buffer) : Outcome Ref :=
  if buffer.base.dropped = false ∨ buffer.base.n_locks > 0 then
    .returned (.live buffer) []
  else if buffer.base.accessing_data_ptr then
    .aborted .assertion (.live buffer) []
  else
    (emit_destroy buffer).bind Ref.live impl_destroy

/-- Function `wlr_buffer_drop`. -/
def wlr_buffer_drop (buffer : Ref) : Outcome Ref :=
  match buffer with
  | .null => .returned .null []
  | .freed last => .aborted .undefined (.freed last) []
  | .live b =>
    if b.base.dropped then .aborted .assertion (.live b) []
    else buffer_consider_destroy (b.set_base { b.base with dropped := true })

/-- Function `wlr_buffer_lock`; `n_locks` is a `size_t`. -/
def wlr_buffer_lock (buffer : Ref) : Outcome Ref :=
  match buffer with
  | .live b =>
    .returned
      (.live (b.set_base { b.base with n_locks := (b.base.n_locks + 1) % SIZE_MOD })) []
  | r => .aborted .undefined r []

/-- Function `wlr_buffer_unlock`. -/
def wlr_buffer_unlock (buffer : Ref) : Outcome Ref :=
  match buffer with
  | .null => .returned .null []
  | .freed last => .aborted .undefined (.freed last) []
  | .live b =>
    if ¬ (b.base.n_locks > 0) then .aborted .assertion (.live b) []
    else
      let b1 := b.set_base { b.base with n_locks := b.base.n_locks - 1 }
      if b1.base.n_locks = 0 then
        (emit_release b1).bind Ref.live buffer_consider_destroy
      else buffer_consider_destroy b1

/-! ## Data pointer access sessions -/

/-- Function `shm_client_buffer_begin_data_ptr_access`; it always returns
true. -/
def shm_client_buffer_begin_data_ptr_access (_buffer : Buffer) :
    Outcome (Buffer × Option DataPtr) :=
  match shm_client_buffer_from_buffer _buffer with
  | .error f => .aborted f (_buffer, none) []
  | .ok buffer =>
    match buffer.shm_buffer with
    | some shm_buffer =>
      .returned (_buffer, some ⟨shm_buffer.data, buffer.format, buffer.stride⟩)
        [.wl_shm_buffer_begin_access shm_buffer]
    | none =>
      .returned (_buffer, some ⟨buffer.saved_data, buffer.format, buffer.stride⟩) []

/-- Function `shm_client_buffer_end_data_ptr_access`. -/
def shm_client_buffer_end_data_ptr_access (_buffer : Buffer) : Outcome Buffer :=
  match shm_client_buffer_from_buffer _buffer with
  | .error f => .aborted f _buffer []
  | .ok buffer =>
    match buffer.shm_buffer with
    | some shm_buffer => .returned _buffer [.wl_shm_buffer_end_access shm_buffer]
    | none => .returned _buffer []

/-- Call `buffer->impl->begin_data_ptr_access(buffer, data, format, stride)`
through the non-NULL pointer `fn`; the second component is `none` when the
callback returns false. -/
def impl_begin_data_ptr_access (sys : Sys) (fn : BeginFn) (buffer : Buffer) :
    Outcome (Buffer × Option DataPtr) :=
  match fn with
  | .shm_client_buffer_begin_data_ptr_access =>
    shm_client_buffer_begin_data_ptr_access buffer
  | .external id => .returned (buffer, sys.begin_data_ptr_access id buffer.base) []

/-- Function `buffer_begin_data_ptr_access`; the second component is `none`
when it returns false. -/
def buffer_begin_data_ptr_access (sys : Sys) (buffer : Buffer) :
    Outcome (Buffer × Option DataPtr) :=
  if buffer.base.accessing_data_ptr then .aborted .assertion (buffer, none) []
  else
    match buffer.base.impl with
    | none => .aborted .undefined (buffer, none) []
    | some impl =>
      match impl.begin_data_ptr_access with
      | none => .returned (buffer, none) []
      | some fn =>
        (impl_begin_data_ptr_access sys fn buffer).bind id fun res =>
          match res.2 with
          | none => .returned (res.1, none) []
          | some out =>
            .returned
              (res.1.set_base { res.1.base with accessing_data_ptr := true }, some out) []

/-- Call `buffer->impl->end_data_ptr_access(buffer)`. -/
def impl_end_data_ptr_access (buffer : Buffer) : Outcome Buffer :=
  match buffer.base.impl with
  | none => .aborted .undefined buffer []
  | some impl =>
    match impl.end_data_ptr_access with
    | none => .aborted .undefined buffer []
    | some .shm_client_buffer_end_data_ptr_access =>
      shm_client_buffer_end_data_ptr_access buffer
    | some (.external _) => .returned buffer []

/-- Function `buffer_end_data_ptr_access`. -/
def buffer_end_data_ptr_access (buffer : Buffer) : Outcome Buffer :=
  if ¬ buffer.base.accessing_data_ptr then .aborted .assertion buffer []
  else
    (impl_end_data_ptr_access buffer).bind id fun b =>
      .returned (b.set_base { b.base with accessing_data_ptr := false }) []

/-! ## Client buffers -/

/-- Function `shm_client_buffer_create`; `none` is a NULL return. -/
def shm_client_buffer_create (sys : Sys) (resource : wl_resource) :
    Outcome (Option wlr_shm_client_buffer) :=
  match resource.shm_buffer with
  | none => .aborted .assertion none []
  | some shm_buffer =>
    if !sys.calloc_shm_client_buffer then .returned none []
    else
      (wlr_buffer_init wlr_shm_client_buffer.zeroed.base shm_client_buffer_impl
          shm_buffer.width shm_buffer.height).bind (fun _ => none) fun base =>
        .returned (some
          { wlr_shm_client_buffer.zeroed with
            base := { base with
              events_release := base.events_release ++ [.own_release] },
            resource := some resource,
            shm_buffer := some shm_buffer,
            format := sys.convert_wl_shm_format_to_drm shm_buffer.format,
            stride := (shm_buffer.stride % (SIZE_MOD : Int)).toNat,
            resource_destroy :=
              { notify := some .shm_client_buffer_resource_handle_destroy,
                link := .inserted (.resource_destroy resource.id) },
            release :=
              { notify := some .shm_client_buffer_handle_release,
                link := .inserted .buffer_release } }) []

/-- Result of `wlr_client_buffer_import`: the pointer it returns, and the
temporary shm client buffer of the shared-memory branch (`null` in the other
branches). -/
structure ImportResult where
  buffer : Ref
  shm_client_buffer : Ref
deriving DecidableEq, Repr

/-- Call `wlr_texture_from_buffer(renderer, buffer)` on an object of this
file: the renderer answers with a texture or NULL and may lock the buffer. -/
def wlr_texture_from_buffer (renderer : wlr_renderer) (buffer : Ref) :
    Outcome (Ref × Option wlr_texture) :=
  match buffer with
  | .live b =>
    if (renderer.texture_from_buffer b).2 then
      (wlr_buffer_lock (.live b)).map fun r => (r, (renderer.texture_from_buffer b).1)
    else .returned (.live b, (renderer.texture_from_buffer b).1) []
  | r => .aborted .undefined (r, none) []

/-- Second half of `wlr_client_buffer_import`, from the test `texture == NULL`
to the end. -/
def wlr_client_buffer_import_finish (sys : Sys) (resource : wl_resource)
    (texture : Option wlr_texture) (resource_released : Bool)
    (shm_client_buffer : Ref) : Outcome ImportResult :=
  match texture with
  | none =>
    .returned ⟨.null, shm_client_buffer⟩
      [.wlr_log "Failed to upload texture", .wl_buffer_send_release resource.id]
  | some texture =>
    if !sys.calloc_client_buffer then
      .returned ⟨.null, shm_client_buffer⟩
        [.wlr_texture_destroy (some texture.id), .wl_resource_post_no_memory resource.id]
    else
      (wlr_buffer_init wlr_client_buffer.zeroed.base client_buffer_impl
          (int_of_uint32 texture.width) (int_of_uint32 texture.height)).bind
        (fun _ => ⟨.null, shm_client_buffer⟩) fun base =>
      let buffer : wlr_client_buffer :=
        { wlr_client_buffer.zeroed with
          base := { base with events_release := base.events_release ++ [.own_release] },
          resource := some resource,
          texture := some texture,
          resource_released := resource_released,
          resource_destroy :=
            { notify := some .client_buffer_resource_handle_destroy,
              link := .inserted (.resource_destroy resource.id) },
          release :=
            { notify := some .client_buffer_handle_release,
              link := .inserted .buffer_release } }
      (wlr_buffer_lock (.live (.client buffer))).bind
        (fun r => ⟨r, shm_client_buffer⟩) fun r1 =>
      (wlr_buffer_drop r1).bind (fun r => ⟨r, shm_client_buffer⟩) fun r2 =>
      .returned ⟨r2, shm_client_buffer⟩ []

/-- Function `wlr_client_buffer_import`. -/
def wlr_client_buffer_import (sys : Sys) (renderer : wlr_renderer)
    (resource : wl_resource) : Outcome ImportResult :=
  if ¬ resource.class_is_wl_buffer then .aborted .assertion ⟨.null, .null⟩ []
  else if resource.shm_buffer.isSome then
    (shm_client_buffer_create sys resource).bind (fun _ => ⟨.null, .null⟩) fun created =>
    match created with
    | none => .returned ⟨.null, .null⟩ [.wlr_log "Failed to create shm client buffer"]
    | some shm_client_buffer =>
      (wlr_buffer_lock (.live (.shm shm_client_buffer))).bind (fun r => ⟨.null, r⟩) fun r1 =>
      (wlr_buffer_drop r1).bind (fun r => ⟨.null, r⟩) fun r2 =>
      (wlr_texture_from_buffer renderer r2).bind (fun s => ⟨.null, s.1⟩) fun up =>
      (wlr_buffer_unlock up.1).bind (fun r => ⟨.null, r⟩) fun r3 =>
      wlr_client_buffer_import_finish sys resource up.2 true r3
  else if renderer.resource_is_wl_drm_buffer resource then
    wlr_client_buffer_import_finish sys resource
      (renderer.texture_from_wl_drm resource) false .null
  else
    match resource.dmabuf with
    | some dmabuf =>
      wlr_client_buffer_import_finish sys resource
        (renderer.texture_from_buffer (.other dmabuf.base)).1 true .null
    | none =>
      match renderer.texture_from_wl_eglstream resource with
      | some texture =>
        wlr_client_buffer_import_finish sys resource (some texture) false .null
      | none =>
        .returned ⟨.null, .null⟩
          [.wlr_log "Cannot upload texture: unknown buffer type",
           .wl_resource_post_error resource.id 0 "unknown buffer type"]

/-! ## Sequences of calls -/

/-- The three lifecycle calls a holder of a buffer pointer can make. -/
inductive Op where
  | lock
  | unlock
  | drop
deriving DecidableEq, Repr

/-- One lifecycle call on the pointer. -/
def step (r : Ref) : Op → Outcome Ref
  | .lock => wlr_buffer_lock r
  | .unlock => wlr_buffer_unlock r
  | .drop => wlr_buffer_drop r

/-- A sequence of lifecycle calls on the same pointer, up to the first call
that does not return. -/
def run : Ref → List Op → Outcome Ref
  | r, [] => .returned r []
  | r, op :: ops => (step r op).bind id (fun r1 => run r1 ops)

/-! ## Vocabulary of the statements -/

/-- Lock count of the object a pointer designates, when it is live. -/
def Ref.n_locks : Ref → Option Nat
  | .live b => some b.base.n_locks
  | _ => none

/-- Effects of the teardown a backend performs inside its destroy callback. -/
def Effect.is_teardown : Effect → Bool
  | .free => true
  | .wlr_texture_destroy _ => true
  | .wl_shm_pool_unref _ => true
  | _ => false

/-- Lifecycle events: the two signals, the call of the destroy callback, and
the teardown effects. -/
def Effect.is_lifecycle : Effect → Bool
  | .signal_release => true
  | .signal_destroy => true
  | .impl_destroy => true
  | e => e.is_teardown

/-- The lifecycle events of a trace, in order. -/
def lifecycle (t : List Effect) : List Effect := t.filter Effect.is_lifecycle

/-- Lifecycle events of a call of the destroy callback: none when the call was
not reached, else the call followed by teardown effects only. -/
def teardown_shape (l : List Effect) : Prop :=
  l = [] ∨ ∃ rest, l = .impl_destroy :: rest ∧ ∀ e ∈ rest, e.is_teardown = true

/-- Lifecycle events of a destroy evaluation: none, or the destroy signal
followed by the events of the destroy callback. -/
def destroy_shape (l : List Effect) : Prop :=
  l = [] ∨ ∃ rest, l = .signal_destroy :: rest ∧ teardown_shape rest

/-- Lifecycle events of an unlock: none, or the release signal followed by the
events of a destroy evaluation. -/
def unlock_shape (l : List Effect) : Prop :=
  l = [] ∨ ∃ rest, l = .signal_release :: rest ∧ destroy_shape rest

/-- The destroy signal or the destroy callback occurs in the trace. -/
def destroy_fired (t : List Effect) : Prop :=
  Effect.signal_destroy ∈ t ∨ Effect.impl_destroy ∈ t

/-- The buffer is ready to be destroyed: dropped, unlocked, no access session. -/
def Buffer.destroyable (b : Buffer) : Prop :=
  b.base.dropped = true ∧ b.base.n_locks = 0 ∧ b.base.accessing_data_ptr = false

/-- The pointer designates, alive or freed, an object with the lifecycle fields
of `b`. -/
def same_counts (b : Buffer) (r : Ref) : Prop :=
  ∃ last, (r = .live last ∨ r = .freed last) ∧
    last.base.dropped = b.base.dropped ∧ last.base.n_locks = b.base.n_locks ∧
    last.base.accessing_data_ptr = b.base.accessing_data_ptr

/-- An emission on this buffer can call the listener: a consumer listener
always, the embedded `release` listener when the object has one and its
`notify` member is the release handler of the object's type. -/
def Buffer.can_notify (b : Buffer) : ListenerRef → Bool
  | .external _ => true
  | .own_release =>
    match b with
    | .client cb => decide (cb.release.notify = some .client_buffer_handle_release)
    | .shm sb => decide (sb.release.notify = some .shm_client_buffer_handle_release)
    | .other _ => false

/-- Well-formed buffer: what `wlr_buffer_init` and the constructors of the
file establish. The table has a destroy callback, and every listener on the
two signals can be called. -/
def Buffer.wf (b : Buffer) : Bool :=
  (match b.base.impl with
    | some impl => impl.destroy.isSome
    | none => false)
  && b.base.events_release.all b.can_notify
  && b.base.events_destroy.all b.can_notify

/-- A table `wlr_buffer_init` accepts: it has a destroy callback and both or
neither of the two access callbacks. -/
def wlr_buffer_impl.valid (impl : wlr_buffer_impl) : Bool :=
  impl.destroy.isSome &&
    (impl.begin_data_ptr_access.isSome == impl.end_data_ptr_access.isSome)

/-- The access callbacks of the table belong to the object: an shm client
buffer has the table of its type, and no other object points to the shm
callbacks; the access flag is set only where a begin callback exists. -/
def Buffer.access_ok (b : Buffer) : Bool :=
  match b.base.impl with
  | none => false
  | some impl =>
    impl.valid &&
    (!b.base.accessing_data_ptr || impl.begin_data_ptr_access.isSome) &&
    (match b with
      | .shm _ => decide (impl = shm_client_buffer_impl)
      | _ =>
        decide (impl.begin_data_ptr_access ≠ some .shm_client_buffer_begin_data_ptr_access) &&
        decide (impl.end_data_ptr_access ≠ some .shm_client_buffer_end_data_ptr_access))

/-- Number of `unlock` calls of a run that find `n_locks` equal to 1, that is,
that take it from 1 to 0. -/
def release_transitions : Ref → List Op → Nat
  | _, [] => 0
  | r, op :: ops =>
    (if op = .unlock ∧ r.n_locks = some 1 then 1 else 0) +
      (match step r op with
        | .returned r1 _ => release_transitions r1 ops
        | .aborted _ _ _ => 0)

/-- The two access calls. -/
inductive AccessOp where
  | begin_access
  | end_access
deriving DecidableEq, Repr

/-- Number of access sessions open after a sequence of access calls, from `n`
open sessions: one more for each begin that returns true, one less for each
end that returns; the sequence stops at the first call that does not return. -/
def sessions_open (sys : Sys) : Buffer → Nat → List AccessOp → Nat
  | _, n, [] => n
  | b, n, .begin_access :: ops =>
    match buffer_begin_data_ptr_access sys b with
    | .returned (b1, some _) _ => sessions_open sys b1 (n + 1) ops
    | .returned (b1, none) _ => sessions_open sys b1 n ops
    | .aborted _ _ _ => n
  | b, n, .end_access :: ops =>
    match buffer_end_data_ptr_access b with
    | .returned b1 _ => sessions_open sys b1 (n - 1) ops
    | .aborted _ _ _ => n

/-- The shm client buffer `shm_client_buffer_create` builds for a resource,
with the given drop flag and lock count. -/
def created_shm_client_buffer (sys : Sys) (resource : wl_resource)
    (shm_buffer : wl_shm_buffer) (dropped : Bool) (n_locks : Nat) :
    wlr_shm_client_buffer :=
  { base :=
      { impl := some shm_client_buffer_impl,
        width := shm_buffer.width, height := shm_buffer.height,
        dropped := dropped, n_locks := n_locks, accessing_data_ptr := false,
        events_destroy := [], events_release := [.own_release], egl_stream := none },
    format := sys.convert_wl_shm_format_to_drm shm_buffer.format,
    stride := (shm_buffer.stride % (SIZE_MOD : Int)).toNat,
    resource := some resource,
    shm_buffer := some shm_buffer,
    saved_shm_pool := none,
    saved_data := 0,
    resource_destroy :=
      { link := .inserted (.resource_destroy resource.id),
        notify := some .shm_client_buffer_resource_handle_destroy },
    release :=
      { link := .inserted .buffer_release,
        notify := some .shm_client_buffer_handle_release } }

/-- The client buffer `wlr_client_buffer_import` builds for a resource and a
texture, as it returns it: locked once and dropped. -/
def imported_client_buffer (resource : wl_resource) (tex : wlr_texture)
    (resource_released : Bool) : wlr_client_buffer :=
  { base :=
      { impl := some client_buffer_impl,
        width := int_of_uint32 tex.width, height := int_of_uint32 tex.height,
        dropped := true, n_locks := 1, accessing_data_ptr := false,
        events_destroy := [], events_release := [.own_release], egl_stream := none },
    resource := some resource,
    resource_released := resource_released,
    texture := some tex,
    resource_destroy :=
      { link := .inserted (.resource_destroy resource.id),
        notify := some .client_buffer_resource_handle_destroy },
    release :=
      { link := .inserted .buffer_release,
        notify := some .client_buffer_handle_release } }

/-- The temporary shm client buffer as `wlr_client_buffer_import` hands it to
`wlr_texture_from_buffer`: created from the resource, locked, dropped. -/
def shm_client_buffer_for_upload (sys : Sys) (resource : wl_resource) : Option Buffer :=
  match shm_client_buffer_create sys resource with
  | .returned (some shm_client_buffer) _ =>
    match (wlr_buffer_lock (.live (.shm shm_client_buffer))).bind id wlr_buffer_drop with
    | .returned (.live b) _ => some b
    | _ => none
  | _ => none

/-- Classification of the resource and upload of the texture `tex` succeed, in
one of the four branches of the import: shared memory, legacy DRM, DMA-BUF,
buffer stream. -/
def import_uploads (sys : Sys) (renderer : wlr_renderer) (resource : wl_resource)
    (tex : wlr_texture) : Prop :=
  (resource.shm_buffer.isSome = true ∧
    ∃ b, shm_client_buffer_for_upload sys resource = some b ∧
      (renderer.texture_from_buffer b).1 = some tex) ∨
  (resource.shm_buffer = none ∧ renderer.resource_is_wl_drm_buffer resource = true ∧
    renderer.texture_from_wl_drm resource = some tex) ∨
  (resource.shm_buffer = none ∧ renderer.resource_is_wl_drm_buffer resource = false ∧
    ∃ dmabuf, resource.dmabuf = some dmabuf ∧
      (renderer.texture_from_buffer (.other dmabuf.base)).1 = some tex) ∨
  (resource.shm_buffer = none ∧ renderer.resource_is_wl_drm_buffer resource = false ∧
    resource.dmabuf = none ∧ renderer.texture_from_wl_eglstream resource = some tex)

/-! ## Example inputs -/

/-- A capability table of a backend outside the file, with an access pair. -/
def example_impl : wlr_buffer_impl :=
  { destroy := some (.external 0), get_dmabuf := none, get_shm := none,
    begin_data_ptr_access := some (.external 0),
    end_data_ptr_access := some (.external 0) }

/-- A buffer of that backend with one consumer listener on each signal. -/
def example_buffer (dropped : Bool) (n_locks : Nat) (accessing : Bool) : Buffer :=
  .other { wlr_buffer.zeroed with
    impl := some example_impl, width := 4, height := 4, dropped := dropped,
    n_locks := n_locks, accessing_data_ptr := accessing,
    events_release := [.external 1], events_destroy := [.external 2] }

/-- Memory that was used before: three locks held and the drop flag set. -/
def used_memory : wlr_buffer :=
  { wlr_buffer.zeroed with n_locks := 3, dropped := true }

/-- A 4 by 4 shared-memory resource. -/
def example_shm_resource : wl_resource :=
  { id := 42, class_is_wl_buffer := true,
    shm_buffer := some ⟨4, 4, 16, 1, 4096, 7⟩,
    dmabuf := none }

/-- A resource of no known buffer type. -/
def example_unknown_resource : wl_resource :=
  { id := 43, class_is_wl_buffer := true, shm_buffer := none, dmabuf := none }

/-- A 4 by 4 texture. -/
def example_texture : wlr_texture := { id := 9, width := 4, height := 4 }

/-- A renderer that uploads every buffer to the example texture without
taking a lock, and knows no legacy DRM or buffer-stream resource. -/
def example_renderer : wlr_renderer :=
  { resource_is_wl_drm_buffer := fun _ => false,
    texture_from_wl_drm := fun _ => none,
    texture_from_buffer := fun _ => (some example_texture, false),
    texture_from_wl_eglstream := fun _ => none }

/-- A system in which allocation succeeds. -/
def example_sys : Sys :=
  { calloc_shm_client_buffer := true, calloc_client_buffer := true,
    convert_wl_shm_format_to_drm := id, begin_data_ptr_access := fun _ _ => none }

/-! ## Damage upload -/

/-- Value of an `int32_t` expression of mathematical value `i`: a value outside
the range wraps (two's complement). -/
def int32_wrap (i : Int) : Int := int_of_uint32 (uint32_of_int i)

/-- Expression `a - b` on `int32_t` operands. An overflow, which C leaves
undefined, is taken to wrap; `pixman_box32.fits` names the rectangles where
none occurs. -/
def int32_sub (a b : Int) : Int := int32_wrap (a - b)

/-- Rectangle `pixman_box32_t`. -/
structure pixman_box32 where
  x1 : Int
  y1 : Int
  x2 : Int
  y2 : Int
deriving DecidableEq, Repr

/-- Function `wl_shm_buffer_get` of libwayland: NULL for a NULL resource and for
a resource that is not shared-memory-backed. -/
def wl_shm_buffer_get (resource : Option wl_resource) : Option wl_shm_buffer :=
  match resource with
  | none => none
  | some r => r.shm_buffer

/-- Behaviour of `wlr_texture_write_pixels`: whether the write with the given
arguments succeeds. The first argument is the number of writes the running
call of `wlr_client_buffer_apply_damage` made before. -/
structure TextureOps where
  write_pixels : Nat → wlr_texture → Int → Int → Int → Int → Int → Int → Int → Nat → Bool

/-- The call of `wlr_texture_write_pixels` for the rectangle `r`. -/
def damage_write (texture : wlr_texture) (stride : Int) (data : Nat) (r : pixman_box32) :
    Effect :=
  .wlr_texture_write_pixels texture.id stride (int32_sub r.x2 r.x1) (int32_sub r.y2 r.y1)
    r.x1 r.y1 r.x1 r.y1 data

/-- Result of that call when `i` writes were made before. -/
def write_box (ops : TextureOps) (i : Nat) (texture : wlr_texture) (stride : Int)
    (data : Nat) (r : pixman_box32) : Bool :=
  ops.write_pixels i texture stride (int32_sub r.x2 r.x1) (int32_sub r.y2 r.y1)
    r.x1 r.y1 r.x1 r.y1 data

/-- Loop of `wlr_client_buffer_apply_damage` over the rectangles, the first of
them being number `i`: the writes made, and whether all succeeded. The loop
stops at the first write that fails. -/
def write_damage (ops : TextureOps) (texture : wlr_texture) (stride : Int) (data : Nat) :
    Nat → List pixman_box32 → List Effect × Bool
  | _, [] => ([], true)
  | i, r :: rs =>
    if write_box ops i texture stride data r then
      (damage_write texture stride data r :: (write_damage ops texture stride data (i + 1) rs).1,
        (write_damage ops texture stride data (i + 1) rs).2)
    else ([damage_write texture stride data r], false)

/-- Result of `wlr_client_buffer_apply_damage`: the provided object after the
call, and whether the call returns it (`true`) or NULL (`false`). -/
structure DamageResult where
  buffer : wlr_client_buffer
  updated : Bool
deriving DecidableEq, Repr

/-- Function `wlr_client_buffer_apply_damage`; `damage` is the list of the
rectangles of the region. -/
def wlr_client_buffer_apply_damage (ops : TextureOps) (buffer : wlr_client_buffer)
    (resource : wl_resource) (damage : List pixman_box32) : Outcome DamageResult :=
  if ¬ resource.class_is_wl_buffer then .aborted .assertion ⟨buffer, false⟩ []
  else if buffer.base.n_locks > 1 then .returned ⟨buffer, false⟩ []
  else
    match wl_shm_buffer_get (some resource), wl_shm_buffer_get buffer.resource with
    | some shm_buf, some old_shm_buf =>
      if shm_buf.format ≠ old_shm_buf.format then .returned ⟨buffer, false⟩ []
      else
        match buffer.texture with
        | none => .aborted .undefined ⟨buffer, false⟩ []
        | some texture =>
          if uint32_of_int shm_buf.width ≠ texture.width ∨
              uint32_of_int shm_buf.height ≠ texture.height then
            .returned ⟨buffer, false⟩ []
          else if (write_damage ops texture shm_buf.stride shm_buf.data 0 damage).2 = false then
            .returned ⟨buffer, false⟩
              (.wl_shm_buffer_begin_access shm_buf ::
                (write_damage ops texture shm_buf.stride shm_buf.data 0 damage).1 ++
                [.wl_shm_buffer_end_access shm_buf])
          else
            match wl_list_remove buffer.resource_destroy.link with
            | .error f =>
              .aborted f ⟨buffer, false⟩
                (.wl_shm_buffer_begin_access shm_buf ::
                  (write_damage ops texture shm_buf.stride shm_buf.data 0 damage).1 ++
                  [.wl_shm_buffer_end_access shm_buf, .wl_buffer_send_release resource.id])
            | .ok _ =>
              .returned
                ⟨{ buffer with
                    resource_destroy :=
                      { link := .inserted (.resource_destroy resource.id),
                        notify := some .client_buffer_resource_handle_destroy },
                    resource := some resource,
                    resource_released := true }, true⟩
                (.wl_shm_buffer_begin_access shm_buf ::
                  (write_damage ops texture shm_buf.stride shm_buf.data 0 damage).1 ++
                  [.wl_shm_buffer_end_access shm_buf, .wl_buffer_send_release resource.id])
    | _, _ => .returned ⟨buffer, false⟩ []

/-! ## Destruction of the resource by the client -/

/-- The lifecycle calls, and the notification that the client destroyed the
resource. -/
inductive ClientOp where
  | call (op : Op)
  | resource_destroyed
deriving DecidableEq, Repr

/-- Emission of the destroy signal of the client's resource: it calls the
`resource_destroy` listener of the buffer when the listener is inserted in
that signal. -/
def resource_destroyed (r : Ref) : Outcome Ref :=
  match r with
  | .live (.client cb) =>
    match cb.resource_destroy.link, cb.resource_destroy.notify with
    | .inserted (.resource_destroy _), some fn => (call_notify fn (.client cb)).map Ref.live
    | .inserted (.resource_destroy _), none => .aborted .undefined r []
    | _, _ => .returned r []
  | .live (.shm sb) =>
    match sb.resource_destroy.link, sb.resource_destroy.notify with
    | .inserted (.resource_destroy _), some fn => (call_notify fn (.shm sb)).map Ref.live
    | .inserted (.resource_destroy _), none => .aborted .undefined r []
    | _, _ => .returned r []
  | r => .returned r []

/-- One call or notification on the pointer. -/
def client_step (r : Ref) : ClientOp → Outcome Ref
  | .call op => step r op
  | .resource_destroyed => resource_destroyed r

/-- A sequence of calls and notifications, up to the first that does not
return. -/
def client_run : Ref → List ClientOp → Outcome Ref
  | r, [] => .returned r []
  | r, op :: ops => (client_step r op).bind id (fun r1 => client_run r1 ops)


/-! ## Vocabulary of the later statements -/

/-- Posting of a protocol error on a resource. -/
def Effect.is_protocol_error : Effect → Bool
  | .wl_resource_post_error _ _ _ => true
  | .wl_resource_post_no_memory _ => true
  | _ => false

/-- Classification of the resource succeeds in the shared-memory, legacy DRM
or DMA-BUF branch of the import, and the upload returns no texture. -/
def import_upload_fails (sys : Sys) (renderer : wlr_renderer) (resource : wl_resource) :
    Prop :=
  (resource.shm_buffer.isSome = true ∧
    ∃ b, shm_client_buffer_for_upload sys resource = some b ∧
      (renderer.texture_from_buffer b).1 = none) ∨
  (resource.shm_buffer = none ∧ renderer.resource_is_wl_drm_buffer resource = true ∧
    renderer.texture_from_wl_drm resource = none) ∨
  (resource.shm_buffer = none ∧ renderer.resource_is_wl_drm_buffer resource = false ∧
    ∃ dmabuf, resource.dmabuf = some dmabuf ∧
      (renderer.texture_from_buffer (.other dmabuf.base)).1 = none)

/-- One access session: begin, then, when begin returned true, end. The result
is the buffer after the session and the values begin wrote. -/
def access_session (sys : Sys) (b : Buffer) : Outcome (Buffer × Option DataPtr) :=
  (buffer_begin_data_ptr_access sys b).bind id fun res =>
    match res.2 with
    | none => .returned res []
    | some out => (buffer_end_data_ptr_access res.1).map fun b1 => (b1, some out)

/-- A renderer whose uploads fail. -/
def failing_renderer : wlr_renderer :=
  { resource_is_wl_drm_buffer := fun _ => false,
    texture_from_wl_drm := fun _ => none,
    texture_from_buffer := fun _ => (none, true),
    texture_from_wl_eglstream := fun _ => none }

/-- A write oracle under which the write number `k` fails and the others
succeed. -/
def failing_write (k : Nat) : TextureOps :=
  { write_pixels := fun i _ _ _ _ _ _ _ _ _ => decide (i ≠ k) }

/-- A second 4 by 4 shared-memory resource, of the same format. -/
def example_new_resource : wl_resource :=
  { id := 44, class_is_wl_buffer := true,
    shm_buffer := some ⟨4, 4, 16, 1, 8192, 7⟩,
    dmabuf := none }

/-- Two rectangles that do not overlap. -/
def example_damage : List pixman_box32 := [⟨0, 0, 2, 2⟩, ⟨2, 2, 4, 4⟩]

/-- The coordinates differences of the rectangle fit in `int32_t`. -/
def pixman_box32.fits (r : pixman_box32) : Prop :=
  -2 ^ 31 ≤ r.x2 - r.x1 ∧ r.x2 - r.x1 < 2 ^ 31 ∧
  -2 ^ 31 ≤ r.y2 - r.y1 ∧ r.y2 - r.y1 < 2 ^ 31

/-- The integer is a value of `int32_t`. -/
def is_int32 (i : Int) : Prop := -2 ^ 31 ≤ i ∧ i < 2 ^ 31

/-- The number is a value of `uint32_t`. -/
def is_uint32 (u : Nat) : Prop := u < 2 ^ 32

/-- A release notification to a resource. -/
def Effect.is_send_release : Effect → Bool
  | .wl_buffer_send_release _ => true
  | _ => false

/-- Number of release notifications in a trace. -/
def sends (t : List Effect) : Nat := t.countP Effect.is_send_release

/-- Number of release notifications the client buffer still owes to its
resource: one when `resource_released` is false and the resource is attached,
none otherwise. -/
def wlr_client_buffer.release_pending (cb : wlr_client_buffer) : Nat :=
  match cb.resource_released, cb.resource with
  | false, some _ => 1
  | _, _ => 0

/-- A renderer whose upload returns no texture and takes no lock on the buffer
it is given. -/
def failing_renderer_without_lock : wlr_renderer :=
  { resource_is_wl_drm_buffer := fun _ => false,
    texture_from_wl_drm := fun _ => none,
    texture_from_buffer := fun _ => (none, false),
    texture_from_wl_eglstream := fun _ => none }

/-- The `resource_destroy` listener of the client buffer is inserted in the
destroy signal of a resource, with `client_buffer_resource_handle_destroy` as
its notify function. -/
def wlr_client_buffer.resource_destroy_registered (cb : wlr_client_buffer) : Bool :=
  match cb.resource_destroy.link, cb.resource_destroy.notify with
  | .inserted (.resource_destroy _), some .client_buffer_resource_handle_destroy => true
  | _, _ => false

/-! # Theorems

## Outcomes and traces -/

@[simp]
theorem Outcome.trace_after {α : Type} (t0 : List Effect) (o : Outcome α) :
    (o.after t0).trace = t0 ++ o.trace := by
  cases o <;> rfl

@[simp]
theorem Outcome.state_after {α : Type} (t0 : List Effect) (o : Outcome α) :
    (o.after t0).state = o.state := by
  cases o <;> rfl

@[simp]
theorem Outcome.trace_map {α β : Type} (g : α → β) (o : Outcome α) :
    (o.map g).trace = o.trace := by
  cases o <;> rfl

@[simp]
theorem Outcome.state_map {α β : Type} (g : α → β) (o : Outcome α) :
    (o.map g).state = g o.state := by
  cases o <;> rfl

theorem Outcome.bind_returned {α β : Type} (v : α) (t : List Effect) (g : α → β)
    (k : α → Outcome β) : (Outcome.returned v t).bind g k = (k v).after t := rfl

theorem Outcome.bind_aborted {α β : Type} (f : Fault) (s : α) (t : List Effect) (g : α → β)
    (k : α → Outcome β) : (Outcome.aborted f s t).bind g k = .aborted f (g s) t := rfl

theorem Outcome.after_returned {α : Type} (t0 t : List Effect) (v : α) :
    (Outcome.returned v t).after t0 = .returned v (t0 ++ t) := rfl

theorem Outcome.after_aborted {α : Type} (t0 t : List Effect) (f : Fault) (s : α) :
    (Outcome.aborted f s t).after t0 = .aborted f s (t0 ++ t) := rfl

theorem Outcome.after_eq_returned {α : Type} (t0 t : List Effect) (o : Outcome α) (v : α)
    (h : o.after t0 = .returned v t) : ∃ t1, o = .returned v t1 ∧ t = t0 ++ t1 := by
  cases o with
  | returned v1 t1 => cases h; exact ⟨t1, rfl, rfl⟩
  | aborted f s t1 => cases h

@[simp]
theorem lifecycle_nil : lifecycle [] = [] := rfl

@[simp]
theorem lifecycle_append (s t : List Effect) :
    lifecycle (s ++ t) = lifecycle s ++ lifecycle t := by
  simp [lifecycle]

theorem lifecycle_cons (e : Effect) (t : List Effect) :
    lifecycle (e :: t) = if e.is_lifecycle then e :: lifecycle t else lifecycle t := by
  simp [lifecycle, List.filter_cons]

theorem can_notify_client (cb cb1 : wlr_client_buffer) (h : cb1.release = cb.release) :
    (Buffer.client cb1).can_notify = (Buffer.client cb).can_notify := by
  funext l; cases l <;> simp [Buffer.can_notify, h]

theorem can_notify_shm (sb sb1 : wlr_shm_client_buffer) (h : sb1.release = sb.release) :
    (Buffer.shm sb1).can_notify = (Buffer.shm sb).can_notify := by
  funext l; cases l <;> simp [Buffer.can_notify, h]

theorem client_buffer_handle_release_inv (cb : wlr_client_buffer) :
    ∃ cb1 t, client_buffer_handle_release cb = .returned cb1 t ∧
      cb1.base = cb.base ∧ cb1.release = cb.release ∧ lifecycle t = [] := by
  unfold client_buffer_handle_release
  split
  · exact ⟨_, _, rfl, rfl, rfl, rfl⟩
  · exact ⟨_, _, rfl, rfl, rfl, rfl⟩

theorem shm_client_buffer_handle_release_inv (sb : wlr_shm_client_buffer) :
    ∃ t, shm_client_buffer_handle_release sb = .returned sb t ∧ lifecycle t = [] := by
  unfold shm_client_buffer_handle_release
  split
  · exact ⟨_, rfl, rfl⟩
  · exact ⟨_, rfl, rfl⟩

theorem client_buffer_resource_handle_destroy_inv (cb : wlr_client_buffer) :
    (client_buffer_resource_handle_destroy cb).state.base = cb.base ∧
    (client_buffer_resource_handle_destroy cb).state.release = cb.release ∧
    lifecycle (client_buffer_resource_handle_destroy cb).trace = [] := by
  unfold client_buffer_resource_handle_destroy
  split <;> simp [Outcome.state, Outcome.trace]

theorem shm_client_buffer_resource_handle_destroy_inv (sb : wlr_shm_client_buffer) :
    (shm_client_buffer_resource_handle_destroy sb).state.base = sb.base ∧
    (shm_client_buffer_resource_handle_destroy sb).state.release = sb.release ∧
    lifecycle (shm_client_buffer_resource_handle_destroy sb).trace = [] := by
  unfold shm_client_buffer_resource_handle_destroy
  split
  · simp [Outcome.state, Outcome.trace]
  · split <;> simp [Outcome.state, Outcome.trace, lifecycle, Effect.is_lifecycle, Effect.is_teardown]

/-- What a notify function of the file leaves unchanged. -/
theorem call_notify_inv (fn : NotifyFn) (b : Buffer) :
    (call_notify fn b).state.base = b.base ∧
    (call_notify fn b).state.can_notify = b.can_notify ∧
    lifecycle (call_notify fn b).trace = [] := by
  cases fn <;> cases b <;> simp only [call_notify, Outcome.state_map, Outcome.trace_map]
  case client_buffer_handle_release.client cb =>
    obtain ⟨cb1, t, h, h1, h2, h3⟩ := client_buffer_handle_release_inv cb
    simp [h, Outcome.state, Outcome.trace, Buffer.base, h1, h3, can_notify_client cb cb1 h2]
  case client_buffer_resource_handle_destroy.client cb =>
    obtain ⟨h1, h2, h3⟩ := client_buffer_resource_handle_destroy_inv cb
    simp [Buffer.base, h1, h3, can_notify_client _ _ h2]
  case shm_client_buffer_handle_release.shm sb =>
    obtain ⟨t, h, h3⟩ := shm_client_buffer_handle_release_inv sb
    simp [h, Outcome.state, Outcome.trace, h3]
  case shm_client_buffer_resource_handle_destroy.shm sb =>
    obtain ⟨h1, h2, h3⟩ := shm_client_buffer_resource_handle_destroy_inv sb
    simp [Buffer.base, h1, h3, can_notify_shm _ _ h2]
  all_goals simp [Outcome.state, Outcome.trace]

/-- A release handler called on the object of its own type returns. -/
theorem notify_listener_inv (l : ListenerRef) (b : Buffer) :
    (notify_listener l b).state.base = b.base ∧
    (notify_listener l b).state.can_notify = b.can_notify ∧
    lifecycle (notify_listener l b).trace = [] ∧
    (b.can_notify l = true → ∃ b1 t, notify_listener l b = .returned b1 t) := by
  cases l with
  | external id =>
    simp [notify_listener, Outcome.state, Outcome.trace, lifecycle, Effect.is_lifecycle,
      Effect.is_teardown]
  | own_release =>
    unfold notify_listener
    simp only
    cases hl : b.release_listener with
    | none =>
      cases b <;> simp [Buffer.release_listener] at hl
      simp [Outcome.state, Outcome.trace, Buffer.can_notify]
    | some listener =>
      simp only
      cases hn : listener.notify with
      | none =>
        cases b <;> simp [Buffer.release_listener] at hl <;>
          simp [Outcome.state, Outcome.trace, Buffer.can_notify, hl, hn]
      | some fn =>
        obtain ⟨h1, h2, h3⟩ := call_notify_inv fn b
        refine ⟨h1, h2, h3, ?_⟩
        intro hc
        cases b with
        | client cb =>
          simp [Buffer.release_listener] at hl
          simp [Buffer.can_notify, hl, hn] at hc
          subst hc
          obtain ⟨cb1, t, h, _⟩ := client_buffer_handle_release_inv cb
          exact ⟨.client cb1, t, by simp [call_notify, h, Outcome.map]⟩
        | shm sb =>
          simp [Buffer.release_listener] at hl
          simp [Buffer.can_notify, hl, hn] at hc
          subst hc
          obtain ⟨t, h, _⟩ := shm_client_buffer_handle_release_inv sb
          exact ⟨.shm sb, t, by simp [call_notify, h, Outcome.map]⟩
        | other ob => simp [Buffer.can_notify] at hc

theorem notify_all_inv (ls : List ListenerRef) (b : Buffer) :
    (notify_all ls b).state.base = b.base ∧
    (notify_all ls b).state.can_notify = b.can_notify ∧
    lifecycle (notify_all ls b).trace = [] ∧
    (ls.all b.can_notify = true → ∃ b1 t, notify_all ls b = .returned b1 t) := by
  induction ls generalizing b with
  | nil => simp [notify_all, Outcome.state, Outcome.trace]
  | cons l ls ih =>
    obtain ⟨h1, h2, h3, h4⟩ := notify_listener_inv l b
    unfold notify_all
    cases hn : notify_listener l b with
    | aborted f s t =>
      rw [hn] at h1 h2 h3 h4
      simp only [Outcome.state, Outcome.trace] at h1 h2 h3
      refine ⟨by simpa [Outcome.bind, Outcome.state] using h1,
        by simpa [Outcome.bind, Outcome.state] using h2,
        by simpa [Outcome.bind, Outcome.trace] using h3, ?_⟩
      intro hall
      simp only [List.all_cons, Bool.and_eq_true] at hall
      obtain ⟨b1, t1, h⟩ := h4 hall.1
      cases h
    | returned b1 t =>
      rw [hn] at h1 h2 h3
      simp only [Outcome.state, Outcome.trace] at h1 h2 h3
      obtain ⟨i1, i2, i3, i4⟩ := ih b1
      simp only [Outcome.bind, Outcome.state_after, Outcome.trace_after, lifecycle_append]
      refine ⟨by rw [i1, h1], by rw [i2, h2], by simp [h3, i3], ?_⟩
      intro hall
      simp only [List.all_cons, Bool.and_eq_true] at hall
      rw [← h2] at hall
      obtain ⟨b2, t2, h⟩ := i4 hall.2
      exact ⟨b2, t ++ t2, by simp [h, Outcome.after]⟩


theorem count_teardown (rest : List Effect) (h : ∀ e ∈ rest, e.is_teardown = true)
    (e0 : Effect) (h0 : e0.is_teardown = false) : rest.count e0 = 0 := by
  rw [List.count_eq_zero]
  intro hmem
  have := h e0 hmem
  rw [h0] at this
  cases this

theorem count_lifecycle (t : List Effect) (e : Effect) (he : e.is_lifecycle = true) :
    t.count e = (lifecycle t).count e := by
  unfold lifecycle
  rw [List.count_filter he]

theorem client_buffer_destroy_inv (b : Buffer) :
    (∃ rest, lifecycle (client_buffer_destroy b).trace = rest ∧
      ∀ e ∈ rest, e.is_teardown = true) ∧
    ((client_buffer_destroy b).state = .live b ∨
      ∃ last, (client_buffer_destroy b).state = .freed last ∧ last.base = b.base) ∧
    (∀ r t, client_buffer_destroy b = .returned r t → ∃ last, r = .freed last) := by
  unfold client_buffer_destroy
  split
  · simp [Outcome.state, Outcome.trace]
  · rename_i cb hcb
    have hb : cb.base = b.base := by
      unfold client_buffer_from_buffer wlr_client_buffer_get at hcb
      split at hcb <;> try cases hcb
      rename_i h
      split at h <;> try cases h
      split at h <;> try cases h
      rfl
    cases h1 : cb.resource_released <;> cases h2 : cb.resource <;>
      cases h3 : cb.resource_destroy.link <;>
      simp [wl_list_remove, Outcome.state, Outcome.trace, lifecycle, Effect.is_lifecycle,
        Effect.is_teardown, Buffer.base, hb]

theorem shm_client_buffer_destroy_inv (b : Buffer) :
    (∃ rest, lifecycle (shm_client_buffer_destroy b).trace = rest ∧
      ∀ e ∈ rest, e.is_teardown = true) ∧
    ((shm_client_buffer_destroy b).state = .live b ∨
      ∃ last, (shm_client_buffer_destroy b).state = .freed last ∧
        last.base.dropped = b.base.dropped ∧ last.base.n_locks = b.base.n_locks ∧
        last.base.accessing_data_ptr = b.base.accessing_data_ptr) ∧
    (∀ r t, shm_client_buffer_destroy b = .returned r t → ∃ last, r = .freed last) := by
  unfold shm_client_buffer_destroy
  split
  · simp [Outcome.state, Outcome.trace]
  · rename_i sb hsb
    have hb : sb.base = b.base := by
      unfold shm_client_buffer_from_buffer at hsb
      split at hsb <;> try cases hsb
      split at hsb <;> try cases hsb
      rfl
    cases h1 : sb.saved_shm_pool <;> cases h2 : sb.release.link <;>
      cases h3 : sb.resource_destroy.link <;>
      simp [wl_list_remove, Outcome.state, Outcome.trace, lifecycle, Effect.is_lifecycle,
        Effect.is_teardown, Buffer.base, hb]


theorem impl_destroy_inv (b : Buffer) :
    teardown_shape (lifecycle (impl_destroy b).trace) ∧
    same_counts b (impl_destroy b).state ∧
    (∀ r t, impl_destroy b = .returned r t → ∃ last, r = .freed last) ∧
    ((∃ impl, b.base.impl = some impl ∧ impl.destroy.isSome = true) →
      ∃ rest, lifecycle (impl_destroy b).trace = .impl_destroy :: rest ∧
        ∀ e ∈ rest, e.is_teardown = true) := by
  unfold impl_destroy
  have hlive : same_counts b (.live b) := ⟨b, Or.inl rfl, rfl, rfl, rfl⟩
  split
  · rename_i h
    exact ⟨Or.inl rfl, hlive, by simp, by simp [h]⟩
  · rename_i impl himpl
    split
    · rename_i h
      refine ⟨Or.inl rfl, hlive, by simp, ?_⟩
      rintro ⟨i, hi, hd⟩
      rw [himpl] at hi
      cases hi
      simp [h] at hd
    · obtain ⟨⟨rest, h1, h2⟩, h3, h4⟩ := client_buffer_destroy_inv b
      have hl : lifecycle ((client_buffer_destroy b).after [.impl_destroy]).trace =
          .impl_destroy :: rest := by
        simp [h1, lifecycle_cons, Effect.is_lifecycle]
      refine ⟨Or.inr ⟨rest, hl, h2⟩, ?_, ?_, fun _ => ⟨rest, hl, h2⟩⟩
      · rw [Outcome.state_after]
        rcases h3 with h3 | ⟨last, h3, hb⟩
        · rw [h3]; exact hlive
        · rw [h3]; exact ⟨last, Or.inr rfl, by rw [hb], by rw [hb], by rw [hb]⟩
      · intro r t h
        cases hc : client_buffer_destroy b with
        | aborted f s t1 => rw [hc] at h; cases h
        | returned r1 t1 =>
          rw [hc] at h; cases h
          exact h4 _ _ hc
    · obtain ⟨⟨rest, h1, h2⟩, h3, h4⟩ := shm_client_buffer_destroy_inv b
      have hl : lifecycle ((shm_client_buffer_destroy b).after [.impl_destroy]).trace =
          .impl_destroy :: rest := by
        simp [h1, lifecycle_cons, Effect.is_lifecycle]
      refine ⟨Or.inr ⟨rest, hl, h2⟩, ?_, ?_, fun _ => ⟨rest, hl, h2⟩⟩
      · rw [Outcome.state_after]
        rcases h3 with h3 | ⟨last, h3, hb⟩
        · rw [h3]; exact hlive
        · rw [h3]; exact ⟨last, Or.inr rfl, hb⟩
      · intro r t h
        cases hc : shm_client_buffer_destroy b with
        | aborted f s t1 => rw [hc] at h; cases h
        | returned r1 t1 =>
          rw [hc] at h; cases h
          exact h4 _ _ hc
    · have hl : lifecycle (Outcome.returned (Ref.freed b) [Effect.impl_destroy]).trace =
          [.impl_destroy] := rfl
      exact ⟨Or.inr ⟨[], hl, by simp⟩, ⟨b, Or.inr rfl, rfl, rfl, rfl⟩, by simp,
        fun _ => ⟨[], hl, by simp⟩⟩


theorem same_counts_of_base (b b1 : Buffer) (r : Ref) (h : b1.base = b.base)
    (hr : same_counts b1 r) : same_counts b r := by
  obtain ⟨last, h1, h2, h3, h4⟩ := hr
  exact ⟨last, h1, by rw [h2, h], by rw [h3, h], by rw [h4, h]⟩

theorem wf_iff (b : Buffer) :
    b.wf = true ↔
      (∃ impl, b.base.impl = some impl ∧ impl.destroy.isSome = true) ∧
      b.base.events_release.all b.can_notify = true ∧
      b.base.events_destroy.all b.can_notify = true := by
  unfold Buffer.wf
  cases h : b.base.impl <;> simp [and_assoc]

theorem buffer_consider_destroy_inv (b : Buffer) :
    destroy_shape (lifecycle (buffer_consider_destroy b).trace) ∧
    same_counts b (buffer_consider_destroy b).state ∧
    (lifecycle (buffer_consider_destroy b).trace ≠ [] → b.destroyable) ∧
    (¬ b.destroyable → (buffer_consider_destroy b).trace = []) ∧
    (∀ r t, buffer_consider_destroy b = .returned r t →
      (r = .live b ∧ t = []) ∨ (∃ last, r = .freed last ∧ lifecycle t ≠ [])) ∧
    (b.wf = true → b.destroyable →
      ∃ rest, lifecycle (buffer_consider_destroy b).trace =
          .signal_destroy :: .impl_destroy :: rest ∧
        ∀ e ∈ rest, e.is_teardown = true) := by
  have hlive : same_counts b (.live b) := ⟨b, Or.inl rfl, rfl, rfl, rfl⟩
  unfold buffer_consider_destroy
  split
  · rename_i h
    have hnd : ¬ b.destroyable := by
      rintro ⟨h1, h2, -⟩
      rcases h with h | h
      · rw [h1] at h; cases h
      · omega
    exact ⟨Or.inl rfl, hlive, by simp [Outcome.trace], by simp [Outcome.trace],
      by simp, fun _ hd => absurd hd hnd⟩
  · rename_i h
    have hd : b.base.dropped = true ∧ b.base.n_locks = 0 := by
      constructor
      · cases hdr : b.base.dropped
        · exact absurd (Or.inl hdr) h
        · rfl
      · by_contra hn
        exact h (Or.inr (Nat.pos_of_ne_zero hn))
    split
    · rename_i hacc
      have hnd : ¬ b.destroyable := by
        rintro ⟨-, -, h3⟩
        rw [h3] at hacc; cases hacc
      exact ⟨Or.inl rfl, hlive, by simp [Outcome.trace], by simp [Outcome.trace],
        by simp, fun _ hd => absurd hd hnd⟩
    · rename_i hacc
      have hdes : b.destroyable := ⟨hd.1, hd.2, by simpa using hacc⟩
      obtain ⟨n1, n2, n3, n4⟩ := notify_all_inv b.base.events_destroy b
      unfold emit_destroy
      cases hn : notify_all b.base.events_destroy b with
      | aborted f s t =>
        rw [hn] at n1 n3 n4
        simp only [Outcome.state, Outcome.trace] at n1 n3
        have hl : lifecycle (Effect.signal_destroy :: t) = [.signal_destroy] := by
          simp [lifecycle_cons, Effect.is_lifecycle, n3]
        simp only [Outcome.after_aborted, Outcome.bind_aborted, Outcome.trace, Outcome.state,
          List.singleton_append]
        refine ⟨Or.inr ⟨[], hl, Or.inl rfl⟩, ⟨s, Or.inl rfl, by rw [n1], by rw [n1],
          by rw [n1]⟩, fun _ => hdes, fun h => absurd hdes h, by simp, ?_⟩
        intro hwf _
        obtain ⟨-, -, hall⟩ := (wf_iff b).1 hwf
        obtain ⟨b1, t1, h⟩ := n4 hall
        cases h
      | returned b1 t =>
        rw [hn] at n1 n3
        simp only [Outcome.state, Outcome.trace] at n1 n3
        obtain ⟨d1, d2, d3, d4⟩ := impl_destroy_inv b1
        have hl : lifecycle ([Effect.signal_destroy] ++ t) = [.signal_destroy] := by
          simp [lifecycle_cons, Effect.is_lifecycle, n3]
        simp only [Outcome.after_returned, Outcome.bind_returned, Outcome.trace_after,
          Outcome.state_after, lifecycle_append]
        rw [← lifecycle_append, hl]
        refine ⟨Or.inr ⟨_, rfl, d1⟩, same_counts_of_base b b1 _ n1 d2, fun _ => hdes,
          fun h => absurd hdes h, ?_, ?_⟩
        · intro r t2 h
          right
          obtain ⟨t1, hi, ht⟩ := Outcome.after_eq_returned _ _ _ _ h
          obtain ⟨last, hlast⟩ := d3 _ _ hi
          refine ⟨last, hlast, ?_⟩
          rw [ht, lifecycle_append, hl]
          simp
        · intro hwf _
          obtain ⟨hdest, -, -⟩ := (wf_iff b).1 hwf
          rw [← n1] at hdest
          obtain ⟨rest, hr, hrest⟩ := d4 hdest
          exact ⟨rest, by rw [hr]; rfl, hrest⟩


theorem mem_lifecycle (t : List Effect) (e : Effect) (he : e.is_lifecycle = true) :
    e ∈ t ↔ e ∈ lifecycle t := by
  simp [lifecycle, List.mem_filter, he]

theorem mem_sd (t : List Effect) :
    Effect.signal_destroy ∈ t ↔ Effect.signal_destroy ∈ lifecycle t :=
  mem_lifecycle t .signal_destroy rfl

theorem mem_id (t : List Effect) :
    Effect.impl_destroy ∈ t ↔ Effect.impl_destroy ∈ lifecycle t :=
  mem_lifecycle t .impl_destroy rfl

theorem count_sr (t : List Effect) :
    t.count .signal_release = (lifecycle t).count .signal_release :=
  count_lifecycle t .signal_release rfl

theorem count_sd (t : List Effect) :
    t.count .signal_destroy = (lifecycle t).count .signal_destroy :=
  count_lifecycle t .signal_destroy rfl

theorem count_id (t : List Effect) :
    t.count .impl_destroy = (lifecycle t).count .impl_destroy :=
  count_lifecycle t .impl_destroy rfl

theorem teardown_shape_counts (l : List Effect) (h : teardown_shape l) :
    l.count .signal_release = 0 ∧ l.count .signal_destroy = 0 ∧ l.count .impl_destroy ≤ 1 := by
  rcases h with h | ⟨rest, h, hr⟩
  · subst h; simp
  · subst h
    have h1 := count_teardown rest hr .signal_release rfl
    have h2 := count_teardown rest hr .signal_destroy rfl
    have h3 := count_teardown rest hr .impl_destroy rfl
    simp [List.count_cons, h1, h2, h3]

theorem destroy_shape_counts (l : List Effect) (h : destroy_shape l) :
    l.count .signal_release = 0 ∧ l.count .signal_destroy ≤ 1 ∧ l.count .impl_destroy ≤ 1 := by
  rcases h with h | ⟨rest, h, hr⟩
  · subst h; simp
  · subst h
    obtain ⟨h1, h2, h3⟩ := teardown_shape_counts rest hr
    simp [List.count_cons, h1, h2, h3]

theorem unlock_shape_counts (l : List Effect) (h : unlock_shape l) :
    l.count .signal_release ≤ 1 ∧ l.count .signal_destroy ≤ 1 ∧ l.count .impl_destroy ≤ 1 := by
  rcases h with h | ⟨rest, h, hr⟩
  · subst h; simp
  · subst h
    obtain ⟨h1, h2, h3⟩ := destroy_shape_counts rest hr
    simp [List.count_cons, h1, h2, h3]

theorem destroy_fired_lifecycle (t : List Effect) (h : destroy_fired t) : lifecycle t ≠ [] := by
  intro hnil
  rcases h with h | h
  · rw [mem_sd, hnil] at h; cases h
  · rw [mem_id, hnil] at h; cases h

theorem can_notify_set_base (b : Buffer) (base : wlr_buffer) :
    (b.set_base base).can_notify = b.can_notify := by
  funext l
  cases l <;> cases b <;> rfl

@[simp]
theorem base_set_base (b : Buffer) (base : wlr_buffer) :
    (b.set_base base).base = base := by
  cases b <;> rfl

theorem wlr_buffer_drop_inv (b : Buffer) :
    destroy_shape (lifecycle (wlr_buffer_drop (.live b)).trace) ∧
    (destroy_fired (wlr_buffer_drop (.live b)).trace →
      ∃ last, ((wlr_buffer_drop (.live b)).state = .live last ∨
          (wlr_buffer_drop (.live b)).state = .freed last) ∧
        last.base.dropped = true ∧ last.base.n_locks = 0) ∧
    (∀ r t, wlr_buffer_drop (.live b) = .returned r t →
      (∃ b1, r = .live b1 ∧ t = []) ∨ (∃ last, r = .freed last)) ∧
    (b.wf = true → b.base.dropped = false → b.base.n_locks = 0 →
      b.base.accessing_data_ptr = false →
      ∃ rest, lifecycle (wlr_buffer_drop (.live b)).trace =
          .signal_destroy :: .impl_destroy :: rest ∧
        ∀ e ∈ rest, e.is_teardown = true) ∧
    (¬ (b.base.dropped = false ∧ b.base.n_locks = 0 ∧ b.base.accessing_data_ptr = false) →
      (wlr_buffer_drop (.live b)).trace = []) := by
  unfold wlr_buffer_drop
  simp only
  split
  · rename_i hd
    refine ⟨Or.inl rfl, ?_, by simp, ?_, by simp [Outcome.trace]⟩
    · intro h
      exact absurd rfl (destroy_fired_lifecycle _ h)
    · intro _ h
      rw [h] at hd; cases hd
  · rename_i hd
    obtain ⟨c1, c2, c3, c4, c5, c6⟩ :=
      buffer_consider_destroy_inv (b.set_base { b.base with dropped := true })
    refine ⟨c1, ?_, ?_, ?_, ?_⟩
    · intro h
      obtain ⟨h1, h2, -⟩ := c3 (destroy_fired_lifecycle _ h)
      obtain ⟨last, hl, l1, l2, -⟩ := c2
      exact ⟨last, hl, by rw [l1, h1], by rw [l2, h2]⟩
    · intro r t h
      rcases c5 r t h with ⟨h1, h2⟩ | ⟨last, h1, -⟩
      · exact Or.inl ⟨_, h1, h2⟩
      · exact Or.inr ⟨last, h1⟩
    · intro hwf _ hn hacc
      apply c6
      · rw [wf_iff] at hwf ⊢
        simpa [can_notify_set_base] using hwf
      · exact ⟨by simp, by simpa using hn, by simpa using hacc⟩
    · intro h
      apply c4
      rintro ⟨-, h2, h3⟩
      apply h
      refine ⟨by simpa using hd, by simpa using h2, by simpa using h3⟩


theorem not_destroy_fired_of_lifecycle (t : List Effect) (h : lifecycle t = []) :
    ¬ destroy_fired t := fun hf => destroy_fired_lifecycle t hf h

theorem wlr_buffer_unlock_inv (b : Buffer) :
    unlock_shape (lifecycle (wlr_buffer_unlock (.live b)).trace) ∧
    (wlr_buffer_unlock (.live b)).trace.count .signal_release =
      (if b.base.n_locks = 1 then 1 else 0) ∧
    (destroy_fired (wlr_buffer_unlock (.live b)).trace →
      ∃ last, ((wlr_buffer_unlock (.live b)).state = .live last ∨
          (wlr_buffer_unlock (.live b)).state = .freed last) ∧
        last.base.dropped = true ∧ last.base.n_locks = 0) ∧
    (∀ r t, wlr_buffer_unlock (.live b) = .returned r t →
      (∃ b1, r = .live b1 ∧ ¬ destroy_fired t) ∨ (∃ last, r = .freed last)) ∧
    (b.wf = true → b.base.n_locks = 1 → b.base.dropped = true →
      b.base.accessing_data_ptr = false →
      ∃ rest, lifecycle (wlr_buffer_unlock (.live b)).trace =
          .signal_release :: .signal_destroy :: .impl_destroy :: rest ∧
        ∀ e ∈ rest, e.is_teardown = true) ∧
    (¬ (b.base.n_locks = 1 ∧ b.base.dropped = true ∧ b.base.accessing_data_ptr = false) →
      lifecycle (wlr_buffer_unlock (.live b)).trace =
        if b.base.n_locks = 1 then [.signal_release] else []) := by
  unfold wlr_buffer_unlock
  simp only
  split
  · rename_i hn
    have hn0 : b.base.n_locks ≠ 1 := by omega
    refine ⟨Or.inl rfl, by simp [Outcome.trace, hn0], ?_, by simp, ?_,
      by simp [Outcome.trace, hn0]⟩
    · intro h
      exact absurd rfl (destroy_fired_lifecycle _ h)
    · intro _ h
      omega
  · rename_i hn
    simp only [base_set_base]
    split
    · rename_i h0
      have h1 : b.base.n_locks = 1 := by omega
      obtain ⟨n1, n2, n3, n4⟩ := notify_all_inv
        (b.set_base { b.base with n_locks := b.base.n_locks - 1 }).base.events_release
        (b.set_base { b.base with n_locks := b.base.n_locks - 1 })
      simp only [base_set_base] at n1 n2 n3 n4
      unfold emit_release
      simp only [base_set_base]
      cases hna : notify_all b.base.events_release
          (b.set_base { b.base with n_locks := b.base.n_locks - 1 }) with
      | aborted f s t =>
        rw [hna] at n1 n3 n4
        simp only [Outcome.state, Outcome.trace] at n1 n3
        have hl : lifecycle ([Effect.signal_release] ++ t) = [.signal_release] := by
          simp [lifecycle_cons, Effect.is_lifecycle, n3]
        have hc : ([Effect.signal_release] ++ t).count .signal_release = 1 := by
          rw [count_sr, hl]; rfl
        simp only [Outcome.after_aborted, Outcome.bind_aborted, Outcome.trace, Outcome.state]
        rw [hl, hc]
        refine ⟨Or.inr ⟨[], rfl, Or.inl rfl⟩, by simp [h1], ?_, by simp, ?_, by simp [h1]⟩
        · intro h
          exfalso
          have := destroy_fired_lifecycle _ h
          rw [hl] at this
          rcases h with h | h
          · rw [mem_sd, hl] at h; simp at h
          · rw [mem_id, hl] at h; simp at h
        · intro hwf _ _ _
          obtain ⟨-, hall, -⟩ := (wf_iff b).1 hwf
          rw [can_notify_set_base] at n4
          obtain ⟨b1, t1, h⟩ := n4 hall
          cases h
      | returned b1 t =>
        rw [hna] at n1 n2 n3
        simp only [Outcome.state, Outcome.trace] at n1 n2 n3
        have hl : lifecycle ([Effect.signal_release] ++ t) = [.signal_release] := by
          simp [lifecycle_cons, Effect.is_lifecycle, n3]
        obtain ⟨c1, c2, c3, c4, c5, c6⟩ := buffer_consider_destroy_inv b1
        simp only [Outcome.after_returned, Outcome.bind_returned, Outcome.trace_after,
          Outcome.state_after, lifecycle_append]
        rw [← lifecycle_append, hl]
        have hfired : destroy_fired ([Effect.signal_release] ++ t ++
            (buffer_consider_destroy b1).trace) →
            lifecycle (buffer_consider_destroy b1).trace ≠ [] := by
          intro h hnil
          rcases h with h | h
          · rw [mem_sd, lifecycle_append, hl, hnil] at h; simp at h
          · rw [mem_id, lifecycle_append, hl, hnil] at h; simp at h
        refine ⟨Or.inr ⟨_, rfl, c1⟩, ?_, ?_, ?_, ?_, ?_⟩
        · rw [count_sr, lifecycle_append, hl]
          simp [h1, (destroy_shape_counts _ c1).1]
        · intro h
          obtain ⟨d1, d2, -⟩ := c3 (hfired h)
          obtain ⟨last, hlast, l1, l2, -⟩ := c2
          exact ⟨last, hlast, by rw [l1, d1], by rw [l2, d2]⟩
        · intro r t1 h
          obtain ⟨t2, hc, ht⟩ := Outcome.after_eq_returned _ _ _ _ h
          rcases c5 r t2 hc with ⟨hr, ht2⟩ | ⟨last, hr, -⟩
          · left
            refine ⟨b1, hr, ?_⟩
            rw [ht, ht2, List.append_nil]
            intro hf
            rcases hf with hf | hf
            · rw [mem_sd, hl] at hf; simp at hf
            · rw [mem_id, hl] at hf; simp at hf
          · exact Or.inr ⟨last, hr⟩
        · intro hwf _ hd hacc
          have hwf1 : b1.wf = true := by
            rw [wf_iff] at hwf ⊢
            rw [n1, n2, can_notify_set_base]
            simpa using hwf
          have hdes : b1.destroyable := by
            refine ⟨by rw [n1]; simpa using hd, by rw [n1]; simpa using h0,
              by rw [n1]; simpa using hacc⟩
          obtain ⟨rest, hr, hrest⟩ := c6 hwf1 hdes
          exact ⟨rest, by rw [hr]; rfl, hrest⟩
        · intro h
          have hnd : ¬ b1.destroyable := by
            rintro ⟨d1, d2, d3⟩
            rw [n1] at d1 d3
            exact h ⟨h1, by simpa using d1, by simpa using d3⟩
          rw [c4 hnd]
          simp [h1]
    · rename_i h0
      have h1 : b.base.n_locks ≠ 1 := by omega
      obtain ⟨c1, c2, c3, c4, c5, c6⟩ :=
        buffer_consider_destroy_inv (b.set_base { b.base with n_locks := b.base.n_locks - 1 })
      have hnd : ¬ (b.set_base { b.base with n_locks := b.base.n_locks - 1 }).destroyable := by
        rintro ⟨-, d2, -⟩
        simp only [base_set_base] at d2
        exact h0 d2
      rw [c4 hnd] at c1 ⊢
      refine ⟨Or.inl rfl, by simp [h1], ?_, ?_, ?_, by simp [h1]⟩
      · intro h
        exact absurd rfl (destroy_fired_lifecycle _ h)
      · intro r t h
        rcases c5 r t h with ⟨hr, ht⟩ | ⟨last, hr, hne⟩
        · exact Or.inl ⟨_, hr, by rw [ht]; exact not_destroy_fired_of_lifecycle _ rfl⟩
        · exact Or.inr ⟨last, hr⟩
      · intro _ h
        exact absurd h h1


/-! ## Lifecycle claims -/

/-- C1: on a well-formed buffer, `wlr_buffer_drop` (buffer not yet dropped) and
`wlr_buffer_unlock` (buffer with `n_locks > 0`) call the backend's destroy
callback, once, exactly when the state left by the call's own mutation has
`dropped` true, `n_locks` 0 and no data pointer session open; in every other
case the callback is not called. -/
theorem destroy_callback_iff_destroyable (b : Buffer) (hwf : b.wf = true) :
    (b.base.dropped = false →
      (wlr_buffer_drop (.live b)).trace.count .impl_destroy ≤ 1 ∧
      (Effect.impl_destroy ∈ (wlr_buffer_drop (.live b)).trace ↔
        (b.set_base { b.base with dropped := true }).destroyable)) ∧
    (b.base.n_locks > 0 →
      (wlr_buffer_unlock (.live b)).trace.count .impl_destroy ≤ 1 ∧
      (Effect.impl_destroy ∈ (wlr_buffer_unlock (.live b)).trace ↔
        (b.set_base { b.base with n_locks := b.base.n_locks - 1 }).destroyable)) := by
  constructor
  · intro hd
    obtain ⟨d1, -, -, d4, d5⟩ := wlr_buffer_drop_inv b
    refine ⟨by rw [count_id]; exact (destroy_shape_counts _ d1).2.2, ?_⟩
    unfold Buffer.destroyable
    simp only [base_set_base]
    constructor
    · intro hmem
      by_contra hnot
      rw [d5 (fun h => hnot ⟨trivial, h.2.1, h.2.2⟩)] at hmem
      cases hmem
    · rintro ⟨-, h2, h3⟩
      obtain ⟨rest, hr, -⟩ := d4 hwf hd h2 h3
      rw [mem_id, hr]
      simp
  · intro hn
    obtain ⟨u1, -, -, -, u5, u6⟩ := wlr_buffer_unlock_inv b
    refine ⟨by rw [count_id]; exact (unlock_shape_counts _ u1).2.2, ?_⟩
    unfold Buffer.destroyable
    simp only [base_set_base]
    constructor
    · intro hmem
      by_contra hnot
      have h := u6 (fun h => hnot ⟨h.2.1, by omega, h.2.2⟩)
      rw [mem_id, h] at hmem
      split at hmem <;> simp at hmem
    · rintro ⟨h1, h2, h3⟩
      obtain ⟨rest, hr, -⟩ := u5 hwf (by omega) h1 h3
      rw [mem_id, hr]
      simp

/-- Witness of C1: the last unlock of a dropped buffer calls the destroy
callback. -/
theorem destroy_callback_iff_destroyable_witness :
    Effect.impl_destroy ∈ (wlr_buffer_unlock (.live (example_buffer true 1 false))).trace :=
  ((destroy_callback_iff_destroyable (example_buffer true 1 false) (by decide)).2
    (by decide)).2.2 ⟨rfl, rfl, rfl⟩

theorem run_not_live (r : Ref) (ops : List Op) (h : ∀ b, r ≠ .live b) :
    (run r ops).trace = [] ∧ (run r ops).state = r := by
  induction ops with
  | nil => exact ⟨rfl, rfl⟩
  | cons op ops ih =>
    cases r with
    | live b => exact absurd rfl (h b)
    | null =>
      cases op
      · exact ⟨rfl, rfl⟩
      · simpa [run, step, wlr_buffer_unlock, Outcome.bind_returned] using ih
      · simpa [run, step, wlr_buffer_drop, Outcome.bind_returned] using ih
    | freed last => cases op <;> exact ⟨rfl, rfl⟩

theorem step_inv (b : Buffer) (op : Op) :
    (step (.live b) op).trace.count .signal_destroy ≤ 1 ∧
    (step (.live b) op).trace.count .impl_destroy ≤ 1 ∧
    (destroy_fired (step (.live b) op).trace →
      ∃ last, ((step (.live b) op).state = .live last ∨
          (step (.live b) op).state = .freed last) ∧
        last.base.dropped = true ∧ last.base.n_locks = 0) ∧
    (∀ r t, step (.live b) op = .returned r t →
      (∃ b1, r = .live b1 ∧ ¬ destroy_fired t) ∨ (∃ last, r = .freed last)) := by
  cases op with
  | lock =>
    refine ⟨by simp [step, wlr_buffer_lock, Outcome.trace],
      by simp [step, wlr_buffer_lock, Outcome.trace], ?_, ?_⟩
    · intro h
      exact absurd rfl (destroy_fired_lifecycle _ h)
    · intro r t h
      simp only [step, wlr_buffer_lock, Outcome.returned.injEq] at h
      exact Or.inl ⟨_, h.1.symm, by rw [← h.2]; exact not_destroy_fired_of_lifecycle _ rfl⟩
  | unlock =>
    obtain ⟨u1, -, u3, u4, -, -⟩ := wlr_buffer_unlock_inv b
    exact ⟨by rw [count_sd]; exact (unlock_shape_counts _ u1).2.1,
      by rw [count_id]; exact (unlock_shape_counts _ u1).2.2, u3, u4⟩
  | drop =>
    obtain ⟨d1, d2, d3, -, -⟩ := wlr_buffer_drop_inv b
    refine ⟨by rw [count_sd]; exact (destroy_shape_counts _ d1).2.1,
      by rw [count_id]; exact (destroy_shape_counts _ d1).2.2, d2, ?_⟩
    intro r t h
    rcases d3 r t h with ⟨b1, h1, h2⟩ | h1
    · exact Or.inl ⟨b1, h1, by rw [h2]; exact not_destroy_fired_of_lifecycle _ rfl⟩
    · exact Or.inr h1

theorem not_fired_counts (t : List Effect) (h : ¬ destroy_fired t) :
    t.count .signal_destroy = 0 ∧ t.count .impl_destroy = 0 := by
  constructor
  · rw [List.count_eq_zero]; exact fun hm => h (Or.inl hm)
  · rw [List.count_eq_zero]; exact fun hm => h (Or.inr hm)

theorem run_inv (ops : List Op) (b : Buffer) :
    (run (.live b) ops).trace.count .signal_destroy ≤ 1 ∧
    (run (.live b) ops).trace.count .impl_destroy ≤ 1 ∧
    (destroy_fired (run (.live b) ops).trace →
      ∃ last, ((run (.live b) ops).state = .live last ∨
          (run (.live b) ops).state = .freed last) ∧
        last.base.dropped = true ∧ last.base.n_locks = 0) ∧
    (∀ r t, run (.live b) ops = .returned r t → destroy_fired t →
      ∃ last, r = .freed last) := by
  induction ops generalizing b with
  | nil =>
    refine ⟨by simp [run, Outcome.trace], by simp [run, Outcome.trace], ?_, ?_⟩
    · intro h; exact absurd rfl (destroy_fired_lifecycle _ h)
    · intro r t h hf
      simp only [run, Outcome.returned.injEq] at h
      rw [← h.2] at hf
      exact absurd rfl (destroy_fired_lifecycle _ hf)
  | cons op ops ih =>
    obtain ⟨s1, s2, s3, s4⟩ := step_inv b op
    unfold run
    cases hs : step (.live b) op with
    | aborted f s t =>
      rw [hs] at s1 s2 s3
      simp only [Outcome.bind_aborted, id]
      exact ⟨s1, s2, s3, by simp⟩
    | returned r1 t1 =>
      rw [hs] at s1 s2 s3
      simp only [Outcome.trace, Outcome.state] at s1 s2 s3
      simp only [Outcome.bind_returned, Outcome.trace_after, Outcome.state_after]
      rcases s4 r1 t1 hs with ⟨b1, hr, hnf⟩ | ⟨last, hr⟩
      · subst hr
        obtain ⟨i1, i2, i3, i4⟩ := ih b1
        obtain ⟨z1, z2⟩ := not_fired_counts t1 hnf
        have hfired : destroy_fired (t1 ++ (run (.live b1) ops).trace) →
            destroy_fired (run (.live b1) ops).trace := by
          rintro (h | h)
          · rcases List.mem_append.1 h with h | h
            · exact absurd (Or.inl h) hnf
            · exact Or.inl h
          · rcases List.mem_append.1 h with h | h
            · exact absurd (Or.inr h) hnf
            · exact Or.inr h
        refine ⟨by rw [List.count_append, z1]; simpa using i1,
          by rw [List.count_append, z2]; simpa using i2, fun h => i3 (hfired h), ?_⟩
        intro r t h hf
        obtain ⟨t2, h2, ht⟩ := Outcome.after_eq_returned _ _ _ _ h
        apply i4 r t2 h2
        rw [h2] at hfired
        apply hfired
        rw [Outcome.trace, ← ht]
        exact hf
      · subst hr
        obtain ⟨n1, n2⟩ := run_not_live (.freed last) ops (by simp)
        rw [n1, n2, List.append_nil]
        refine ⟨s1, s2, s3, ?_⟩
        intro r t h _
        obtain ⟨t2, h2, -⟩ := Outcome.after_eq_returned _ _ _ _ h
        rw [h2] at n2
        exact ⟨last, n2⟩

/-- C2: in every sequence of lock, unlock and drop calls on a buffer (a call
that violates its precondition, or that follows the destruction, stops the
sequence), the destroy signal and the destroy callback each occur at most once,
and when one occurs the object it occurs on has `dropped` true and `n_locks`
0; a sequence that returns after one occurred leaves the object destroyed. -/
theorem destroy_at_most_once (b : Buffer) (ops : List Op) :
    (run (.live b) ops).trace.count .signal_destroy ≤ 1 ∧
    (run (.live b) ops).trace.count .impl_destroy ≤ 1 ∧
    (destroy_fired (run (.live b) ops).trace →
      ∃ last, ((run (.live b) ops).state = .live last ∨
          (run (.live b) ops).state = .freed last) ∧
        last.base.dropped = true ∧ last.base.n_locks = 0) ∧
    (∀ r t, run (.live b) ops = .returned r t → destroy_fired t →
      ∃ last, r = .freed last ∧ last.base.dropped = true ∧ last.base.n_locks = 0) := by
  obtain ⟨h1, h2, h3, h4⟩ := run_inv ops b
  refine ⟨h1, h2, h3, ?_⟩
  intro r t h hf
  obtain ⟨last, hlast⟩ := h4 r t h hf
  rw [h] at h3
  obtain ⟨last1, hl, hd, hn⟩ := h3 hf
  simp only [Outcome.state, hlast] at hl
  rcases hl with hl | hl
  · cases hl
  · cases hl
    exact ⟨last, hlast, hd, hn⟩


theorem step_release_count (r : Ref) (op : Op) :
    (step r op).trace.count .signal_release =
      if op = .unlock ∧ r.n_locks = some 1 then 1 else 0 := by
  cases r with
  | null => cases op <;> simp [step, wlr_buffer_lock, wlr_buffer_unlock, wlr_buffer_drop,
      Outcome.trace, Ref.n_locks]
  | freed last => cases op <;> simp [step, wlr_buffer_lock, wlr_buffer_unlock, wlr_buffer_drop,
      Outcome.trace, Ref.n_locks]
  | live b =>
    cases op with
    | lock => simp [step, wlr_buffer_lock, Outcome.trace]
    | unlock =>
      obtain ⟨-, u2, -⟩ := wlr_buffer_unlock_inv b
      simp only [step, u2, Ref.n_locks, true_and, Option.some.injEq]
    | drop =>
      obtain ⟨d1, -⟩ := wlr_buffer_drop_inv b
      have := (destroy_shape_counts _ d1).1
      rw [← count_sr] at this
      simp [step, this]

theorem run_release_count (ops : List Op) (r : Ref) :
    (run r ops).trace.count .signal_release = release_transitions r ops := by
  induction ops generalizing r with
  | nil => simp [run, release_transitions, Outcome.trace]
  | cons op ops ih =>
    have hs := step_release_count r op
    unfold run release_transitions
    cases hst : step r op with
    | aborted f s t =>
      rw [hst] at hs
      simp only [Outcome.trace] at hs
      simp only [Outcome.bind_aborted, Outcome.trace, hs, Nat.add_zero]
    | returned r1 t =>
      rw [hst] at hs
      simp only [Outcome.trace] at hs
      simp only [Outcome.bind_returned, Outcome.trace_after, List.count_append, hs, ih r1]

/-- C3: `wlr_buffer_lock` emits nothing; `wlr_buffer_unlock` emits the release
signal once when it finds `n_locks` equal to 1 (and takes it to 0) and not at
all when it finds another value, 0 included; so in every sequence of calls the
number of release signals is the number of unlock calls that take `n_locks`
from 1 to 0. -/
theorem release_once_per_transition (b : Buffer) (r : Ref) (ops : List Op) :
    (wlr_buffer_lock (.live b)).trace = [] ∧
    (wlr_buffer_unlock (.live b)).trace.count .signal_release =
      (if b.base.n_locks = 1 then 1 else 0) ∧
    (run r ops).trace.count .signal_release = release_transitions r ops :=
  ⟨rfl, (wlr_buffer_unlock_inv b).2.1, run_release_count ops r⟩

/-- C4: the lifecycle events of an unlock are, in this order, the release
signal, the destroy signal, the call of the destroy callback and the teardown
effects of the callback, or an initial part of this list; those of a drop are
the destroy signal, the destroy callback and its teardown effects, or an
initial part. On a well-formed buffer without an open data pointer session the
unlock of a dropped buffer with `n_locks = 1` produces the three events, and
so does, without the release signal, the drop of a buffer with
`n_locks = 0`. With a session open the last unlock stops at the assertion of
`buffer_consider_destroy`, after the release signal. -/
theorem release_then_destroy_then_teardown (b : Buffer) :
    unlock_shape (lifecycle (wlr_buffer_unlock (.live b)).trace) ∧
    destroy_shape (lifecycle (wlr_buffer_drop (.live b)).trace) ∧
    (b.wf = true → b.base.accessing_data_ptr = false →
      b.base.dropped = true → b.base.n_locks = 1 →
      ∃ rest, lifecycle (wlr_buffer_unlock (.live b)).trace =
          .signal_release :: .signal_destroy :: .impl_destroy :: rest ∧
        ∀ e ∈ rest, e.is_teardown = true) ∧
    (b.wf = true → b.base.accessing_data_ptr = false →
      b.base.dropped = false → b.base.n_locks = 0 →
      ∃ rest, lifecycle (wlr_buffer_drop (.live b)).trace =
          .signal_destroy :: .impl_destroy :: rest ∧
        ∀ e ∈ rest, e.is_teardown = true) ∧
    (b.base.accessing_data_ptr = true → b.base.n_locks = 1 →
      lifecycle (wlr_buffer_unlock (.live b)).trace = [.signal_release]) := by
  obtain ⟨u1, -, -, -, u5, u6⟩ := wlr_buffer_unlock_inv b
  obtain ⟨d1, -, -, d4, -⟩ := wlr_buffer_drop_inv b
  refine ⟨u1, d1, fun hwf hacc hd hn => u5 hwf hn hd hacc,
    fun hwf hacc hd hn => d4 hwf hd hn hacc, ?_⟩
  intro hacc hn
  rw [u6 (fun h => by rw [hacc] at h; cases h.2.2), if_pos hn]

/-- Witness of C4: the last unlock of a dropped buffer of the example
backend. -/
theorem release_then_destroy_then_teardown_witness :
    ∃ rest, lifecycle (wlr_buffer_unlock (.live (example_buffer true 1 false))).trace =
        .signal_release :: .signal_destroy :: .impl_destroy :: rest ∧
      ∀ e ∈ rest, e.is_teardown = true :=
  (release_then_destroy_then_teardown (example_buffer true 1 false)).2.2.1
    (by decide) rfl rfl rfl

/-- C6: a drop of a buffer that is already dropped fails the assertion before
anything else happens: the buffer is as it was, and neither signal nor
destroy evaluation has run. -/
theorem second_drop_is_fatal (b : Buffer) (hd : b.base.dropped = true) :
    wlr_buffer_drop (.live b) = .aborted .assertion (.live b) [] := by
  simp [wlr_buffer_drop, hd]

/-- Witness of C6: a dropped buffer that one lock keeps alive. -/
theorem second_drop_is_fatal_witness :
    wlr_buffer_drop (.live (example_buffer true 1 false)) =
      .aborted .assertion (.live (example_buffer true 1 false)) [] :=
  second_drop_is_fatal (example_buffer true 1 false) rfl

/-- C7: an unlock of a buffer with `n_locks = 0` fails the assertion before
anything else happens: the counter is not decremented, and neither the release
signal nor a destroy evaluation has run. -/
theorem unlock_without_lock_is_fatal (b : Buffer) (hn : b.base.n_locks = 0) :
    wlr_buffer_unlock (.live b) = .aborted .assertion (.live b) [] := by
  simp [wlr_buffer_unlock, hn]

/-- Witness of C7: a fresh buffer that was never locked. -/
theorem unlock_without_lock_is_fatal_witness :
    wlr_buffer_unlock (.live (example_buffer false 0 false)) =
      .aborted .assertion (.live (example_buffer false 0 false)) [] :=
  unlock_without_lock_is_fatal (example_buffer false 0 false) rfl


/-! ## Initialisation -/

/-- C5, as stated, fails: on memory that held three locks and a set drop flag
`wlr_buffer_init` returns with both still in place. -/
theorem init_keeps_locks_and_dropped :
    client_buffer_impl.valid = true ∧
    (wlr_buffer_init used_memory client_buffer_impl 4 4).state.n_locks = 3 ∧
    (wlr_buffer_init used_memory client_buffer_impl 4 4).state.dropped = true ∧
    ∃ b1, wlr_buffer_init used_memory client_buffer_impl 4 4 = .returned b1 [] := by
  refine ⟨rfl, rfl, rfl, _, rfl⟩

theorem wlr_buffer_init_valid (buffer : wlr_buffer) (impl : wlr_buffer_impl)
    (width height : Int) (hv : impl.valid = true) :
    wlr_buffer_init buffer impl width height =
      .returned { buffer with
        impl := some impl, width := width, height := height, egl_stream := none,
        events_destroy := [], events_release := [] } [] := by
  unfold wlr_buffer_impl.valid at hv
  unfold wlr_buffer_init
  cases hd : impl.destroy <;> cases hb : impl.begin_data_ptr_access <;>
    cases he : impl.end_data_ptr_access <;> simp [hd, hb, he] at hv ⊢

/-- C5, amended: on a buffer object whose memory holds `n_locks = 0` and
`dropped = false` (as `calloc` leaves it), with a valid table,
`wlr_buffer_init` returns with the buffer active: `n_locks = 0`,
`dropped = false`, the given width, height and table, and no listener on
either signal. The call itself leaves `n_locks`, `dropped` and
`accessing_data_ptr` as they were. -/
theorem init_on_zeroed_memory_is_active (buffer : wlr_buffer) (impl : wlr_buffer_impl)
    (width height : Int) (hv : impl.valid = true)
    (hn : buffer.n_locks = 0) (hd : buffer.dropped = false) :
    ∃ b1, wlr_buffer_init buffer impl width height = .returned b1 [] ∧
      b1.n_locks = 0 ∧ b1.dropped = false ∧
      b1.width = width ∧ b1.height = height ∧ b1.impl = some impl ∧
      b1.events_destroy = [] ∧ b1.events_release = [] ∧
      b1.n_locks = buffer.n_locks ∧ b1.dropped = buffer.dropped ∧
      b1.accessing_data_ptr = buffer.accessing_data_ptr :=
  ⟨_, wlr_buffer_init_valid buffer impl width height hv, hn, hd, rfl, rfl, rfl, rfl, rfl,
    rfl, rfl, rfl⟩

/-- Witness of the amended C5: zeroed memory and the client buffer table. -/
theorem init_on_zeroed_memory_is_active_witness :
    ∃ b1, wlr_buffer_init wlr_buffer.zeroed client_buffer_impl 4 4 = .returned b1 [] ∧
      b1.n_locks = 0 ∧ b1.dropped = false ∧
      b1.width = 4 ∧ b1.height = 4 ∧ b1.impl = some client_buffer_impl ∧
      b1.events_destroy = [] ∧ b1.events_release = [] ∧
      b1.n_locks = wlr_buffer.zeroed.n_locks ∧ b1.dropped = wlr_buffer.zeroed.dropped ∧
      b1.accessing_data_ptr = wlr_buffer.zeroed.accessing_data_ptr :=
  init_on_zeroed_memory_is_active wlr_buffer.zeroed client_buffer_impl 4 4 rfl rfl rfl


/-! ## Data pointer access sessions -/

theorem shm_begin_inv (b : Buffer) (r : Buffer × Option DataPtr) (t : List Effect)
    (h : shm_client_buffer_begin_data_ptr_access b = .returned r t) :
    r.1 = b ∧ r.2.isSome = true := by
  unfold shm_client_buffer_begin_data_ptr_access at h
  split at h
  · cases h
  · split at h <;> cases h <;> exact ⟨rfl, rfl⟩

theorem impl_begin_inv (sys : Sys) (fn : BeginFn) (b : Buffer)
    (r : Buffer × Option DataPtr) (t : List Effect)
    (h : impl_begin_data_ptr_access sys fn b = .returned r t) : r.1 = b := by
  cases fn with
  | shm_client_buffer_begin_data_ptr_access => exact (shm_begin_inv b r t h).1
  | external id =>
    simp only [impl_begin_data_ptr_access, Outcome.returned.injEq] at h
    rw [← h.1]

theorem begin_returned (sys : Sys) (b b1 : Buffer) (res : Option DataPtr) (t : List Effect)
    (h : buffer_begin_data_ptr_access sys b = .returned (b1, res) t) :
    b.base.accessing_data_ptr = false ∧
    (res = none → b1 = b) ∧
    (∀ out, res = some out →
      b1 = b.set_base { b.base with accessing_data_ptr := true }) := by
  unfold buffer_begin_data_ptr_access at h
  split at h
  · cases h
  · rename_i hacc
    refine ⟨by simpa using hacc, ?_⟩
    split at h
    · cases h
    · split at h
      · cases h
        exact ⟨fun _ => rfl, fun out ho => by cases ho⟩
      · rename_i fn hfn
        cases hi : impl_begin_data_ptr_access sys fn b with
        | aborted f s t1 => rw [hi] at h; cases h
        | returned r t1 =>
          have hr := impl_begin_inv sys fn b r t1 hi
          rw [hi, Outcome.bind_returned] at h
          obtain ⟨r1, r2⟩ := r
          simp only at hr
          subst hr
          cases r2 with
          | none =>
            simp only [Outcome.after_returned, Outcome.returned.injEq, Prod.mk.injEq] at h
            obtain ⟨⟨h1, h2⟩, -⟩ := h
            subst h1 h2
            exact ⟨fun _ => rfl, fun out ho => by cases ho⟩
          | some out =>
            simp only [Outcome.after_returned, Outcome.returned.injEq, Prod.mk.injEq] at h
            obtain ⟨⟨h1, h2⟩, -⟩ := h
            subst h1 h2
            exact ⟨fun ho => (by cases ho), fun _ _ => rfl⟩

theorem shm_end_inv (b b1 : Buffer) (t : List Effect)
    (h : shm_client_buffer_end_data_ptr_access b = .returned b1 t) : b1 = b := by
  unfold shm_client_buffer_end_data_ptr_access at h
  split at h
  · cases h
  · split at h <;> cases h <;> rfl

theorem impl_end_inv (b b1 : Buffer) (t : List Effect)
    (h : impl_end_data_ptr_access b = .returned b1 t) : b1 = b := by
  unfold impl_end_data_ptr_access at h
  split at h
  · cases h
  · split at h
    · cases h
    · exact shm_end_inv b b1 t h
    · cases h; rfl

theorem end_returned (b b1 : Buffer) (t : List Effect)
    (h : buffer_end_data_ptr_access b = .returned b1 t) :
    b.base.accessing_data_ptr = true ∧
    b1 = b.set_base { b.base with accessing_data_ptr := false } := by
  unfold buffer_end_data_ptr_access at h
  split at h
  · cases h
  · rename_i hacc
    refine ⟨by simpa using hacc, ?_⟩
    cases hi : impl_end_data_ptr_access b with
    | aborted f s t1 => rw [hi] at h; cases h
    | returned b2 t1 =>
      have := impl_end_inv b b2 t1 hi
      subst this
      rw [hi, Outcome.bind_returned] at h
      simp only [Outcome.after_returned, Outcome.returned.injEq] at h
      exact h.1.symm

theorem sessions_open_eq_flag (sys : Sys) (ops : List AccessOp) (b : Buffer) :
    sessions_open sys b (if b.base.accessing_data_ptr = true then 1 else 0) ops ≤ 1 := by
  induction ops generalizing b with
  | nil => unfold sessions_open; split <;> omega
  | cons op ops ih =>
    cases op with
    | begin_access =>
      unfold sessions_open
      split
      · rename_i b1 out t h
        obtain ⟨h1, -, h3⟩ := begin_returned sys b b1 _ t h
        have hb1 := h3 out rfl
        have := ih b1
        rw [hb1] at this ⊢
        simpa [h1] using this
      · rename_i b1 t h
        obtain ⟨h1, h2, -⟩ := begin_returned sys b b1 _ t h
        have hb1 := h2 rfl
        subst hb1
        exact ih b1
      · split <;> omega
    | end_access =>
      unfold sessions_open
      split
      · rename_i b1 t h
        obtain ⟨h1, h2⟩ := end_returned b b1 t h
        have := ih b1
        rw [h2] at this ⊢
        simpa [h1] using this
      · split <;> omega


theorem access_ok_iff (b : Buffer) :
    b.access_ok = true ↔ ∃ impl, b.base.impl = some impl ∧ impl.valid = true ∧
      (b.base.accessing_data_ptr = true → impl.begin_data_ptr_access.isSome = true) ∧
      ((∃ sb, b = .shm sb) → impl = shm_client_buffer_impl) ∧
      ((∀ sb, b ≠ .shm sb) →
        impl.begin_data_ptr_access ≠ some .shm_client_buffer_begin_data_ptr_access ∧
        impl.end_data_ptr_access ≠ some .shm_client_buffer_end_data_ptr_access) := by
  unfold Buffer.access_ok
  cases himpl : b.base.impl with
  | none => simp
  | some impl =>
    cases b <;> cases hacc : Buffer.base _ |>.accessing_data_ptr <;>
      simp_all [Buffer.base, and_assoc]

theorem begin_returns (sys : Sys) (b : Buffer) (hok : b.access_ok = true)
    (hacc : b.base.accessing_data_ptr = false) :
    ∃ b1 res t, buffer_begin_data_ptr_access sys b = .returned (b1, res) t := by
  obtain ⟨impl, himpl, -, -, hshm, hother⟩ := (access_ok_iff b).1 hok
  unfold buffer_begin_data_ptr_access
  simp only [hacc, himpl, Bool.false_eq_true, if_false]
  cases hb : impl.begin_data_ptr_access with
  | none => exact ⟨_, _, _, rfl⟩
  | some fn =>
    cases fn with
    | external id =>
      simp only [impl_begin_data_ptr_access, Outcome.bind_returned]
      cases sys.begin_data_ptr_access id b.base <;> exact ⟨_, _, _, rfl⟩
    | shm_client_buffer_begin_data_ptr_access =>
      cases b with
      | shm sb =>
        have hi := hshm ⟨sb, rfl⟩
        subst hi
        simp only [impl_begin_data_ptr_access, shm_client_buffer_begin_data_ptr_access,
          shm_client_buffer_from_buffer, himpl, ne_eq, not_true_eq_false, if_false]
        cases sb.shm_buffer <;> exact ⟨_, _, _, rfl⟩
      | client cb => exact absurd hb (hother (by simp)).1
      | other ob => exact absurd hb (hother (by simp)).1

theorem end_returns (b : Buffer) (hok : b.access_ok = true)
    (hacc : b.base.accessing_data_ptr = true) :
    ∃ b1 t, buffer_end_data_ptr_access b = .returned b1 t := by
  obtain ⟨impl, himpl, hv, hbeg, hshm, hother⟩ := (access_ok_iff b).1 hok
  have hb := hbeg hacc
  unfold wlr_buffer_impl.valid at hv
  simp only [hb, Bool.and_eq_true, beq_iff_eq] at hv
  have he : impl.end_data_ptr_access.isSome = true := hv.2.symm
  unfold buffer_end_data_ptr_access impl_end_data_ptr_access
  simp only [hacc, himpl, not_true_eq_false, if_false]
  cases hend : impl.end_data_ptr_access with
  | none => rw [hend] at he; cases he
  | some fn =>
    cases fn with
    | external id => exact ⟨_, _, rfl⟩
    | shm_client_buffer_end_data_ptr_access =>
      cases b with
      | shm sb =>
        have hi := hshm ⟨sb, rfl⟩
        subst hi
        simp only [shm_client_buffer_end_data_ptr_access,
          shm_client_buffer_from_buffer, himpl, ne_eq, not_true_eq_false, if_false]
        cases sb.shm_buffer <;> exact ⟨_, _, rfl⟩
      | client cb => exact absurd hend (hother (by simp)).2
      | other ob => exact absurd hend (hother (by simp)).2

/-- C8: a begin while a session is open and an end while none is open fail
their assertion, with the buffer as it was. A begin that returns true sets
`accessing_data_ptr`; a begin that returns false (the backend has no begin
callback, or its callback returns false) leaves the buffer, flag included, as
it was; an end that returns clears the flag. On a buffer whose access
callbacks belong to it, begin returns when no session is open and end returns
when one is. So along every sequence of the two calls the number of open
sessions is at most one. -/
theorem one_access_session_at_a_time (sys : Sys) (b : Buffer) (ops : List AccessOp) :
    (b.base.accessing_data_ptr = true →
      buffer_begin_data_ptr_access sys b = .aborted .assertion (b, none) []) ∧
    (b.base.accessing_data_ptr = false →
      buffer_end_data_ptr_access b = .aborted .assertion b []) ∧
    (∀ b1 out t, buffer_begin_data_ptr_access sys b = .returned (b1, some out) t →
      b.base.accessing_data_ptr = false ∧ b1.base.accessing_data_ptr = true ∧
      b1 = b.set_base { b.base with accessing_data_ptr := true }) ∧
    (∀ b1 t, buffer_begin_data_ptr_access sys b = .returned (b1, none) t →
      b1 = b ∧ b1.base.accessing_data_ptr = false) ∧
    (∀ b1 t, buffer_end_data_ptr_access b = .returned b1 t →
      b.base.accessing_data_ptr = true ∧ b1.base.accessing_data_ptr = false ∧
      b1 = b.set_base { b.base with accessing_data_ptr := false }) ∧
    (∀ impl, b.base.accessing_data_ptr = false → b.base.impl = some impl →
      impl.begin_data_ptr_access = none →
      buffer_begin_data_ptr_access sys b = .returned (b, none) []) ∧
    (∀ impl id, b.base.accessing_data_ptr = false → b.base.impl = some impl →
      impl.begin_data_ptr_access = some (.external id) →
      sys.begin_data_ptr_access id b.base = none →
      buffer_begin_data_ptr_access sys b = .returned (b, none) []) ∧
    (b.access_ok = true → b.base.accessing_data_ptr = false →
      ∃ b1 res t, buffer_begin_data_ptr_access sys b = .returned (b1, res) t) ∧
    (b.access_ok = true → b.base.accessing_data_ptr = true →
      ∃ b1 t, buffer_end_data_ptr_access b = .returned b1 t) ∧
    sessions_open sys b (if b.base.accessing_data_ptr = true then 1 else 0) ops ≤ 1 := by
  refine ⟨?_, ?_, ?_, ?_, ?_, ?_, ?_, begin_returns sys b, end_returns b,
    sessions_open_eq_flag sys ops b⟩
  · intro h
    simp [buffer_begin_data_ptr_access, h]
  · intro h
    simp [buffer_end_data_ptr_access, h]
  · intro b1 out t h
    obtain ⟨h1, -, h3⟩ := begin_returned sys b b1 _ t h
    have := h3 out rfl
    exact ⟨h1, by rw [this]; simp, this⟩
  · intro b1 t h
    obtain ⟨h1, h2, -⟩ := begin_returned sys b b1 _ t h
    have := h2 rfl
    exact ⟨this, by rw [this]; exact h1⟩
  · intro b1 t h
    obtain ⟨h1, h2⟩ := end_returned b b1 t h
    exact ⟨h1, by rw [h2]; simp, h2⟩
  · intro impl hacc himpl hb
    simp [buffer_begin_data_ptr_access, hacc, himpl, hb]
  · intro impl id hacc himpl hb hsys
    simp [buffer_begin_data_ptr_access, hacc, himpl, hb, impl_begin_data_ptr_access, hsys,
      Outcome.bind_returned, Outcome.after_returned]

/-- Witness of C8: a second begin on a buffer with an open session. -/
theorem one_access_session_at_a_time_witness :
    buffer_begin_data_ptr_access example_sys (example_buffer false 1 true) =
      .aborted .assertion (example_buffer false 1 true, none) [] :=
  (one_access_session_at_a_time example_sys (example_buffer false 1 true) []).1 rfl


/-! ## Import -/

theorem import_finish_some (sys : Sys) (resource : wl_resource) (tex : wlr_texture)
    (released : Bool) (shm : Ref) (halloc : sys.calloc_client_buffer = true) :
    wlr_client_buffer_import_finish sys resource (some tex) released shm =
      .returned ⟨.live (.client (imported_client_buffer resource tex released)), shm⟩ [] := by
  simp [wlr_client_buffer_import_finish, halloc, wlr_buffer_init, client_buffer_impl,
    Outcome.bind, Outcome.after, wlr_buffer_lock, wlr_buffer_drop, Buffer.set_base,
    Buffer.base, buffer_consider_destroy, wlr_client_buffer.zeroed, wlr_buffer.zeroed,
    wl_listener.zeroed, imported_client_buffer, SIZE_MOD]

theorem imported_unlock (resource : wl_resource) (tex : wlr_texture) (released : Bool) :
    wlr_buffer_unlock (.live (.client (imported_client_buffer resource tex released))) =
      .returned
        (.freed (.client { imported_client_buffer resource tex released with
          base := { (imported_client_buffer resource tex released).base with n_locks := 0 },
          resource_released := true,
          resource_destroy :=
            { link := .null, notify := some .client_buffer_resource_handle_destroy } }))
        (.signal_release ::
          ((if released then [] else [.wl_buffer_send_release resource.id]) ++
            [.signal_destroy, .impl_destroy, .wlr_texture_destroy (some tex.id), .free])) := by
  cases released <;>
    simp [wlr_buffer_unlock, imported_client_buffer, Buffer.base, Buffer.set_base,
      emit_release, emit_destroy, notify_all, notify_listener, Buffer.release_listener,
      call_notify, client_buffer_handle_release, Outcome.bind, Outcome.after, Outcome.map,
      buffer_consider_destroy, impl_destroy, client_buffer_impl, client_buffer_destroy,
      client_buffer_from_buffer, wlr_client_buffer_get, wl_list_remove]


theorem wlr_texture_from_buffer_live (renderer : wlr_renderer) (b : Buffer) :
    wlr_texture_from_buffer renderer (.live b) =
      .returned
        (.live (if (renderer.texture_from_buffer b).2 = true then
            b.set_base { b.base with n_locks := (b.base.n_locks + 1) % SIZE_MOD }
          else b),
          (renderer.texture_from_buffer b).1) [] := by
  unfold wlr_texture_from_buffer
  cases h : (renderer.texture_from_buffer b).2 <;> simp [wlr_buffer_lock, Outcome.map, h]

theorem shm_client_buffer_create_eq (sys : Sys) (resource : wl_resource)
    (shm_buffer : wl_shm_buffer) (hs : resource.shm_buffer = some shm_buffer)
    (hc : sys.calloc_shm_client_buffer = true) :
    shm_client_buffer_create sys resource =
      .returned (some (created_shm_client_buffer sys resource shm_buffer false 0)) [] := by
  simp [shm_client_buffer_create, hs, hc, wlr_buffer_init, shm_client_buffer_impl,
    Outcome.bind, Outcome.after, wlr_shm_client_buffer.zeroed, wlr_buffer.zeroed,
    wl_listener.zeroed, created_shm_client_buffer]

theorem created_lock (sys : Sys) (resource : wl_resource) (shm_buffer : wl_shm_buffer)
    (dropped : Bool) (n : Nat) (hn : n + 1 < SIZE_MOD) :
    wlr_buffer_lock (.live (.shm (created_shm_client_buffer sys resource shm_buffer dropped n)))
      = .returned
        (.live (.shm (created_shm_client_buffer sys resource shm_buffer dropped (n + 1)))) [] := by
  simp [wlr_buffer_lock, created_shm_client_buffer, Buffer.set_base, Buffer.base,
    Nat.mod_eq_of_lt hn]

theorem created_drop (sys : Sys) (resource : wl_resource) (shm_buffer : wl_shm_buffer)
    (n : Nat) :
    wlr_buffer_drop (.live (.shm (created_shm_client_buffer sys resource shm_buffer false (n + 1))))
      = .returned
        (.live (.shm (created_shm_client_buffer sys resource shm_buffer true (n + 1)))) [] := by
  simp [wlr_buffer_drop, created_shm_client_buffer, Buffer.set_base, Buffer.base,
    buffer_consider_destroy]

theorem created_unlock_two (sys : Sys) (resource : wl_resource) (shm_buffer : wl_shm_buffer) :
    wlr_buffer_unlock (.live (.shm (created_shm_client_buffer sys resource shm_buffer true 2)))
      = .returned
        (.live (.shm (created_shm_client_buffer sys resource shm_buffer true 1))) [] := by
  simp [wlr_buffer_unlock, created_shm_client_buffer, Buffer.set_base, Buffer.base,
    buffer_consider_destroy]

theorem created_unlock_one (sys : Sys) (resource : wl_resource) (shm_buffer : wl_shm_buffer) :
    wlr_buffer_unlock (.live (.shm (created_shm_client_buffer sys resource shm_buffer true 1)))
      = .returned
        (.freed (.shm { created_shm_client_buffer sys resource shm_buffer true 0 with
          base := { (created_shm_client_buffer sys resource shm_buffer true 0).base with
            events_release := [] },
          resource_destroy :=
            { link := .null, notify := some .shm_client_buffer_resource_handle_destroy },
          release := { link := .null, notify := some .shm_client_buffer_handle_release } }))
        [.signal_release, .wl_buffer_send_release resource.id, .signal_destroy,
          .impl_destroy, .free] := by
  simp [wlr_buffer_unlock, created_shm_client_buffer, Buffer.set_base, Buffer.base,
    buffer_consider_destroy, emit_release, emit_destroy, notify_all, notify_listener,
    Buffer.release_listener, call_notify, shm_client_buffer_handle_release, Outcome.bind,
    Outcome.after, Outcome.map, impl_destroy, shm_client_buffer_impl,
    shm_client_buffer_destroy, shm_client_buffer_from_buffer, wl_list_remove]

theorem shm_client_buffer_for_upload_eq (sys : Sys) (resource : wl_resource)
    (shm_buffer : wl_shm_buffer) (hs : resource.shm_buffer = some shm_buffer) :
    shm_client_buffer_for_upload sys resource =
      if sys.calloc_shm_client_buffer = true then
        some (.shm (created_shm_client_buffer sys resource shm_buffer true 1))
      else none := by
  cases hc : sys.calloc_shm_client_buffer with
  | false => simp [shm_client_buffer_for_upload, shm_client_buffer_create, hs, hc]
  | true =>
    simp only [shm_client_buffer_for_upload, shm_client_buffer_create_eq sys resource _ hs hc,
      created_lock sys resource shm_buffer false 0 (by decide), Outcome.bind_returned,
      created_drop, Outcome.after_returned, id, if_true]

theorem import_shm_branch (sys : Sys) (renderer : wlr_renderer) (resource : wl_resource)
    (tex : wlr_texture) (b : Buffer)
    (hclass : resource.class_is_wl_buffer = true)
    (halloc : sys.calloc_client_buffer = true)
    (hshm : resource.shm_buffer.isSome = true)
    (hfor : shm_client_buffer_for_upload sys resource = some b)
    (htex : (renderer.texture_from_buffer b).1 = some tex) :
    ∃ shm t, wlr_client_buffer_import sys renderer resource =
      .returned ⟨.live (.client (imported_client_buffer resource tex true)), shm⟩ t := by
  cases hs : resource.shm_buffer with
  | none => rw [hs] at hshm; cases hshm
  | some shm_buffer =>
    rw [shm_client_buffer_for_upload_eq sys resource shm_buffer hs] at hfor
    cases hc : sys.calloc_shm_client_buffer with
    | false => simp [hc] at hfor
    | true =>
      simp only [hc, if_true, Option.some.injEq] at hfor
      subst hfor
      simp only [wlr_client_buffer_import, hclass, hs, not_true_eq_false, if_false,
        Option.isSome_some, if_true, shm_client_buffer_create_eq sys resource _ hs hc,
        Outcome.bind_returned, Outcome.after_returned,
        created_lock sys resource shm_buffer false 0 (by decide), created_drop,
        wlr_texture_from_buffer_live, htex]
      cases hl : (renderer.texture_from_buffer
          (.shm (created_shm_client_buffer sys resource shm_buffer true 1))).2 with
      | false =>
        simp only [Bool.false_eq_true, if_false, created_unlock_one, Outcome.after_returned,
          import_finish_some _ _ _ _ _ halloc]
        exact ⟨_, _, rfl⟩
      | true =>
        have h2 : (Buffer.shm (created_shm_client_buffer sys resource shm_buffer true 1)).set_base
            { (Buffer.shm (created_shm_client_buffer sys resource shm_buffer true 1)).base with
              n_locks := ((Buffer.shm (created_shm_client_buffer sys resource shm_buffer true
                1)).base.n_locks + 1) % SIZE_MOD } =
            .shm (created_shm_client_buffer sys resource shm_buffer true 2) := by
          simp [created_shm_client_buffer, Buffer.set_base, Buffer.base, SIZE_MOD]
        simp only [if_true, h2, created_unlock_two, Outcome.after_returned,
          import_finish_some _ _ _ _ _ halloc]
        exact ⟨_, _, rfl⟩


theorem imported_client_buffer_wf (resource : wl_resource) (tex : wlr_texture)
    (released : Bool) :
    (Buffer.client (imported_client_buffer resource tex released)).wf = true := by
  simp [Buffer.wf, Buffer.base, imported_client_buffer, client_buffer_impl, Buffer.can_notify]

theorem created_shm_client_buffer_wf (sys : Sys) (resource : wl_resource)
    (shm_buffer : wl_shm_buffer) (dropped : Bool) (n : Nat) :
    (Buffer.shm (created_shm_client_buffer sys resource shm_buffer dropped n)).wf = true ∧
    (Buffer.shm (created_shm_client_buffer sys resource shm_buffer dropped n)).access_ok
      = true := by
  simp [Buffer.wf, Buffer.access_ok, Buffer.base, created_shm_client_buffer,
    shm_client_buffer_impl, Buffer.can_notify, wlr_buffer_impl.valid]

theorem initialised_buffer_wf (buffer : wlr_buffer) (impl : wlr_buffer_impl)
    (width height : Int) (hv : impl.valid = true) :
    ∃ b1, wlr_buffer_init buffer impl width height = .returned b1 [] ∧
      (Buffer.other b1).wf = true := by
  refine ⟨_, wlr_buffer_init_valid buffer impl width height hv, ?_⟩
  unfold wlr_buffer_impl.valid at hv
  simp only [Bool.and_eq_true] at hv
  simp [Buffer.wf, Buffer.base, hv.1]

theorem int_of_uint32_small (u : Nat) (h : u < 2 ^ 31) : int_of_uint32 u = (u : Int) := by
  unfold int_of_uint32
  have h1 : u % 2 ^ 32 = u := Nat.mod_eq_of_lt (by omega)
  rw [h1, if_pos h]

theorem import_returns_imported (sys : Sys) (renderer : wlr_renderer) (resource : wl_resource)
    (tex : wlr_texture) (hclass : resource.class_is_wl_buffer = true)
    (halloc : sys.calloc_client_buffer = true)
    (hup : import_uploads sys renderer resource tex) :
    ∃ released shm t, wlr_client_buffer_import sys renderer resource =
      .returned ⟨.live (.client (imported_client_buffer resource tex released)), shm⟩ t := by
  rcases hup with ⟨hshm, b, hfor, htex⟩ | ⟨hshm, hdrm, htex⟩ | ⟨hshm, hdrm, d, hd, htex⟩ |
    ⟨hshm, hdrm, hd, htex⟩
  · obtain ⟨shm, t, h⟩ :=
      import_shm_branch sys renderer resource tex b hclass halloc hshm hfor htex
    exact ⟨true, shm, t, h⟩
  · refine ⟨false, .null, [], ?_⟩
    simp [wlr_client_buffer_import, hclass, hshm, hdrm, htex,
      import_finish_some _ _ _ _ _ halloc]
  · refine ⟨true, .null, [], ?_⟩
    simp [wlr_client_buffer_import, hclass, hshm, hdrm, hd, htex,
      import_finish_some _ _ _ _ _ halloc]
  · refine ⟨false, .null, [], ?_⟩
    simp [wlr_client_buffer_import, hclass, hshm, hdrm, hd, htex,
      import_finish_some _ _ _ _ _ halloc]

/-- C9: when the resource is a buffer resource, its classification and the
upload of the texture succeed and the allocation of the client buffer
succeeds, `wlr_client_buffer_import` returns a live client buffer with
`n_locks = 1` and `dropped = true`, whose width and height are the texture's
width and height (as `int`, the type of the buffer's fields: the same numbers
for dimensions below 2^31), whose resource is the given resource and whose
texture is the uploaded one. One `wlr_buffer_unlock` on it then emits the
release signal once, emits the destroy signal, calls the destroy callback and
frees the buffer; no drop is needed. -/
theorem import_returns_locked_dropped_buffer (sys : Sys) (renderer : wlr_renderer)
    (resource : wl_resource) (tex : wlr_texture)
    (hclass : resource.class_is_wl_buffer = true)
    (halloc : sys.calloc_client_buffer = true)
    (hup : import_uploads sys renderer resource tex) :
    ∃ cb shm t,
      wlr_client_buffer_import sys renderer resource =
        .returned ⟨.live (.client cb), shm⟩ t ∧
      cb.base.n_locks = 1 ∧ cb.base.dropped = true ∧
      cb.base.width = int_of_uint32 tex.width ∧
      cb.base.height = int_of_uint32 tex.height ∧
      (tex.width < 2 ^ 31 → cb.base.width = (tex.width : Int)) ∧
      (tex.height < 2 ^ 31 → cb.base.height = (tex.height : Int)) ∧
      cb.resource = some resource ∧ cb.texture = some tex ∧
      ∃ last t1,
        wlr_buffer_unlock (.live (.client cb)) = .returned (.freed last) t1 ∧
        t1.count .signal_release = 1 ∧
        lifecycle t1 = [.signal_release, .signal_destroy, .impl_destroy,
          .wlr_texture_destroy (some tex.id), .free] := by
  obtain ⟨released, shm, t, h⟩ :=
    import_returns_imported sys renderer resource tex hclass halloc hup
  refine ⟨_, shm, t, h, rfl, rfl, rfl, rfl, int_of_uint32_small _, int_of_uint32_small _,
    rfl, rfl, _, _, imported_unlock resource tex released, ?_, ?_⟩
  · cases released <;> simp
  · cases released <;> simp [lifecycle, Effect.is_lifecycle, Effect.is_teardown]

/-- Witness of C9: the 4 by 4 shared-memory resource of the example. -/
theorem import_returns_locked_dropped_buffer_witness :
    ∃ cb shm t,
      wlr_client_buffer_import example_sys example_renderer example_shm_resource =
        .returned ⟨.live (.client cb), shm⟩ t ∧
      cb.base.n_locks = 1 ∧ cb.base.dropped = true ∧
      cb.base.width = int_of_uint32 example_texture.width ∧
      cb.base.height = int_of_uint32 example_texture.height ∧
      (example_texture.width < 2 ^ 31 → cb.base.width = (example_texture.width : Int)) ∧
      (example_texture.height < 2 ^ 31 → cb.base.height = (example_texture.height : Int)) ∧
      cb.resource = some example_shm_resource ∧ cb.texture = some example_texture ∧
      ∃ last t1,
        wlr_buffer_unlock (.live (.client cb)) = .returned (.freed last) t1 ∧
        t1.count .signal_release = 1 ∧
        lifecycle t1 = [.signal_release, .signal_destroy, .impl_destroy,
          .wlr_texture_destroy (some example_texture.id), .free] :=
  import_returns_locked_dropped_buffer example_sys example_renderer example_shm_resource
    example_texture rfl rfl
    (Or.inl ⟨rfl,
      .shm (created_shm_client_buffer example_sys example_shm_resource ⟨4, 4, 16, 1, 4096, 7⟩
        true 1), rfl, rfl⟩)

/-- C10: for a buffer resource that is not shared-memory-backed, is no legacy
DRM buffer, is no DMA-BUF object and is not recognised as a buffer stream,
`wlr_client_buffer_import` returns NULL after logging and posting one protocol
error on the resource; it sends no release and builds no buffer. -/
theorem import_unknown_resource_posts_error (sys : Sys) (renderer : wlr_renderer)
    (resource : wl_resource)
    (hclass : resource.class_is_wl_buffer = true)
    (hshm : resource.shm_buffer = none)
    (hdrm : renderer.resource_is_wl_drm_buffer resource = false)
    (hdmabuf : resource.dmabuf = none)
    (hegl : renderer.texture_from_wl_eglstream resource = none) :
    wlr_client_buffer_import sys renderer resource =
      .returned ⟨.null, .null⟩
        [.wlr_log "Cannot upload texture: unknown buffer type",
         .wl_resource_post_error resource.id 0 "unknown buffer type"] ∧
    (wlr_client_buffer_import sys renderer resource).trace.count
      (.wl_resource_post_error resource.id 0 "unknown buffer type") = 1 ∧
    (∀ r, Effect.wl_buffer_send_release r ∉
      (wlr_client_buffer_import sys renderer resource).trace) := by
  have h : wlr_client_buffer_import sys renderer resource =
      .returned ⟨.null, .null⟩
        [.wlr_log "Cannot upload texture: unknown buffer type",
         .wl_resource_post_error resource.id 0 "unknown buffer type"] := by
    simp [wlr_client_buffer_import, hclass, hshm, hdrm, hdmabuf, hegl]
  rw [h]
  refine ⟨rfl, ?_, ?_⟩
  · simp [Outcome.trace]
  · intro r
    simp [Outcome.trace]

/-- Witness of C10: the resource of no known type of the example. -/
theorem import_unknown_resource_posts_error_witness :
    wlr_client_buffer_import example_sys example_renderer example_unknown_resource =
      .returned ⟨.null, .null⟩
        [.wlr_log "Cannot upload texture: unknown buffer type",
         .wl_resource_post_error 43 0 "unknown buffer type"] :=
  (import_unknown_resource_posts_error example_sys example_renderer example_unknown_resource
    rfl rfl rfl rfl rfl).1

/-! ## Capability tables and downcasts -/

/-- C18: `wlr_buffer_init` returns exactly when the table has a destroy
callback and offers both or neither of the two access callbacks; it then
stores the table, the size and two empty signals. With any other table it
stops at an assertion, the buffer not written. -/
theorem init_completes_iff_table_valid (buffer : wlr_buffer) (impl : wlr_buffer_impl)
    (width height : Int) :
    ((∃ b1 t, wlr_buffer_init buffer impl width height = .returned b1 t) ↔
      (impl.destroy.isSome = true ∧
        (impl.begin_data_ptr_access.isSome = true ↔
          impl.end_data_ptr_access.isSome = true))) ∧
    ((impl.destroy.isSome = true ∧
        (impl.begin_data_ptr_access.isSome = true ↔
          impl.end_data_ptr_access.isSome = true)) →
      wlr_buffer_init buffer impl width height =
        .returned { buffer with
          impl := some impl, width := width, height := height, egl_stream := none,
          events_destroy := [], events_release := [] } []) ∧
    (¬ (impl.destroy.isSome = true ∧
        (impl.begin_data_ptr_access.isSome = true ↔
          impl.end_data_ptr_access.isSome = true)) →
      wlr_buffer_init buffer impl width height = .aborted .assertion buffer []) := by
  unfold wlr_buffer_init
  cases hd : impl.destroy <;> cases hb : impl.begin_data_ptr_access <;>
    cases he : impl.end_data_ptr_access <;> simp

/-- Witness of C18: a table with a begin callback and no end callback. -/
theorem init_completes_iff_table_valid_witness :
    wlr_buffer_init wlr_buffer.zeroed
        { example_impl with end_data_ptr_access := none } 4 4 =
      .aborted .assertion wlr_buffer.zeroed [] :=
  (init_completes_iff_table_valid wlr_buffer.zeroed
    { example_impl with end_data_ptr_access := none } 4 4).2.2 (by decide)

/-- C17, as stated, fails: the downcast to the shm client buffer, applied to a
client buffer, fails its assertion instead of returning NULL. -/
theorem shm_downcast_of_client_buffer_aborts :
    shm_client_buffer_from_buffer
        (.client (imported_client_buffer example_shm_resource example_texture true)) =
      .error .assertion ∧
    client_buffer_from_buffer
        (.shm (created_shm_client_buffer example_sys example_shm_resource
          ⟨4, 4, 16, 1, 4096, 7⟩ true 1)) =
      .error .assertion := by
  constructor <;> rfl

/-- C17, amended: `wlr_client_buffer_get` returns NULL on a buffer of another
variant and the buffer itself on a client buffer. The two internal downcasts,
`client_buffer_from_buffer` and `shm_client_buffer_from_buffer`, return the
buffer itself on the matching variant and fail an assertion on the other. -/
theorem downcast_by_table (cb : wlr_client_buffer) (sb : wlr_shm_client_buffer)
    (ob : wlr_buffer)
    (hcb : cb.base.impl = some client_buffer_impl)
    (hsb : sb.base.impl = some shm_client_buffer_impl)
    (hob : ob.impl ≠ some client_buffer_impl) :
    wlr_client_buffer_get (.client cb) = .ok (some cb) ∧
    wlr_client_buffer_get (.shm sb) = .ok none ∧
    wlr_client_buffer_get (.other ob) = .ok none ∧
    client_buffer_from_buffer (.client cb) = .ok cb ∧
    client_buffer_from_buffer (.shm sb) = .error .assertion ∧
    shm_client_buffer_from_buffer (.shm sb) = .ok sb ∧
    shm_client_buffer_from_buffer (.client cb) = .error .assertion := by
  have h1 : some shm_client_buffer_impl ≠ some client_buffer_impl := by decide
  have h2 : some client_buffer_impl ≠ some shm_client_buffer_impl := by decide
  simp [wlr_client_buffer_get, client_buffer_from_buffer, shm_client_buffer_from_buffer,
    Buffer.base, hcb, hsb, hob, h1, h2]

/-- Witness of the amended C17: the client buffer and the shm client buffer
built for the example resource. -/
theorem downcast_by_table_witness :
    wlr_client_buffer_get
        (.shm (created_shm_client_buffer example_sys example_shm_resource
          ⟨4, 4, 16, 1, 4096, 7⟩ true 1)) = .ok none :=
  (downcast_by_table (imported_client_buffer example_shm_resource example_texture true)
    (created_shm_client_buffer example_sys example_shm_resource ⟨4, 4, 16, 1, 4096, 7⟩ true 1)
    wlr_buffer.zeroed rfl rfl (by decide)).2.1

/-! ## Import with a failed upload -/

theorem Outcome.after_nil {α : Type} (o : Outcome α) : o.after [] = o := by
  cases o <;> rfl

theorem Outcome.after_after {α : Type} (s t : List Effect) (o : Outcome α) :
    (o.after t).after s = o.after (s ++ t) := by
  cases o <;> simp [Outcome.after]

theorem import_finish_none (sys : Sys) (resource : wl_resource) (released : Bool)
    (shm : Ref) :
    wlr_client_buffer_import_finish sys resource none released shm =
      .returned ⟨.null, shm⟩
        [.wlr_log "Failed to upload texture", .wl_buffer_send_release resource.id] := rfl

theorem import_shm_eq (sys : Sys) (renderer : wlr_renderer) (resource : wl_resource)
    (shm_buffer : wl_shm_buffer)
    (hclass : resource.class_is_wl_buffer = true)
    (hs : resource.shm_buffer = some shm_buffer)
    (hc : sys.calloc_shm_client_buffer = true) :
    wlr_client_buffer_import sys renderer resource =
      if (renderer.texture_from_buffer
          (.shm (created_shm_client_buffer sys resource shm_buffer true 1))).2 = true then
        wlr_client_buffer_import_finish sys resource
          (renderer.texture_from_buffer
            (.shm (created_shm_client_buffer sys resource shm_buffer true 1))).1 true
          (.live (.shm (created_shm_client_buffer sys resource shm_buffer true 1)))
      else
        (wlr_client_buffer_import_finish sys resource
          (renderer.texture_from_buffer
            (.shm (created_shm_client_buffer sys resource shm_buffer true 1))).1 true
          (.freed (.shm { created_shm_client_buffer sys resource shm_buffer true 0 with
            base := { (created_shm_client_buffer sys resource shm_buffer true 0).base with
              events_release := [] },
            resource_destroy :=
              { link := .null, notify := some .shm_client_buffer_resource_handle_destroy },
            release :=
              { link := .null, notify := some .shm_client_buffer_handle_release } }))).after
          [.signal_release, .wl_buffer_send_release resource.id, .signal_destroy,
            .impl_destroy, .free] := by
  simp only [wlr_client_buffer_import, hclass, hs, not_true_eq_false, if_false,
    Option.isSome_some, if_true, shm_client_buffer_create_eq sys resource _ hs hc,
    Outcome.bind_returned, Outcome.after_returned,
    created_lock sys resource shm_buffer false 0 (by decide), created_drop,
    wlr_texture_from_buffer_live]
  cases hl : (renderer.texture_from_buffer
      (.shm (created_shm_client_buffer sys resource shm_buffer true 1))).2 with
  | false =>
    simp only [Nat.zero_add, Bool.false_eq_true, if_false, created_unlock_one,
      Outcome.bind_returned, Outcome.after_after, Outcome.after_nil, List.nil_append,
      List.append_nil]
  | true =>
    have h2 : (Buffer.shm (created_shm_client_buffer sys resource shm_buffer true 1)).set_base
        { (Buffer.shm (created_shm_client_buffer sys resource shm_buffer true 1)).base with
          n_locks := ((Buffer.shm (created_shm_client_buffer sys resource shm_buffer true
            1)).base.n_locks + 1) % SIZE_MOD } =
        .shm (created_shm_client_buffer sys resource shm_buffer true 2) := by
      simp [created_shm_client_buffer, Buffer.set_base, Buffer.base, SIZE_MOD]
    simp only [Nat.zero_add] at h2 ⊢
    simp only [if_true, h2, created_unlock_two, Outcome.bind_returned,
      Outcome.after_after, Outcome.after_nil, List.nil_append, List.append_nil]

/-- C11: when the resource is a buffer resource that the import classifies as
shared-memory-backed, legacy DRM or DMA-BUF, and the upload returns no
texture, `wlr_client_buffer_import` returns NULL; its last two effects are the
log line and the release sent to the resource; it posts no protocol error and
builds no client buffer. -/
theorem import_upload_failure_releases (sys : Sys) (renderer : wlr_renderer)
    (resource : wl_resource)
    (hclass : resource.class_is_wl_buffer = true)
    (hfail : import_upload_fails sys renderer resource) :
    ∃ shm t0,
      wlr_client_buffer_import sys renderer resource =
        .returned ⟨.null, shm⟩
          (t0 ++ [.wlr_log "Failed to upload texture",
            .wl_buffer_send_release resource.id]) ∧
      Effect.wl_buffer_send_release resource.id ∈
        (wlr_client_buffer_import sys renderer resource).trace ∧
      ∀ e ∈ (wlr_client_buffer_import sys renderer resource).trace,
        e.is_protocol_error = false := by
  have key : ∀ shm t0,
      wlr_client_buffer_import sys renderer resource =
        .returned ⟨.null, shm⟩
          (t0 ++ [.wlr_log "Failed to upload texture",
            .wl_buffer_send_release resource.id]) →
      (∀ e ∈ t0, e.is_protocol_error = false) →
      ∃ shm t0,
        wlr_client_buffer_import sys renderer resource =
          .returned ⟨.null, shm⟩
            (t0 ++ [.wlr_log "Failed to upload texture",
              .wl_buffer_send_release resource.id]) ∧
        Effect.wl_buffer_send_release resource.id ∈
          (wlr_client_buffer_import sys renderer resource).trace ∧
        ∀ e ∈ (wlr_client_buffer_import sys renderer resource).trace,
          e.is_protocol_error = false := by
    intro shm t0 h h0
    refine ⟨shm, t0, h, ?_, ?_⟩
    · rw [h]; simp [Outcome.trace]
    · rw [h]
      intro e he
      simp only [Outcome.trace, List.mem_append, List.mem_cons, List.mem_singleton,
        List.not_mem_nil, or_false] at he
      rcases he with he | he | he
      · exact h0 e he
      · subst he; rfl
      · subst he; rfl
  rcases hfail with ⟨hshm, b, hfor, htex⟩ | ⟨hshm, hdrm, htex⟩ | ⟨hshm, hdrm, d, hd, htex⟩
  · cases hs : resource.shm_buffer with
    | none => rw [hs] at hshm; cases hshm
    | some shm_buffer =>
      rw [shm_client_buffer_for_upload_eq sys resource shm_buffer hs] at hfor
      cases hc : sys.calloc_shm_client_buffer with
      | false => simp [hc] at hfor
      | true =>
        simp only [hc, if_true, Option.some.injEq] at hfor
        subst hfor
        have h := import_shm_eq sys renderer resource shm_buffer hclass hs hc
        rw [htex] at h
        cases hl : (renderer.texture_from_buffer
            (.shm (created_shm_client_buffer sys resource shm_buffer true 1))).2 with
        | true =>
          rw [hl] at h
          simp only [if_true, import_finish_none] at h
          exact key _ [] h (by simp)
        | false =>
          rw [hl] at h
          simp only [Bool.false_eq_true, if_false, import_finish_none,
            Outcome.after_returned] at h
          refine key _ _ h ?_
          intro e he
          simp only [List.mem_cons, List.mem_singleton, List.not_mem_nil, or_false] at he
          rcases he with he | he | he | he | he <;> subst he <;> rfl
  · refine key .null [] ?_ (by simp)
    simp [wlr_client_buffer_import, hclass, hshm, hdrm, htex, import_finish_none]
  · refine key .null [] ?_ (by simp)
    simp [wlr_client_buffer_import, hclass, hshm, hdrm, hd, htex, import_finish_none]

/-- Witness of C11: the example shared-memory resource and a renderer whose
upload fails. -/
theorem import_upload_failure_releases_witness :
    ∃ shm t0,
      wlr_client_buffer_import example_sys failing_renderer example_shm_resource =
        .returned ⟨.null, shm⟩
          (t0 ++ [.wlr_log "Failed to upload texture",
            .wl_buffer_send_release example_shm_resource.id]) ∧
      Effect.wl_buffer_send_release example_shm_resource.id ∈
        (wlr_client_buffer_import example_sys failing_renderer example_shm_resource).trace ∧
      ∀ e ∈ (wlr_client_buffer_import example_sys failing_renderer
          example_shm_resource).trace,
        e.is_protocol_error = false :=
  import_upload_failure_releases example_sys failing_renderer example_shm_resource rfl
    (Or.inl ⟨rfl,
      .shm (created_shm_client_buffer example_sys example_shm_resource ⟨4, 4, 16, 1, 4096, 7⟩
        true 1), rfl, rfl⟩)

/-! ## Shared memory after the destruction of the resource -/

/-- C16: on an shm client buffer with a live shared-memory buffer (and no
access session open) the resource-destroy handler takes a reference on the
pool, saves the data pointer of that moment and clears the resource and the
shm buffer. Every later access session then succeeds: begin returns the saved
data pointer with the format and stride of the buffer, unchanged since its
construction, and neither begin nor end touches the resource; the session
leaves the buffer as it found it. -/
theorem shm_access_after_resource_destroy (sys : Sys) (sb : wlr_shm_client_buffer)
    (shm_buffer : wl_shm_buffer) (n : Nat)
    (hshm : sb.shm_buffer = some shm_buffer)
    (himpl : sb.base.impl = some shm_client_buffer_impl)
    (hlink : sb.resource_destroy.link ≠ .null)
    (hacc : sb.base.accessing_data_ptr = false) :
    ∃ sb1,
      shm_client_buffer_resource_handle_destroy sb =
        .returned sb1 [.wl_shm_buffer_ref_pool shm_buffer.pool] ∧
      sb1.saved_shm_pool = some shm_buffer.pool ∧ sb1.saved_data = shm_buffer.data ∧
      sb1.resource = none ∧ sb1.shm_buffer = none ∧
      sb1.format = sb.format ∧ sb1.stride = sb.stride ∧ sb1.base = sb.base ∧
      buffer_begin_data_ptr_access sys (.shm sb1) =
        .returned
          (.shm { sb1 with base := { sb1.base with accessing_data_ptr := true } },
            some ⟨shm_buffer.data, sb.format, sb.stride⟩) [] ∧
      buffer_end_data_ptr_access
          (.shm { sb1 with base := { sb1.base with accessing_data_ptr := true } }) =
        .returned (.shm sb1) [] ∧
      access_session sys (.shm sb1) =
        .returned (.shm sb1, some ⟨shm_buffer.data, sb.format, sb.stride⟩) [] ∧
      Nat.iterate (fun b => (access_session sys b).state.1) n (.shm sb1) = .shm sb1 := by
  obtain ⟨⟨impl, w, h, dr, nl, acc, ed, er, eg⟩, fmt, str, res, shmb, pool, sd, rd, rel⟩ := sb
  simp only at hshm himpl hlink hacc
  subst hshm himpl hacc
  have hh : shm_client_buffer_resource_handle_destroy
        ⟨⟨some shm_client_buffer_impl, w, h, dr, nl, false, ed, er, eg⟩, fmt, str, res,
          some shm_buffer, pool, sd, rd, rel⟩ =
      .returned
        ⟨⟨some shm_client_buffer_impl, w, h, dr, nl, false, ed, er, eg⟩, fmt, str, none,
          none, some shm_buffer.pool, shm_buffer.data, { rd with link := .self }, rel⟩
        [.wl_shm_buffer_ref_pool shm_buffer.pool] := by
    unfold shm_client_buffer_resource_handle_destroy
    cases hl : rd.link with
    | null => exact absurd hl hlink
    | self => simp [wl_list_remove, hl]
    | inserted sig => simp [wl_list_remove, hl]
  have hb : buffer_begin_data_ptr_access sys
        (.shm ⟨⟨some shm_client_buffer_impl, w, h, dr, nl, false, ed, er, eg⟩, fmt, str, none,
          none, some shm_buffer.pool, shm_buffer.data, { rd with link := .self }, rel⟩) =
      .returned
        (.shm ⟨⟨some shm_client_buffer_impl, w, h, dr, nl, true, ed, er, eg⟩, fmt, str, none,
          none, some shm_buffer.pool, shm_buffer.data, { rd with link := .self }, rel⟩,
          some ⟨shm_buffer.data, fmt, str⟩) [] := by
    simp [buffer_begin_data_ptr_access, Buffer.base, shm_client_buffer_impl,
      impl_begin_data_ptr_access, shm_client_buffer_begin_data_ptr_access,
      shm_client_buffer_from_buffer, Outcome.bind, Outcome.after, Buffer.set_base]
  have he : buffer_end_data_ptr_access
        (.shm ⟨⟨some shm_client_buffer_impl, w, h, dr, nl, true, ed, er, eg⟩, fmt, str, none,
          none, some shm_buffer.pool, shm_buffer.data, { rd with link := .self }, rel⟩) =
      .returned
        (.shm ⟨⟨some shm_client_buffer_impl, w, h, dr, nl, false, ed, er, eg⟩, fmt, str, none,
          none, some shm_buffer.pool, shm_buffer.data, { rd with link := .self }, rel⟩) [] := by
    simp [buffer_end_data_ptr_access, Buffer.base, shm_client_buffer_impl,
      impl_end_data_ptr_access, shm_client_buffer_end_data_ptr_access,
      shm_client_buffer_from_buffer, Outcome.bind, Outcome.after, Buffer.set_base]
  have hs : access_session sys
        (.shm ⟨⟨some shm_client_buffer_impl, w, h, dr, nl, false, ed, er, eg⟩, fmt, str, none,
          none, some shm_buffer.pool, shm_buffer.data, { rd with link := .self }, rel⟩) =
      .returned
        (.shm ⟨⟨some shm_client_buffer_impl, w, h, dr, nl, false, ed, er, eg⟩, fmt, str, none,
          none, some shm_buffer.pool, shm_buffer.data, { rd with link := .self }, rel⟩,
          some ⟨shm_buffer.data, fmt, str⟩) [] := by
    simp [access_session, hb, he, Outcome.bind, Outcome.after, Outcome.map]
  refine ⟨_, hh, rfl, rfl, rfl, rfl, rfl, rfl, rfl, hb, he, hs, ?_⟩
  induction n with
  | zero => rfl
  | succ k ih => rw [Function.iterate_succ_apply', ih, hs]; rfl

/-- Witness of C16: the shm client buffer built for the example resource,
held by one lock. -/
theorem shm_access_after_resource_destroy_witness :
    ∃ sb1,
      shm_client_buffer_resource_handle_destroy
          (created_shm_client_buffer example_sys example_shm_resource
            ⟨4, 4, 16, 1, 4096, 7⟩ true 1) =
        .returned sb1 [.wl_shm_buffer_ref_pool 7] ∧
      access_session example_sys (.shm sb1) =
        .returned (.shm sb1, some ⟨4096, 1, 16⟩) [] := by
  obtain ⟨sb1, h1, _, _, _, _, _, _, _, _, _, h2, _⟩ :=
    shm_access_after_resource_destroy example_sys
      (created_shm_client_buffer example_sys example_shm_resource ⟨4, 4, 16, 1, 4096, 7⟩ true 1)
      ⟨4, 4, 16, 1, 4096, 7⟩ 0 rfl rfl (by decide) rfl
  exact ⟨sb1, h1, h2⟩

/-! ## Damage upload -/

theorem uint32_of_int_natCast (u : Nat) (h : u < 2 ^ 32) : uint32_of_int (u : Int) = u := by
  unfold uint32_of_int
  omega

theorem uint32_of_int_eq_iff (i : Int) (u : Nat) (hlo : -2 ^ 31 ≤ i) (hhi : i < 2 ^ 31)
    (hu : u < 2 ^ 32) : uint32_of_int i = u ↔ i = int_of_uint32 u := by
  unfold uint32_of_int int_of_uint32
  have h1 : u % 2 ^ 32 = u := Nat.mod_eq_of_lt hu
  rw [h1]
  split <;> omega

theorem int32_sub_fits (a b : Int) (hlo : -2 ^ 31 ≤ a - b) (hhi : a - b < 2 ^ 31) :
    int32_sub a b = a - b := by
  unfold int32_sub int32_wrap uint32_of_int int_of_uint32
  split <;> omega

theorem write_damage_ok (ops : TextureOps) (texture : wlr_texture) (stride : Int) (data : Nat)
    (rs : List pixman_box32) (i : Nat)
    (h : ∀ j r, rs[j]? = some r → write_box ops (i + j) texture stride data r = true) :
    write_damage ops texture stride data i rs =
      (rs.map (damage_write texture stride data), true) := by
  induction rs generalizing i with
  | nil => rfl
  | cons r rs ih =>
    have h0 : write_box ops i texture stride data r = true := by
      simpa using h 0 r (by simp)
    have ih1 := ih (i + 1) (fun j r1 hj => by
      have := h (j + 1) r1 (by simpa using hj)
      rwa [show i + (j + 1) = i + 1 + j by omega] at this)
    simp [write_damage, h0, ih1]

theorem write_damage_fail (ops : TextureOps) (texture : wlr_texture) (stride : Int)
    (data : Nat) (rs : List pixman_box32) (i k : Nat) (rk : pixman_box32)
    (h : ∀ j r, j < k → rs[j]? = some r → write_box ops (i + j) texture stride data r = true)
    (hk : rs[k]? = some rk)
    (hf : write_box ops (i + k) texture stride data rk = false) :
    write_damage ops texture stride data i rs =
      ((rs.take (k + 1)).map (damage_write texture stride data), false) := by
  induction rs generalizing i k with
  | nil => simp at hk
  | cons r rs ih =>
    cases k with
    | zero =>
      simp only [List.getElem?_cons_zero, Option.some.injEq] at hk
      subst hk
      simp only [Nat.add_zero] at hf
      simp [write_damage, hf]
    | succ k =>
      have h0 : write_box ops i texture stride data r = true := by
        simpa using h 0 r (by omega) (by simp)
      have ih1 := ih (i + 1) k (fun j r1 hj hr => by
          have := h (j + 1) r1 (by omega) (by simpa using hr)
          rwa [show i + (j + 1) = i + 1 + j by omega] at this)
        (by simpa using hk)
        (by rwa [show i + 1 + k = i + (k + 1) by omega])
      simp [write_damage, h0, ih1]

theorem write_damage_effects (ops : TextureOps) (texture : wlr_texture) (stride : Int)
    (data : Nat) (rs : List pixman_box32) (i : Nat) :
    ∀ e ∈ (write_damage ops texture stride data i rs).1,
      ∃ r, e = damage_write texture stride data r := by
  induction rs generalizing i with
  | nil => simp [write_damage]
  | cons r rs ih =>
    intro e he
    unfold write_damage at he
    split at he
    · simp only [List.mem_cons] at he
      rcases he with he | he
      · exact ⟨r, he⟩
      · exact ih (i + 1) e he
    · simp only [List.mem_singleton] at he
      exact ⟨r, he⟩

/-- The call passes the four tests of `wlr_client_buffer_apply_damage`: at most
one lock, both resources shared-memory-backed, equal formats, dimensions of
the new resource equal to those of the texture. -/
theorem apply_damage_after_tests (ops : TextureOps) (cb : wlr_client_buffer)
    (resource old_resource : wl_resource) (shm_buf old_shm_buf : wl_shm_buffer)
    (tex : wlr_texture) (damage : List pixman_box32)
    (hclass : resource.class_is_wl_buffer = true)
    (hlocks : cb.base.n_locks ≤ 1)
    (hnew : resource.shm_buffer = some shm_buf)
    (hres : cb.resource = some old_resource)
    (hold : old_resource.shm_buffer = some old_shm_buf)
    (hfmt : shm_buf.format = old_shm_buf.format)
    (htex : cb.texture = some tex)
    (hw : uint32_of_int shm_buf.width = tex.width)
    (hh : uint32_of_int shm_buf.height = tex.height) :
    wlr_client_buffer_apply_damage ops cb resource damage =
      if (write_damage ops tex shm_buf.stride shm_buf.data 0 damage).2 = false then
        .returned ⟨cb, false⟩
          (.wl_shm_buffer_begin_access shm_buf ::
            (write_damage ops tex shm_buf.stride shm_buf.data 0 damage).1 ++
            [.wl_shm_buffer_end_access shm_buf])
      else
        match wl_list_remove cb.resource_destroy.link with
        | .error f =>
          .aborted f ⟨cb, false⟩
            (.wl_shm_buffer_begin_access shm_buf ::
              (write_damage ops tex shm_buf.stride shm_buf.data 0 damage).1 ++
              [.wl_shm_buffer_end_access shm_buf, .wl_buffer_send_release resource.id])
        | .ok _ =>
          .returned
            ⟨{ cb with
                resource_destroy :=
                  { link := .inserted (.resource_destroy resource.id),
                    notify := some .client_buffer_resource_handle_destroy },
                resource := some resource,
                resource_released := true }, true⟩
            (.wl_shm_buffer_begin_access shm_buf ::
              (write_damage ops tex shm_buf.stride shm_buf.data 0 damage).1 ++
              [.wl_shm_buffer_end_access shm_buf, .wl_buffer_send_release resource.id]) := by
  have hl : ¬ cb.base.n_locks > 1 := by omega
  simp only [wlr_client_buffer_apply_damage, hclass, not_true_eq_false, if_false, hl,
    wl_shm_buffer_get, hnew, hres, hold, hfmt, ne_eq, htex, hw, hh, or_self]

/-- C12: with more than one lock on the buffer the call makes no texture write
and sends no release, whatever the new resource and the damage are, and, the
new resource being a buffer resource, it returns NULL with the buffer as it
was. -/
theorem apply_damage_refuses_second_consumer (ops : TextureOps) (cb : wlr_client_buffer)
    (resource : wl_resource) (damage : List pixman_box32)
    (hlocks : cb.base.n_locks > 1) :
    (wlr_client_buffer_apply_damage ops cb resource damage).trace = [] ∧
    (wlr_client_buffer_apply_damage ops cb resource damage).state = ⟨cb, false⟩ ∧
    (resource.class_is_wl_buffer = true →
      wlr_client_buffer_apply_damage ops cb resource damage = .returned ⟨cb, false⟩ []) := by
  unfold wlr_client_buffer_apply_damage
  cases hc : resource.class_is_wl_buffer <;> simp [hlocks, Outcome.trace, Outcome.state]

/-- Witness of C12: the imported example buffer held by two consumers. -/
theorem apply_damage_refuses_second_consumer_witness :
    wlr_client_buffer_apply_damage (failing_write 5)
        { imported_client_buffer example_shm_resource example_texture true with
          base := { (imported_client_buffer example_shm_resource example_texture true).base
            with n_locks := 2 } }
        example_new_resource example_damage =
      .returned
        ⟨{ imported_client_buffer example_shm_resource example_texture true with
          base := { (imported_client_buffer example_shm_resource example_texture true).base
            with n_locks := 2 } }, false⟩ [] :=
  (apply_damage_refuses_second_consumer (failing_write 5)
    { imported_client_buffer example_shm_resource example_texture true with
      base := { (imported_client_buffer example_shm_resource example_texture true).base
        with n_locks := 2 } }
    example_new_resource example_damage (by decide)).2.2 rfl

theorem apply_damage_cases (ops : TextureOps) (cb : wlr_client_buffer)
    (resource : wl_resource) (damage : List pixman_box32) :
    (∃ f t, wlr_client_buffer_apply_damage ops cb resource damage =
      .aborted f ⟨cb, false⟩ t) ∨
    wlr_client_buffer_apply_damage ops cb resource damage = .returned ⟨cb, false⟩ [] ∨
    (∃ shm_buf tex,
      (write_damage ops tex shm_buf.stride shm_buf.data 0 damage).2 = false ∧
      wlr_client_buffer_apply_damage ops cb resource damage =
        .returned ⟨cb, false⟩
          (.wl_shm_buffer_begin_access shm_buf ::
            (write_damage ops tex shm_buf.stride shm_buf.data 0 damage).1 ++
            [.wl_shm_buffer_end_access shm_buf])) ∨
    (∃ cb1 t, wlr_client_buffer_apply_damage ops cb resource damage =
      .returned ⟨cb1, true⟩ t) := by
  unfold wlr_client_buffer_apply_damage
  split
  · exact Or.inl ⟨_, _, rfl⟩
  · split
    · exact Or.inr (Or.inl rfl)
    · split
      · split
        · exact Or.inr (Or.inl rfl)
        · split
          · exact Or.inl ⟨_, _, rfl⟩
          · split
            · exact Or.inr (Or.inl rfl)
            · split
              · rename_i hw
                exact Or.inr (Or.inr (Or.inl ⟨_, _, hw, rfl⟩))
              · split
                · exact Or.inl ⟨_, _, rfl⟩
                · exact Or.inr (Or.inr (Or.inr ⟨_, _, rfl⟩))
      · exact Or.inr (Or.inl rfl)

/-- C13: on a buffer resource, `wlr_client_buffer_apply_damage` returns NULL,
without a texture write and with the buffer as it was, when one of the two
resources is not shared-memory-backed, when the formats of the two
shared-memory buffers differ, and when the width or the height of the new
resource differs from that of the texture: compared as signed 32-bit integers,
and also as numbers when the dimensions of the new resource are not
negative. -/
theorem apply_damage_refuses_mismatch (ops : TextureOps) (cb : wlr_client_buffer)
    (resource : wl_resource) (damage : List pixman_box32)
    (hclass : resource.class_is_wl_buffer = true) :
    ((wl_shm_buffer_get (some resource) = none ∨ wl_shm_buffer_get cb.resource = none) →
      wlr_client_buffer_apply_damage ops cb resource damage = .returned ⟨cb, false⟩ []) ∧
    (∀ shm_buf old_shm_buf,
      wl_shm_buffer_get (some resource) = some shm_buf →
      wl_shm_buffer_get cb.resource = some old_shm_buf →
      shm_buf.format ≠ old_shm_buf.format →
      wlr_client_buffer_apply_damage ops cb resource damage = .returned ⟨cb, false⟩ []) ∧
    (∀ shm_buf tex,
      wl_shm_buffer_get (some resource) = some shm_buf → cb.texture = some tex →
      is_int32 shm_buf.width → is_int32 shm_buf.height →
      is_uint32 tex.width → is_uint32 tex.height →
      (shm_buf.width ≠ int_of_uint32 tex.width ∨
        shm_buf.height ≠ int_of_uint32 tex.height) →
      wlr_client_buffer_apply_damage ops cb resource damage = .returned ⟨cb, false⟩ []) ∧
    (∀ shm_buf tex,
      wl_shm_buffer_get (some resource) = some shm_buf → cb.texture = some tex →
      is_int32 shm_buf.width → is_int32 shm_buf.height →
      0 ≤ shm_buf.width → 0 ≤ shm_buf.height →
      (shm_buf.width ≠ (tex.width : Int) ∨ shm_buf.height ≠ (tex.height : Int)) →
      wlr_client_buffer_apply_damage ops cb resource damage = .returned ⟨cb, false⟩ []) := by
  have hdim : ∀ shm_buf tex,
      wl_shm_buffer_get (some resource) = some shm_buf → cb.texture = some tex →
      (uint32_of_int shm_buf.width ≠ tex.width ∨
        uint32_of_int shm_buf.height ≠ tex.height) →
      wlr_client_buffer_apply_damage ops cb resource damage = .returned ⟨cb, false⟩ [] := by
    intro shm_buf tex hnew htex hne
    unfold wlr_client_buffer_apply_damage
    simp only [hclass, not_true_eq_false, if_false, hnew]
    split
    · rfl
    · cases hold : wl_shm_buffer_get cb.resource with
      | none => rfl
      | some old_shm_buf =>
        simp only [htex]
        split
        · rfl
        · rfl
  refine ⟨?_, ?_, ?_, ?_⟩
  · intro h
    unfold wlr_client_buffer_apply_damage
    simp only [hclass, not_true_eq_false, if_false]
    split
    · rfl
    · rcases h with h | h
      · rw [h]
      · rw [h]
        cases wl_shm_buffer_get (some resource) <;> rfl
  · intro shm_buf old_shm_buf hnew hold hfmt
    unfold wlr_client_buffer_apply_damage
    simp only [hclass, not_true_eq_false, if_false, hnew, hold]
    split
    · rfl
    · rfl
  · intro shm_buf tex hnew htex hw hh htw hth hne
    apply hdim shm_buf tex hnew htex
    rcases hne with hne | hne
    · left
      intro h
      exact hne ((uint32_of_int_eq_iff _ _ hw.1 hw.2 htw).1 h)
    · right
      intro h
      exact hne ((uint32_of_int_eq_iff _ _ hh.1 hh.2 hth).1 h)
  · intro shm_buf tex hnew htex hw hh hw0 hh0 hne
    apply hdim shm_buf tex hnew htex
    unfold is_int32 at hw hh
    unfold uint32_of_int
    rcases hne with hne | hne
    · left; omega
    · right; omega

/-- Witness of C13: a new resource 8 wide against the 4 by 4 texture of the
imported example buffer. -/
theorem apply_damage_refuses_mismatch_witness :
    wlr_client_buffer_apply_damage (failing_write 5)
        (imported_client_buffer example_shm_resource example_texture true)
        { example_new_resource with shm_buffer := some ⟨8, 4, 32, 1, 8192, 7⟩ }
        example_damage =
      .returned ⟨imported_client_buffer example_shm_resource example_texture true, false⟩ [] :=
  (apply_damage_refuses_mismatch (failing_write 5)
    (imported_client_buffer example_shm_resource example_texture true)
    { example_new_resource with shm_buffer := some ⟨8, 4, 32, 1, 8192, 7⟩ }
    example_damage rfl).2.2.2 ⟨8, 4, 32, 1, 8192, 7⟩ example_texture rfl rfl
    ⟨by decide, by decide⟩ ⟨by decide, by decide⟩ (by decide) (by decide)
    (Or.inl (by decide))

theorem count_map_damage_write (texture : wlr_texture) (stride : Int) (data : Nat)
    (rs : List pixman_box32) (e : Effect)
    (he : ∀ r, e ≠ damage_write texture stride data r) :
    (rs.map (damage_write texture stride data)).count e = 0 := by
  rw [List.count_eq_zero]
  intro hmem
  obtain ⟨r, -, hr⟩ := List.mem_map.1 hmem
  exact he r hr.symm

/-- C14: with at most one lock, two shared-memory resources of equal format,
dimensions of the new resource equal to those of the texture, every write
succeeding (and the resource-destroy listener linked), the call makes one
texture write per rectangle of the damage, in order, each of size
`(x2 - x1, y2 - y1)` with source and destination offset `(x1, y1)`, between
one begin and one end of the access to the new shared-memory buffer; it then
sends one release to the new resource, moves the resource-destroy listener to
it, stores it as the resource of the buffer with `resource_released` set, and
returns the buffer itself, `n_locks`, `dropped` and the rest of the object
untouched. -/
theorem apply_damage_uploads_each_rectangle (ops : TextureOps) (cb : wlr_client_buffer)
    (resource old_resource : wl_resource) (shm_buf old_shm_buf : wl_shm_buffer)
    (tex : wlr_texture) (damage : List pixman_box32)
    (hclass : resource.class_is_wl_buffer = true)
    (hlocks : cb.base.n_locks ≤ 1)
    (hnew : resource.shm_buffer = some shm_buf)
    (hres : cb.resource = some old_resource)
    (hold : old_resource.shm_buffer = some old_shm_buf)
    (hfmt : shm_buf.format = old_shm_buf.format)
    (htex : cb.texture = some tex)
    (htw : is_uint32 tex.width) (hth : is_uint32 tex.height)
    (hw : shm_buf.width = (tex.width : Int))
    (hh : shm_buf.height = (tex.height : Int))
    (hlink : cb.resource_destroy.link ≠ .null)
    (hok : ∀ j r, damage[j]? = some r →
      write_box ops j tex shm_buf.stride shm_buf.data r = true) :
    wlr_client_buffer_apply_damage ops cb resource damage =
      .returned
        ⟨{ cb with
            resource_destroy :=
              { link := .inserted (.resource_destroy resource.id),
                notify := some .client_buffer_resource_handle_destroy },
            resource := some resource,
            resource_released := true }, true⟩
        (.wl_shm_buffer_begin_access shm_buf ::
          damage.map (damage_write tex shm_buf.stride shm_buf.data) ++
          [.wl_shm_buffer_end_access shm_buf, .wl_buffer_send_release resource.id]) ∧
    (wlr_client_buffer_apply_damage ops cb resource damage).trace.count
      (.wl_buffer_send_release resource.id) = 1 ∧
    (wlr_client_buffer_apply_damage ops cb resource damage).state.buffer.base = cb.base ∧
    (wlr_client_buffer_apply_damage ops cb resource damage).state.buffer.texture =
      cb.texture ∧
    (∀ r : pixman_box32, r.fits →
      damage_write tex shm_buf.stride shm_buf.data r =
        .wlr_texture_write_pixels tex.id shm_buf.stride (r.x2 - r.x1) (r.y2 - r.y1)
          r.x1 r.y1 r.x1 r.y1 shm_buf.data) := by
  have h := apply_damage_after_tests ops cb resource old_resource shm_buf old_shm_buf tex
    damage hclass hlocks hnew hres hold hfmt htex
    (by rw [hw]; exact uint32_of_int_natCast _ htw)
    (by rw [hh]; exact uint32_of_int_natCast _ hth)
  rw [write_damage_ok ops tex shm_buf.stride shm_buf.data damage 0
    (fun j r hj => by rw [Nat.zero_add]; exact hok j r hj)] at h
  have hrem : wl_list_remove cb.resource_destroy.link = .ok .null := by
    cases hl : cb.resource_destroy.link with
    | null => exact absurd hl hlink
    | self => rfl
    | inserted sig => rfl
  simp only [Bool.true_eq_false, if_false, hrem] at h
  rw [h]
  refine ⟨rfl, ?_, rfl, rfl, ?_⟩
  · simp only [Outcome.trace, List.count_cons, List.count_append, List.count_nil]
    rw [count_map_damage_write _ _ _ _ _ (fun r => by simp [damage_write])]
    simp
  · intro r hr
    unfold damage_write
    rw [int32_sub_fits _ _ hr.1 hr.2.1, int32_sub_fits _ _ hr.2.2.1 hr.2.2.2]

/-- Witness of C14: two rectangles uploaded into the imported example
buffer. -/
theorem apply_damage_uploads_each_rectangle_witness :
    (wlr_client_buffer_apply_damage (failing_write 5)
        (imported_client_buffer example_shm_resource example_texture true)
        example_new_resource example_damage).trace =
      [.wl_shm_buffer_begin_access ⟨4, 4, 16, 1, 8192, 7⟩,
        .wlr_texture_write_pixels 9 16 2 2 0 0 0 0 8192,
        .wlr_texture_write_pixels 9 16 2 2 2 2 2 2 8192,
        .wl_shm_buffer_end_access ⟨4, 4, 16, 1, 8192, 7⟩,
        .wl_buffer_send_release 44] := by
  rw [(apply_damage_uploads_each_rectangle (failing_write 5)
    (imported_client_buffer example_shm_resource example_texture true)
    example_new_resource example_shm_resource ⟨4, 4, 16, 1, 8192, 7⟩ ⟨4, 4, 16, 1, 4096, 7⟩
    example_texture example_damage rfl (by decide) rfl rfl rfl rfl rfl
    (by unfold is_uint32; decide) (by unfold is_uint32; decide) rfl rfl (by decide)
    (by
      intro j r hj
      have hj2 : j < 2 := by
        by_contra hge
        have : example_damage[j]? = none := by
          apply List.getElem?_eq_none
          simp [example_damage]; omega
        rw [this] at hj; cases hj
      simp [write_box, failing_write]; omega)).1]
  rfl

/-- C15: when `wlr_client_buffer_apply_damage` returns NULL the provided
buffer is as before the call, in every field (resource, `resource_released`,
texture, `n_locks`, `dropped`, resource-destroy listener), and no release was
sent; the only effects are, on the path of a failed write, the begin and end
of the shared-memory access and the writes made. -/
theorem apply_damage_failure_leaves_buffer (ops : TextureOps) (cb cb1 : wlr_client_buffer)
    (resource : wl_resource) (damage : List pixman_box32) (t : List Effect)
    (h : wlr_client_buffer_apply_damage ops cb resource damage = .returned ⟨cb1, false⟩ t) :
    cb1 = cb ∧ (∀ r, Effect.wl_buffer_send_release r ∉ t) ∧
    (t = [] ∨ ∃ shm_buf tex,
      (write_damage ops tex shm_buf.stride shm_buf.data 0 damage).2 = false ∧
      t = .wl_shm_buffer_begin_access shm_buf ::
        (write_damage ops tex shm_buf.stride shm_buf.data 0 damage).1 ++
        [.wl_shm_buffer_end_access shm_buf]) := by
  rcases apply_damage_cases ops cb resource damage with ⟨f, t1, h1⟩ | h1 |
    ⟨shm_buf, tex, hw, h1⟩ | ⟨cb2, t1, h1⟩
  · rw [h1] at h; cases h
  · rw [h1] at h
    cases h
    exact ⟨rfl, by simp, Or.inl rfl⟩
  · rw [h1] at h
    cases h
    refine ⟨rfl, ?_, Or.inr ⟨shm_buf, tex, hw, rfl⟩⟩
    intro r hmem
    simp only [List.mem_cons, List.mem_append, List.mem_singleton, reduceCtorEq,
      false_or, or_false, List.not_mem_nil] at hmem
    obtain ⟨r1, hr1⟩ := write_damage_effects ops tex shm_buf.stride shm_buf.data damage 0 _ hmem
    simp [damage_write] at hr1
  · rw [h1] at h; cases h

/-- Witness of C15: the first write fails on the imported example buffer. -/
theorem apply_damage_failure_leaves_buffer_witness :
    wlr_client_buffer_apply_damage (failing_write 0)
        (imported_client_buffer example_shm_resource example_texture true)
        example_new_resource example_damage =
      .returned ⟨imported_client_buffer example_shm_resource example_texture true, false⟩
        [.wl_shm_buffer_begin_access ⟨4, 4, 16, 1, 8192, 7⟩,
          .wlr_texture_write_pixels 9 16 2 2 0 0 0 0 8192,
          .wl_shm_buffer_end_access ⟨4, 4, 16, 1, 8192, 7⟩] ∧
    (∀ r, Effect.wl_buffer_send_release r ∉
      [Effect.wl_shm_buffer_begin_access ⟨4, 4, 16, 1, 8192, 7⟩,
        .wlr_texture_write_pixels 9 16 2 2 0 0 0 0 8192,
        .wl_shm_buffer_end_access ⟨4, 4, 16, 1, 8192, 7⟩]) :=
  ⟨rfl,
    (apply_damage_failure_leaves_buffer (failing_write 0)
      (imported_client_buffer example_shm_resource example_texture true)
      (imported_client_buffer example_shm_resource example_texture true)
      example_new_resource example_damage
      [.wl_shm_buffer_begin_access ⟨4, 4, 16, 1, 8192, 7⟩,
        .wlr_texture_write_pixels 9 16 2 2 0 0 0 0 8192,
        .wl_shm_buffer_end_access ⟨4, 4, 16, 1, 8192, 7⟩] rfl).2.1⟩

/-- C19: the call having passed its four tests, when the write of rectangle
number `k` is the first to fail, the writes made are those of the rectangles
0 to `k`, in order, and no other; the call returns NULL with the buffer as it
was (nothing undoes the earlier writes), and the access to the new
shared-memory buffer is begun once, before the writes, and ended once, after
them. When no write fails the access is likewise begun once and ended once. -/
theorem apply_damage_stops_at_first_failed_write (ops : TextureOps)
    (cb : wlr_client_buffer) (resource old_resource : wl_resource)
    (shm_buf old_shm_buf : wl_shm_buffer) (tex : wlr_texture) (damage : List pixman_box32)
    (hclass : resource.class_is_wl_buffer = true)
    (hlocks : cb.base.n_locks ≤ 1)
    (hnew : resource.shm_buffer = some shm_buf)
    (hres : cb.resource = some old_resource)
    (hold : old_resource.shm_buffer = some old_shm_buf)
    (hfmt : shm_buf.format = old_shm_buf.format)
    (htex : cb.texture = some tex)
    (hw : uint32_of_int shm_buf.width = tex.width)
    (hh : uint32_of_int shm_buf.height = tex.height) :
    (∀ k rk,
      (∀ j r, j < k → damage[j]? = some r →
        write_box ops j tex shm_buf.stride shm_buf.data r = true) →
      damage[k]? = some rk →
      write_box ops k tex shm_buf.stride shm_buf.data rk = false →
      wlr_client_buffer_apply_damage ops cb resource damage =
        .returned ⟨cb, false⟩
          (.wl_shm_buffer_begin_access shm_buf ::
            (damage.take (k + 1)).map (damage_write tex shm_buf.stride shm_buf.data) ++
            [.wl_shm_buffer_end_access shm_buf]) ∧
      (wlr_client_buffer_apply_damage ops cb resource damage).trace.count
        (.wl_shm_buffer_begin_access shm_buf) = 1 ∧
      (wlr_client_buffer_apply_damage ops cb resource damage).trace.count
        (.wl_shm_buffer_end_access shm_buf) = 1) ∧
    ((∀ j r, damage[j]? = some r →
        write_box ops j tex shm_buf.stride shm_buf.data r = true) →
      (wlr_client_buffer_apply_damage ops cb resource damage).trace.count
        (.wl_shm_buffer_begin_access shm_buf) = 1 ∧
      (wlr_client_buffer_apply_damage ops cb resource damage).trace.count
        (.wl_shm_buffer_end_access shm_buf) = 1) := by
  have h := apply_damage_after_tests ops cb resource old_resource shm_buf old_shm_buf tex
    damage hclass hlocks hnew hres hold hfmt htex hw hh
  have hb : ∀ rs : List pixman_box32,
      (rs.map (damage_write tex shm_buf.stride shm_buf.data)).count
        (.wl_shm_buffer_begin_access shm_buf) = 0 :=
    fun rs => count_map_damage_write _ _ _ rs _ (fun r => by simp [damage_write])
  have he : ∀ rs : List pixman_box32,
      (rs.map (damage_write tex shm_buf.stride shm_buf.data)).count
        (.wl_shm_buffer_end_access shm_buf) = 0 :=
    fun rs => count_map_damage_write _ _ _ rs _ (fun r => by simp [damage_write])
  constructor
  · intro k rk hbefore hk hf
    rw [write_damage_fail ops tex shm_buf.stride shm_buf.data damage 0 k rk
      (fun j r hj hr => by rw [Nat.zero_add]; exact hbefore j r hj hr) hk
      (by rw [Nat.zero_add]; exact hf)] at h
    simp only [if_true] at h
    rw [h]
    refine ⟨rfl, ?_, ?_⟩
    · simp only [Outcome.trace, List.count_cons, List.count_append, List.count_nil, hb]
      simp
    · simp only [Outcome.trace, List.count_cons, List.count_append, List.count_nil, he]
      simp
  · intro hok
    rw [write_damage_ok ops tex shm_buf.stride shm_buf.data damage 0
      (fun j r hj => by rw [Nat.zero_add]; exact hok j r hj)] at h
    simp only [Bool.true_eq_false, if_false] at h
    rw [h]
    cases wl_list_remove cb.resource_destroy.link <;>
      simp [Outcome.trace, List.count_cons, List.count_append, hb, he]

/-- Witness of C19: the second of two writes fails on the imported example
buffer. -/
theorem apply_damage_stops_at_first_failed_write_witness :
    wlr_client_buffer_apply_damage (failing_write 1)
        (imported_client_buffer example_shm_resource example_texture true)
        example_new_resource example_damage =
      .returned ⟨imported_client_buffer example_shm_resource example_texture true, false⟩
        [.wl_shm_buffer_begin_access ⟨4, 4, 16, 1, 8192, 7⟩,
          .wlr_texture_write_pixels 9 16 2 2 0 0 0 0 8192,
          .wlr_texture_write_pixels 9 16 2 2 2 2 2 2 8192,
          .wl_shm_buffer_end_access ⟨4, 4, 16, 1, 8192, 7⟩] :=
  ((apply_damage_stops_at_first_failed_write (failing_write 1)
    (imported_client_buffer example_shm_resource example_texture true)
    example_new_resource example_shm_resource ⟨4, 4, 16, 1, 8192, 7⟩ ⟨4, 4, 16, 1, 4096, 7⟩
    example_texture example_damage rfl (by decide) rfl rfl rfl rfl rfl (by decide)
    (by decide)).1 1 ⟨2, 2, 4, 4⟩
    (by
      intro j r hj hr
      have : j = 0 := by omega
      subst this
      rfl)
    rfl rfl).1

/-! ## Release notification of a client buffer -/

@[simp]
theorem sends_nil : sends [] = 0 := rfl

@[simp]
theorem sends_append (s t : List Effect) : sends (s ++ t) = sends s + sends t := by
  simp [sends]

theorem sends_cons (e : Effect) (t : List Effect) :
    sends (e :: t) = (if e.is_send_release = true then 1 else 0) + sends t := by
  simp only [sends, List.countP_cons]
  omega

theorem release_pending_le_one (cb : wlr_client_buffer) : cb.release_pending ≤ 1 := by
  unfold wlr_client_buffer.release_pending
  split <;> omega

theorem call_notify_client_sends (fn : NotifyFn) (cb : wlr_client_buffer) :
    ∃ cb1, (call_notify fn (.client cb)).state = .client cb1 ∧
      sends (call_notify fn (.client cb)).trace + cb1.release_pending ≤ cb.release_pending := by
  cases fn with
  | client_buffer_handle_release =>
    simp only [call_notify, client_buffer_handle_release]
    cases h1 : cb.resource_released <;> cases h2 : cb.resource <;>
      simp [Outcome.map, Outcome.state, Outcome.trace, wlr_client_buffer.release_pending,
        h1, h2, sends, Effect.is_send_release]
  | client_buffer_resource_handle_destroy =>
    simp only [call_notify, client_buffer_resource_handle_destroy]
    cases h3 : cb.resource_destroy.link <;>
      simp [wl_list_remove, Outcome.map, Outcome.state, Outcome.trace,
        wlr_client_buffer.release_pending]
  | shm_client_buffer_handle_release =>
    exact ⟨cb, rfl, by simp [call_notify, Outcome.trace]⟩
  | shm_client_buffer_resource_handle_destroy =>
    exact ⟨cb, rfl, by simp [call_notify, Outcome.trace]⟩

theorem notify_listener_client_sends (l : ListenerRef) (cb : wlr_client_buffer) :
    ∃ cb1, (notify_listener l (.client cb)).state = .client cb1 ∧
      sends (notify_listener l (.client cb)).trace + cb1.release_pending ≤
        cb.release_pending := by
  cases l with
  | external id =>
    exact ⟨cb, rfl, by simp [notify_listener, Outcome.trace, sends, Effect.is_send_release]⟩
  | own_release =>
    simp only [notify_listener, Buffer.release_listener]
    cases hn : cb.release.notify with
    | none => exact ⟨cb, rfl, by simp [Outcome.trace]⟩
    | some fn => exact call_notify_client_sends fn cb

theorem notify_all_client_sends (ls : List ListenerRef) (cb : wlr_client_buffer) :
    ∃ cb1, (notify_all ls (.client cb)).state = .client cb1 ∧
      sends (notify_all ls (.client cb)).trace + cb1.release_pending ≤ cb.release_pending := by
  induction ls generalizing cb with
  | nil => exact ⟨cb, rfl, by simp [notify_all, Outcome.trace]⟩
  | cons l ls ih =>
    obtain ⟨cb1, h1, h2⟩ := notify_listener_client_sends l cb
    unfold notify_all
    cases hn : notify_listener l (.client cb) with
    | aborted f s t =>
      rw [hn] at h1 h2
      exact ⟨cb1, by simpa [Outcome.bind_aborted, Outcome.state] using h1,
        by simpa [Outcome.bind_aborted, Outcome.trace] using h2⟩
    | returned b1 t =>
      rw [hn] at h1 h2
      simp only [Outcome.state, Outcome.trace] at h1 h2
      subst h1
      obtain ⟨cb2, i1, i2⟩ := ih cb1
      refine ⟨cb2, by simpa [Outcome.bind_returned] using i1, ?_⟩
      simp only [Outcome.bind_returned, Outcome.trace_after, sends_append]
      omega

theorem impl_destroy_client_sends (cb : wlr_client_buffer) :
    sends (impl_destroy (.client cb)).trace ≤ cb.release_pending := by
  unfold impl_destroy
  split
  · simp [Outcome.trace]
  · split
    · simp [Outcome.trace]
    · simp only [Outcome.trace_after, sends_append]
      unfold client_buffer_destroy
      split
      · simp [Outcome.trace, sends, Effect.is_send_release]
      · rename_i cb1 hcb
        have hb : cb1 = cb := by
          unfold client_buffer_from_buffer wlr_client_buffer_get at hcb
          split at hcb <;> try cases hcb
          rename_i h
          split at h <;> try cases h
          rfl
        subst hb
        cases h1 : cb1.resource_released <;> cases h2 : cb1.resource <;>
          cases h3 : cb1.resource_destroy.link <;>
          simp [wl_list_remove, Outcome.trace, sends, Effect.is_send_release,
            wlr_client_buffer.release_pending, h1, h2]
    · simp only [Outcome.trace_after, sends_append]
      unfold shm_client_buffer_destroy
      split
      · simp [Outcome.trace, sends, Effect.is_send_release]
      · rename_i sb hsb
        unfold shm_client_buffer_from_buffer at hsb
        split at hsb <;> cases hsb
    · simp [Outcome.trace, sends, Effect.is_send_release]

theorem buffer_consider_destroy_client_sends (cb : wlr_client_buffer) :
    sends (buffer_consider_destroy (.client cb)).trace ≤ cb.release_pending := by
  unfold buffer_consider_destroy
  split
  · simp [Outcome.trace]
  · split
    · simp [Outcome.trace]
    · unfold emit_destroy
      obtain ⟨cb1, h1, h2⟩ := notify_all_client_sends cb.base.events_destroy cb
      simp only [Buffer.base]
      cases hn : notify_all cb.base.events_destroy (.client cb) with
      | aborted f s t =>
        rw [hn] at h2
        simp only [Outcome.trace] at h2
        simp only [Outcome.after_aborted, Outcome.bind_aborted, Outcome.trace, sends_append]
        simp only [sends_cons, sends_nil, Effect.is_send_release, Bool.false_eq_true,
          if_false]
        omega
      | returned b1 t =>
        rw [hn] at h1 h2
        simp only [Outcome.state, Outcome.trace] at h1 h2
        subst h1
        have h3 := impl_destroy_client_sends cb1
        simp only [Outcome.after_returned, Outcome.bind_returned, Outcome.trace_after,
          sends_append, sends_cons, sends_nil, Effect.is_send_release, Bool.false_eq_true,
          if_false]
        omega

theorem buffer_consider_destroy_client_step (cb : wlr_client_buffer) (p : Nat)
    (hp : cb.release_pending ≤ p) :
    sends (buffer_consider_destroy (.client cb)).trace ≤ p ∧
    ∀ r t, buffer_consider_destroy (.client cb) = .returned r t →
      (∃ last, r = .freed last) ∨
      (∃ cb1, r = .live (.client cb1) ∧ sends t + cb1.release_pending ≤ p) := by
  refine ⟨Nat.le_trans (buffer_consider_destroy_client_sends cb) hp, ?_⟩
  intro r t h
  rcases (buffer_consider_destroy_inv (.client cb)).2.2.2.2.1 r t h with ⟨h1, h2⟩ | ⟨last, h1, _⟩
  · exact Or.inr ⟨cb, h1, by simpa [h2] using hp⟩
  · exact Or.inl ⟨last, h1⟩

theorem step_client_sends (cb : wlr_client_buffer) (op : Op) :
    sends (step (.live (.client cb)) op).trace ≤ cb.release_pending ∧
    ∀ r t, step (.live (.client cb)) op = .returned r t →
      (∃ last, r = .freed last) ∨
      (∃ cb1, r = .live (.client cb1) ∧
        sends t + cb1.release_pending ≤ cb.release_pending) := by
  cases op with
  | lock =>
    refine ⟨by simp [step, wlr_buffer_lock, Outcome.trace], ?_⟩
    intro r t h
    simp only [step, wlr_buffer_lock, Buffer.set_base, Outcome.returned.injEq] at h
    obtain ⟨h1, h2⟩ := h
    subst h1 h2
    exact Or.inr ⟨_, rfl, by simp [wlr_client_buffer.release_pending]⟩
  | drop =>
    simp only [step, wlr_buffer_drop]
    split
    · exact ⟨by simp [Outcome.trace], fun r t h => by cases h⟩
    · exact buffer_consider_destroy_client_step _ _ (Nat.le_refl _)
  | unlock =>
    simp only [step, wlr_buffer_unlock]
    split
    · exact ⟨by simp [Outcome.trace], fun r t h => by cases h⟩
    · simp only [Buffer.set_base, Buffer.base]
      split
      · unfold emit_release
        simp only [Buffer.base]
        obtain ⟨cb1, h1, h2⟩ := notify_all_client_sends cb.base.events_release
          { cb with base := { cb.base with n_locks := cb.base.n_locks - 1 } }
        have hp : ({ cb with base := { cb.base with n_locks := cb.base.n_locks - 1 } } :
            wlr_client_buffer).release_pending = cb.release_pending := rfl
        rw [hp] at h2
        cases hn : notify_all cb.base.events_release
            (.client { cb with base := { cb.base with n_locks := cb.base.n_locks - 1 } }) with
        | aborted f s t =>
          rw [hn] at h2
          simp only [Outcome.trace] at h2
          simp only [Outcome.after_aborted, Outcome.bind_aborted, Outcome.trace, sends_append,
            sends_cons, sends_nil, Effect.is_send_release, Bool.false_eq_true, if_false]
          exact ⟨by omega, fun r t h => by cases h⟩
        | returned b1 t =>
          rw [hn] at h1 h2
          simp only [Outcome.state, Outcome.trace] at h1 h2
          subst h1
          obtain ⟨k1, k2⟩ := buffer_consider_destroy_client_step cb1
            (cb.release_pending - sends t) (by omega)
          simp only [Outcome.after_returned, Outcome.bind_returned, Outcome.trace_after,
            sends_append, sends_cons, sends_nil, Effect.is_send_release, Bool.false_eq_true,
            if_false]
          refine ⟨by omega, ?_⟩
          intro r t1 h
          obtain ⟨t2, h3, h4⟩ := Outcome.after_eq_returned _ _ _ _ h
          rcases k2 r t2 h3 with hf | ⟨cb2, i1, i2⟩
          · exact Or.inl hf
          · refine Or.inr ⟨cb2, i1, ?_⟩
            subst h4
            simp only [sends_append, sends_cons, sends_nil, Effect.is_send_release,
              Bool.false_eq_true, if_false]
            omega
      · exact buffer_consider_destroy_client_step _ _ (Nat.le_refl _)

theorem resource_destroyed_client_sends (cb : wlr_client_buffer) :
    sends (resource_destroyed (.live (.client cb))).trace ≤ cb.release_pending ∧
    ∀ r t, resource_destroyed (.live (.client cb)) = .returned r t →
      ∃ cb1, r = .live (.client cb1) ∧
        sends t + cb1.release_pending ≤ cb.release_pending := by
  simp only [resource_destroyed]
  split
  · rename_i fn _ _
    obtain ⟨cb1, h1, h2⟩ := call_notify_client_sends fn cb
    cases hn : call_notify fn (.client cb) with
    | aborted f s t =>
      rw [hn] at h2
      exact ⟨by simp only [Outcome.map, Outcome.trace] at h2 ⊢; omega,
        fun r t h => by cases h⟩
    | returned b1 t =>
      rw [hn] at h1 h2
      simp only [Outcome.state, Outcome.trace] at h1 h2
      subst h1
      refine ⟨by simp only [Outcome.map, Outcome.trace]; omega, ?_⟩
      intro r t1 h
      simp only [Outcome.map, Outcome.returned.injEq] at h
      obtain ⟨i1, i2⟩ := h
      subst i1 i2
      exact ⟨cb1, rfl, h2⟩
  · exact ⟨by simp [Outcome.trace], fun r t h => by cases h⟩
  · refine ⟨by simp [Outcome.trace], ?_⟩
    intro r t h
    simp only [Outcome.returned.injEq] at h
    obtain ⟨i1, i2⟩ := h
    subst i1 i2
    exact ⟨cb, rfl, by simp⟩

theorem client_run_not_live (r : Ref) (ops : List ClientOp) (h : ∀ b, r ≠ .live b) :
    (client_run r ops).trace = [] := by
  induction ops with
  | nil => rfl
  | cons op ops ih =>
    cases r with
    | live b => exact absurd rfl (h b)
    | null =>
      cases op with
      | call op =>
        cases op
        · rfl
        · simpa [client_run, client_step, step, wlr_buffer_unlock, Outcome.bind_returned]
            using ih
        · simpa [client_run, client_step, step, wlr_buffer_drop, Outcome.bind_returned]
            using ih
      | resource_destroyed =>
        simpa [client_run, client_step, resource_destroyed, Outcome.bind_returned] using ih
    | freed last =>
      cases op with
      | call op => cases op <;> rfl
      | resource_destroyed =>
        simpa [client_run, client_step, resource_destroyed, Outcome.bind_returned] using ih

theorem client_run_sends (ops : List ClientOp) (cb : wlr_client_buffer) :
    sends (client_run (.live (.client cb)) ops).trace ≤ cb.release_pending := by
  induction ops generalizing cb with
  | nil => simp [client_run, Outcome.trace]
  | cons op ops ih =>
    have hstep : sends (client_step (.live (.client cb)) op).trace ≤ cb.release_pending ∧
        ∀ r t, client_step (.live (.client cb)) op = .returned r t →
          (∃ last, r = .freed last) ∨
          (∃ cb1, r = .live (.client cb1) ∧
            sends t + cb1.release_pending ≤ cb.release_pending) := by
      cases op with
      | call op => exact step_client_sends cb op
      | resource_destroyed =>
        exact ⟨(resource_destroyed_client_sends cb).1, fun r t h =>
          Or.inr ((resource_destroyed_client_sends cb).2 r t h)⟩
    unfold client_run
    cases hs : client_step (.live (.client cb)) op with
    | aborted f s t =>
      have h1 := hstep.1
      rw [hs] at h1
      simpa [Outcome.bind_aborted, Outcome.trace] using h1
    | returned r t =>
      have h1 := hstep.1
      rw [hs] at h1
      simp only [Outcome.trace] at h1
      simp only [Outcome.bind_returned, Outcome.trace_after, sends_append]
      rcases hstep.2 r t hs with ⟨last, hl⟩ | ⟨cb1, hl, h2⟩
      · subst hl
        rw [client_run_not_live (.freed last) ops (fun b hb => by cases hb)]
        simpa using h1
      · subst hl
        have := ih cb1
        omega

theorem notify_all_client_quiet (ls : List ListenerRef) (cb : wlr_client_buffer)
    (hn : cb.release.notify = some .client_buffer_handle_release)
    (hp : cb.resource_released = true ∨ cb.resource = none) :
    ∃ t, notify_all ls (.client cb) = .returned (.client cb) t ∧ sends t = 0 := by
  have hh : client_buffer_handle_release cb = .returned cb [] := by
    unfold client_buffer_handle_release
    rcases hp with hp | hp
    · rw [hp]
    · rw [hp]
      cases cb.resource_released <;> rfl
  induction ls with
  | nil => exact ⟨[], rfl, rfl⟩
  | cons l ls ih =>
    obtain ⟨t, h1, h2⟩ := ih
    cases l with
    | external id =>
      refine ⟨.notify_external id :: t, ?_, ?_⟩
      · simp [notify_all, notify_listener, Outcome.bind_returned, h1, Outcome.after]
      · simpa [sends_cons, Effect.is_send_release] using h2
    | own_release =>
      refine ⟨t, ?_, h2⟩
      simp [notify_all, notify_listener, Buffer.release_listener, hn, call_notify, hh,
        Outcome.map, Outcome.bind_returned, h1, Outcome.after]

theorem notify_all_client_release (ls : List ListenerRef) (cb : wlr_client_buffer)
    (resource : wl_resource)
    (hn : cb.release.notify = some .client_buffer_handle_release)
    (hf : cb.resource_released = false) (hr : cb.resource = some resource)
    (hm : .own_release ∈ ls) :
    ∃ t, notify_all ls (.client cb) =
        .returned (.client { cb with resource_released := true }) t ∧
      sends t = 1 ∧ .wl_buffer_send_release resource.id ∈ t := by
  have hh : client_buffer_handle_release cb =
      .returned { cb with resource_released := true }
        [.wl_buffer_send_release resource.id] := by
    unfold client_buffer_handle_release
    rw [hf, hr]
  induction ls with
  | nil => exact absurd hm (List.not_mem_nil _)
  | cons l ls ih =>
    cases l with
    | external id =>
      obtain ⟨t, h1, h2, h3⟩ := ih (by simpa using hm)
      refine ⟨.notify_external id :: t, ?_, ?_, List.mem_cons_of_mem _ h3⟩
      · simp [notify_all, notify_listener, Outcome.bind_returned, h1, Outcome.after]
      · simpa [sends_cons, Effect.is_send_release] using h2
    | own_release =>
      obtain ⟨t, h1, h2⟩ := notify_all_client_quiet ls
        { cb with resource_released := true } hn (Or.inl rfl)
      refine ⟨.wl_buffer_send_release resource.id :: t, ?_, ?_, List.mem_cons_self _ _⟩
      · simp [notify_all, notify_listener, Buffer.release_listener, hn, call_notify, hh,
          Outcome.map, Outcome.bind_returned, h1, Outcome.after]
      · simpa [sends_cons, Effect.is_send_release] using h2

theorem Outcome.bind_after {α β : Type} (o : Outcome α) (t : List Effect) (g : α → β)
    (k : α → Outcome β) : (o.after t).bind g k = (o.bind g k).after t := by
  cases o with
  | returned v s =>
    simp only [Outcome.after_returned, Outcome.bind_returned, Outcome.after_after]
  | aborted f s u =>
    simp only [Outcome.after_aborted, Outcome.bind_aborted]

theorem client_run_append (r : Ref) (ops1 ops2 : List ClientOp) :
    client_run r (ops1 ++ ops2) =
      (client_run r ops1).bind id (fun r1 => client_run r1 ops2) := by
  induction ops1 generalizing r with
  | nil => simp only [List.nil_append, client_run, Outcome.bind_returned, Outcome.after_nil]
  | cons op ops1 ih =>
    simp only [List.cons_append, client_run]
    cases hs : client_step r op with
    | aborted f s t => simp only [Outcome.bind_aborted, id]
    | returned r1 t =>
      simp only [Outcome.bind_returned, Outcome.bind_after]
      exact congrArg (Outcome.after t) (ih r1)

theorem client_run_freed (last : Buffer) (ops : List ClientOp) (r : Ref) (t : List Effect)
    (h : client_run (.freed last) ops = .returned r t) : r = .freed last := by
  induction ops generalizing t with
  | nil =>
    simp only [client_run, Outcome.returned.injEq] at h
    exact h.1.symm
  | cons op ops ih =>
    cases op with
    | call op => cases op <;> cases h
    | resource_destroyed =>
      simp only [client_run, client_step, resource_destroyed, Outcome.bind_returned,
        Outcome.after_nil] at h
      exact ih t h

/-- Either nothing is owed to the resource any more, or the listener on the
destruction of the resource is as it was. -/
theorem call_notify_client_keeps (fn : NotifyFn) (cb cb1 : wlr_client_buffer)
    (t : List Effect) (h : call_notify fn (.client cb) = .returned (.client cb1) t) :
    cb1.release_pending = 0 ∨ cb1.resource_destroy = cb.resource_destroy := by
  cases fn with
  | client_buffer_handle_release =>
    simp only [call_notify, client_buffer_handle_release] at h
    split at h <;>
      simp only [Outcome.map, Outcome.returned.injEq, Buffer.client.injEq] at h <;>
      (obtain ⟨h1, _⟩ := h; subst h1; exact Or.inr rfl)
  | client_buffer_resource_handle_destroy =>
    simp only [call_notify, client_buffer_resource_handle_destroy] at h
    split at h
    · cases h
    · simp only [Outcome.map, Outcome.returned.injEq, Buffer.client.injEq] at h
      obtain ⟨h1, _⟩ := h
      subst h1
      left
      simp only [wlr_client_buffer.release_pending]
      split <;> simp_all
  | shm_client_buffer_handle_release => cases h
  | shm_client_buffer_resource_handle_destroy => cases h

theorem notify_listener_client_keeps (l : ListenerRef) (cb cb1 : wlr_client_buffer)
    (t : List Effect) (h : notify_listener l (.client cb) = .returned (.client cb1) t) :
    cb1.release_pending = 0 ∨ cb1.resource_destroy = cb.resource_destroy := by
  cases l with
  | external id =>
    simp only [notify_listener, Outcome.returned.injEq, Buffer.client.injEq] at h
    obtain ⟨h1, _⟩ := h
    subst h1
    exact Or.inr rfl
  | own_release =>
    simp only [notify_listener, Buffer.release_listener] at h
    cases hn : cb.release.notify with
    | none => rw [hn] at h; cases h
    | some fn =>
      rw [hn] at h
      exact call_notify_client_keeps fn cb cb1 t h

theorem notify_all_client_keeps (ls : List ListenerRef) (cb cb1 : wlr_client_buffer)
    (t : List Effect) (h : notify_all ls (.client cb) = .returned (.client cb1) t) :
    cb1.release_pending = 0 ∨ cb1.resource_destroy = cb.resource_destroy := by
  induction ls generalizing cb t with
  | nil =>
    simp only [notify_all, Outcome.returned.injEq, Buffer.client.injEq] at h
    obtain ⟨h1, _⟩ := h
    subst h1
    exact Or.inr rfl
  | cons l ls ih =>
    obtain ⟨cb0, h1, h2⟩ := notify_listener_client_sends l cb
    unfold notify_all at h
    cases hn : notify_listener l (.client cb) with
    | aborted f s t0 => rw [hn] at h; cases h
    | returned b0 t0 =>
      rw [hn] at h h1 h2
      simp only [Outcome.state, Outcome.trace] at h1 h2
      subst h1
      rw [Outcome.bind_returned] at h
      obtain ⟨t1, h3, _⟩ := Outcome.after_eq_returned _ _ _ _ h
      obtain ⟨cb2, i1, i2⟩ := notify_all_client_sends ls cb0
      rw [h3] at i1 i2
      simp only [Outcome.state, Outcome.trace, Buffer.client.injEq] at i1 i2
      subst i1
      rcases ih cb0 t1 h3 with k | k
      · exact Or.inl k
      · rcases notify_listener_client_keeps l cb cb0 t0 hn with j | j
        · exact Or.inl (by omega)
        · exact Or.inr (k.trans j)

theorem buffer_consider_destroy_client_live (cb cb1 : wlr_client_buffer) (t : List Effect)
    (h : buffer_consider_destroy (.client cb) = .returned (.live (.client cb1)) t) :
    cb1 = cb := by
  rcases (buffer_consider_destroy_inv (.client cb)).2.2.2.2.1 _ t h with ⟨h1, _⟩ | ⟨last, h1, _⟩
  · simp only [Ref.live.injEq, Buffer.client.injEq] at h1
    exact h1
  · cases h1

theorem step_client_keeps (cb cb1 : wlr_client_buffer) (op : Op) (t : List Effect)
    (h : step (.live (.client cb)) op = .returned (.live (.client cb1)) t) :
    cb1.release_pending = 0 ∨ cb1.resource_destroy = cb.resource_destroy := by
  cases op with
  | lock =>
    simp only [step, wlr_buffer_lock, Buffer.set_base, Outcome.returned.injEq, Ref.live.injEq,
      Buffer.client.injEq] at h
    obtain ⟨h1, _⟩ := h
    subst h1
    exact Or.inr rfl
  | drop =>
    simp only [step, wlr_buffer_drop] at h
    split at h
    · cases h
    · simp only [Buffer.set_base, Buffer.base] at h
      rw [buffer_consider_destroy_client_live _ _ _ h]
      exact Or.inr rfl
  | unlock =>
    simp only [step, wlr_buffer_unlock] at h
    split at h
    · cases h
    · simp only [Buffer.set_base, Buffer.base] at h
      split at h
      · unfold emit_release at h
        simp only [Buffer.base] at h
        obtain ⟨cb0, h1, _⟩ := notify_all_client_sends cb.base.events_release
          { cb with base := { cb.base with n_locks := cb.base.n_locks - 1 } }
        cases hn : notify_all cb.base.events_release
            (.client { cb with base := { cb.base with n_locks := cb.base.n_locks - 1 } }) with
        | aborted f s t0 => rw [hn] at h; cases h
        | returned b0 t0 =>
          rw [hn] at h h1
          simp only [Outcome.state] at h1
          subst h1
          simp only [Outcome.after_returned, Outcome.bind_returned] at h
          obtain ⟨t1, h3, _⟩ := Outcome.after_eq_returned _ _ _ _ h
          rw [buffer_consider_destroy_client_live _ _ _ h3]
          exact notify_all_client_keeps _
            { cb with base := { cb.base with n_locks := cb.base.n_locks - 1 } } _ _ hn
      · rw [buffer_consider_destroy_client_live _ _ _ h]
        exact Or.inr rfl

theorem release_pending_zero_of_no_resource (cb : wlr_client_buffer)
    (h : cb.resource = none) : cb.release_pending = 0 := by
  unfold wlr_client_buffer.release_pending
  rw [h]
  cases cb.resource_released <;> rfl

theorem resource_destroyed_registered (cb : wlr_client_buffer)
    (h : cb.resource_destroy_registered = true) :
    resource_destroyed (.live (.client cb)) =
      .returned (.live (.client { cb with
        resource_destroy := { cb.resource_destroy with link := .self },
        resource := none })) [] := by
  unfold wlr_client_buffer.resource_destroy_registered at h
  split at h
  · rename_i id hl hn
    simp only [resource_destroyed, hl, hn, call_notify, client_buffer_resource_handle_destroy,
      wl_list_remove, Outcome.map]
  · cases h

theorem resource_destroyed_settles (cb : wlr_client_buffer)
    (h : cb.release_pending = 0 ∨ cb.resource_destroy_registered = true) :
    sends (resource_destroyed (.live (.client cb))).trace = 0 ∧
    ∀ r t, resource_destroyed (.live (.client cb)) = .returned r t →
      ∃ cb1, r = .live (.client cb1) ∧ cb1.release_pending = 0 := by
  rcases h with h | h
  · obtain ⟨h1, h2⟩ := resource_destroyed_client_sends cb
    refine ⟨by omega, fun r t hr => ?_⟩
    obtain ⟨cb1, i1, i2⟩ := h2 r t hr
    exact ⟨cb1, i1, by omega⟩
  · rw [resource_destroyed_registered cb h]
    refine ⟨rfl, fun r t hr => ?_⟩
    simp only [Outcome.returned.injEq] at hr
    exact ⟨_, hr.1.symm, release_pending_zero_of_no_resource _ rfl⟩

theorem client_step_keeps (cb cb1 : wlr_client_buffer) (op : ClientOp) (t : List Effect)
    (hinv : cb.release_pending = 0 ∨ cb.resource_destroy_registered = true)
    (h : client_step (.live (.client cb)) op = .returned (.live (.client cb1)) t) :
    cb1.release_pending = 0 ∨ cb1.resource_destroy_registered = true := by
  cases op with
  | call op =>
    simp only [client_step] at h
    rcases (step_client_sends cb op).2 _ t h with ⟨last, hl⟩ | ⟨cb2, hl, hle⟩
    · cases hl
    · simp only [Ref.live.injEq, Buffer.client.injEq] at hl
      subst hl
      rcases step_client_keeps cb cb1 op t h with k | k
      · exact Or.inl k
      · rcases hinv with j | j
        · exact Or.inl (by omega)
        · right
          unfold wlr_client_buffer.resource_destroy_registered at j ⊢
          rw [k]
          exact j
  | resource_destroyed =>
    simp only [client_step] at h
    obtain ⟨cb2, i1, i2⟩ := (resource_destroyed_settles cb hinv).2 _ t h
    simp only [Ref.live.injEq, Buffer.client.injEq] at i1
    subst i1
    exact Or.inl i2

theorem client_run_reaches (ops : List ClientOp) (cb : wlr_client_buffer) (r : Ref)
    (t : List Effect)
    (hinv : cb.release_pending = 0 ∨ cb.resource_destroy_registered = true)
    (h : client_run (.live (.client cb)) ops = .returned r t) :
    (∃ last, r = .freed last) ∨
    ∃ cb1, r = .live (.client cb1) ∧
      (cb1.release_pending = 0 ∨ cb1.resource_destroy_registered = true) := by
  induction ops generalizing cb t with
  | nil =>
    simp only [client_run, Outcome.returned.injEq] at h
    exact Or.inr ⟨cb, h.1.symm, hinv⟩
  | cons op ops ih =>
    unfold client_run at h
    cases hs : client_step (.live (.client cb)) op with
    | aborted f s t0 => rw [hs] at h; cases h
    | returned r0 t0 =>
      rw [hs, Outcome.bind_returned] at h
      obtain ⟨t1, h3, _⟩ := Outcome.after_eq_returned _ _ _ _ h
      have hshape : (∃ last, r0 = .freed last) ∨ ∃ cb0, r0 = .live (.client cb0) := by
        cases op with
        | call op =>
          rcases (step_client_sends cb op).2 r0 t0 hs with ⟨last, hl⟩ | ⟨cb0, hl, _⟩
          · exact Or.inl ⟨last, hl⟩
          · exact Or.inr ⟨cb0, hl⟩
        | resource_destroyed =>
          obtain ⟨cb0, hl, _⟩ := (resource_destroyed_client_sends cb).2 r0 t0 hs
          exact Or.inr ⟨cb0, hl⟩
      rcases hshape with ⟨last, hl⟩ | ⟨cb0, hl⟩
      · subst hl
        exact Or.inl ⟨last, client_run_freed last ops r t1 h3⟩
      · subst hl
        exact ih cb0 t1 (client_step_keeps cb cb0 op t0 hinv hs) h3

theorem client_run_after_resource_destroyed (ops : List ClientOp) (cb : wlr_client_buffer)
    (hinv : cb.release_pending = 0 ∨ cb.resource_destroy_registered = true) :
    sends (client_run (.live (.client cb)) (.resource_destroyed :: ops)).trace = 0 := by
  obtain ⟨h1, h2⟩ := resource_destroyed_settles cb hinv
  simp only [client_run, client_step]
  cases hr : resource_destroyed (.live (.client cb)) with
  | aborted f s t =>
    rw [hr] at h1
    simpa [Outcome.bind_aborted, Outcome.trace] using h1
  | returned r t =>
    rw [hr] at h1
    simp only [Outcome.trace] at h1
    obtain ⟨cb1, i1, i2⟩ := h2 r t hr
    subst i1
    have h3 := client_run_sends ops cb1
    simp only [Outcome.bind_returned, Outcome.trace_after, sends_append]
    omega

/-- C20: over every sequence of lock, unlock, drop and resource-destroy
notification on a client buffer, the release handler and the destroy callback
together send at most one release notification to the resource, and none when
`resource_released` is already true or the resource is gone. When
`resource_released` is false and the resource is attached, the unlock that
releases the last lock sends the notification exactly once, to that resource,
from the release handler during the release emission; the handler sets
`resource_released`, so the evaluation of destruction and the destroy callback
that follow send none. With the listener on the destruction of the resource
registered, the notification that the client destroyed the resource makes
`client_buffer_resource_handle_destroy` clear the resource, and from the
notification on, at whatever point of a sequence it arrives, no release is
sent. -/
theorem release_sent_at_most_once (cb : wlr_client_buffer) (ops : List ClientOp) :
    sends (client_run (.live (.client cb)) ops).trace ≤ 1 ∧
    (cb.resource_released = true ∨ cb.resource = none →
      sends (client_run (.live (.client cb)) ops).trace = 0) ∧
    (∀ resource, cb.resource_released = false → cb.resource = some resource →
      cb.release.notify = some .client_buffer_handle_release →
      .own_release ∈ cb.base.events_release → cb.base.n_locks = 1 →
      ∃ t1,
        emit_release (.client { cb with base := { cb.base with n_locks := 0 } }) =
          .returned (.client { cb with
            base := { cb.base with n_locks := 0 }, resource_released := true }) t1 ∧
        wlr_buffer_unlock (.live (.client cb)) =
          (buffer_consider_destroy (.client { cb with
            base := { cb.base with n_locks := 0 }, resource_released := true })).after t1 ∧
        sends t1 = 1 ∧ .wl_buffer_send_release resource.id ∈ t1 ∧
        sends (buffer_consider_destroy (.client { cb with
          base := { cb.base with n_locks := 0 }, resource_released := true })).trace = 0 ∧
        sends (impl_destroy (.client { cb with
          base := { cb.base with n_locks := 0 }, resource_released := true })).trace = 0 ∧
        sends (wlr_buffer_unlock (.live (.client cb))).trace = 1) ∧
    (cb.resource_destroy_registered = true →
      resource_destroyed (.live (.client cb)) =
        .returned (.live (.client { cb with
          resource_destroy := { cb.resource_destroy with link := .self },
          resource := none })) [] ∧
      sends (client_run (.live (.client cb)) (.resource_destroyed :: ops)).trace = 0 ∧
      ∀ ops1 r1 t1, client_run (.live (.client cb)) ops1 = .returned r1 t1 →
        (client_run (.live (.client cb)) (ops1 ++ .resource_destroyed :: ops)).trace =
          t1 ++ (client_run r1 (.resource_destroyed :: ops)).trace ∧
        sends (client_run r1 (.resource_destroyed :: ops)).trace = 0 ∧
        sends (client_run (.live (.client cb)) (ops1 ++ .resource_destroyed :: ops)).trace =
          sends t1) := by
  have hrun := client_run_sends ops cb
  refine ⟨Nat.le_trans hrun (release_pending_le_one cb), ?_, ?_, ?_⟩
  · intro h
    have hp : cb.release_pending = 0 := by
      unfold wlr_client_buffer.release_pending
      rcases h with h | h
      · rw [h]
      · rw [h]
        cases cb.resource_released <;> rfl
    omega
  · intro resource hf hr hn hm hl
    obtain ⟨t, h1, h2, h3⟩ := notify_all_client_release cb.base.events_release
      { cb with base := { cb.base with n_locks := 0 } } resource hn hf hr hm
    have hp0 : wlr_client_buffer.release_pending { cb with
        base := { cb.base with n_locks := 0 }, resource_released := true } = 0 := by
      simp [wlr_client_buffer.release_pending]
    have hc := buffer_consider_destroy_client_sends { cb with
      base := { cb.base with n_locks := 0 }, resource_released := true }
    have hi := impl_destroy_client_sends { cb with
      base := { cb.base with n_locks := 0 }, resource_released := true }
    rw [hp0] at hc hi
    have he : emit_release (.client { cb with base := { cb.base with n_locks := 0 } }) =
        .returned (.client { cb with
          base := { cb.base with n_locks := 0 }, resource_released := true })
          (.signal_release :: t) := by
      unfold emit_release
      simp only [Buffer.base]
      rw [h1]
      rfl
    have hu : wlr_buffer_unlock (.live (.client cb)) =
        (buffer_consider_destroy (.client { cb with
          base := { cb.base with n_locks := 0 }, resource_released := true })).after
          (.signal_release :: t) := by
      simp only [wlr_buffer_unlock, Buffer.base, Buffer.set_base, hl]
      simp only [Nat.lt_irrefl, Nat.sub_self, gt_iff_lt, Nat.zero_lt_one, not_true_eq_false,
        if_false, if_true]
      rw [he, Outcome.bind_returned]
    refine ⟨.signal_release :: t, he, hu, ?_, List.mem_cons_of_mem _ h3,
      Nat.le_zero.mp hc, Nat.le_zero.mp hi, ?_⟩
    · simpa [sends_cons, Effect.is_send_release] using h2
    · rw [hu, Outcome.trace_after, sends_append, Nat.le_zero.mp hc]
      simpa [sends_cons, Effect.is_send_release] using h2
  · intro hreg
    refine ⟨resource_destroyed_registered cb hreg,
      client_run_after_resource_destroyed ops cb (Or.inr hreg), ?_⟩
    intro ops1 r1 t1 h1
    have htr : (client_run (.live (.client cb)) (ops1 ++ .resource_destroyed :: ops)).trace =
        t1 ++ (client_run r1 (.resource_destroyed :: ops)).trace := by
      rw [client_run_append, h1, Outcome.bind_returned, Outcome.trace_after]
    have hz : sends (client_run r1 (.resource_destroyed :: ops)).trace = 0 := by
      rcases client_run_reaches ops1 cb r1 t1 (Or.inr hreg) h1 with ⟨last, hl⟩ | ⟨cb1, hl, hi⟩
      · subst hl
        rw [client_run_not_live _ _ (fun b hb => by cases hb)]
        rfl
      · subst hl
        exact client_run_after_resource_destroyed ops cb1 hi
    exact ⟨htr, hz, by rw [htr, sends_append, hz, Nat.add_zero]⟩

theorem release_sent_at_most_once_witness :
    (client_run
        (.live (.client (imported_client_buffer example_shm_resource example_texture false)))
        [.call .lock, .call .unlock, .call .unlock]).trace =
      [.signal_release, .wl_buffer_send_release example_shm_resource.id, .signal_destroy,
        .impl_destroy, .wlr_texture_destroy (some example_texture.id), .free] ∧
    sends (client_run
        (.live (.client (imported_client_buffer example_shm_resource example_texture false)))
        [.call .lock, .call .unlock, .call .unlock]).trace ≤ 1 ∧
    sends (client_run
        (.live (.client (imported_client_buffer example_shm_resource example_texture true)))
        [.call .unlock]).trace = 0 ∧
    sends (wlr_buffer_unlock
      (.live (.client
        (imported_client_buffer example_shm_resource example_texture false)))).trace = 1 ∧
    (client_run
        (.live (.client (imported_client_buffer example_shm_resource example_texture false)))
        [.call .lock, .resource_destroyed, .call .unlock, .call .unlock]).trace =
      [.signal_release, .signal_destroy, .impl_destroy,
        .wlr_texture_destroy (some example_texture.id), .free] ∧
    sends (client_run
        (.live (.client (imported_client_buffer example_shm_resource example_texture false)))
        [.call .lock, .resource_destroyed, .call .unlock, .call .unlock]).trace = 0 ∧
    sends (client_run
        (.live (.client (imported_client_buffer example_shm_resource example_texture false)))
        [.resource_destroyed, .call .unlock]).trace = 0 :=
  ⟨by decide,
    (release_sent_at_most_once
      (imported_client_buffer example_shm_resource example_texture false)
      [.call .lock, .call .unlock, .call .unlock]).1,
    (release_sent_at_most_once
      (imported_client_buffer example_shm_resource example_texture true)
      [.call .unlock]).2.1 (Or.inl rfl),
    (((release_sent_at_most_once
      (imported_client_buffer example_shm_resource example_texture false) []).2.2.1
        example_shm_resource rfl rfl rfl (by decide) rfl).choose_spec).2.2.2.2.2.2,
    by decide,
    (((release_sent_at_most_once
      (imported_client_buffer example_shm_resource example_texture false)
      [.call .unlock, .call .unlock]).2.2.2 rfl).2.2 [.call .lock] _ [] rfl).2.2,
    ((release_sent_at_most_once
      (imported_client_buffer example_shm_resource example_texture false)
      [.call .unlock]).2.2.2 rfl).2.1⟩

/-! ## Upload failure on a shared-memory resource -/

theorem for_upload_eq_created (sys : Sys) (resource : wl_resource) (b : Buffer)
    (hshm : resource.shm_buffer.isSome = true)
    (hfor : shm_client_buffer_for_upload sys resource = some b) :
    ∃ shm_buffer, resource.shm_buffer = some shm_buffer ∧
      sys.calloc_shm_client_buffer = true ∧
      b = .shm (created_shm_client_buffer sys resource shm_buffer true 1) := by
  cases hs : resource.shm_buffer with
  | none => rw [hs] at hshm; cases hshm
  | some shm_buffer =>
    rw [shm_client_buffer_for_upload_eq sys resource shm_buffer hs] at hfor
    cases hc : sys.calloc_shm_client_buffer with
    | false => rw [hc] at hfor; cases hfor
    | true =>
      rw [hc] at hfor
      simp only [if_true, Option.some.injEq] at hfor
      exact ⟨shm_buffer, rfl, rfl, hfor.symm⟩

/-- C21: on a shared-memory buffer resource, when the upload from the temporary
shm client buffer returns no texture and the renderer took no lock on that
buffer, `wlr_client_buffer_import` returns NULL after sending the release to
the resource exactly twice. The first comes from the release handler of the
temporary buffer, which the import hands over with `n_locks = 1` and dropped,
so that its own unlock takes `n_locks` to 0, emits release and destroys the
buffer; the second comes from the upload-failure path, after the log line. -/
theorem import_shm_upload_failure_releases_twice (sys : Sys) (renderer : wlr_renderer)
    (resource : wl_resource) (b : Buffer)
    (hclass : resource.class_is_wl_buffer = true)
    (hshm : resource.shm_buffer.isSome = true)
    (hfor : shm_client_buffer_for_upload sys resource = some b)
    (htex : (renderer.texture_from_buffer b).1 = none)
    (hlock : (renderer.texture_from_buffer b).2 = false) :
    b.base.n_locks = 1 ∧ b.base.dropped = true ∧
    ∃ last,
      wlr_buffer_unlock (.live b) =
        .returned (.freed last)
          [.signal_release, .wl_buffer_send_release resource.id, .signal_destroy,
            .impl_destroy, .free] ∧
      wlr_client_buffer_import_finish sys resource none true (.freed last) =
        .returned ⟨.null, .freed last⟩
          [.wlr_log "Failed to upload texture", .wl_buffer_send_release resource.id] ∧
      wlr_client_buffer_import sys renderer resource =
        .returned ⟨.null, .freed last⟩
          [.signal_release, .wl_buffer_send_release resource.id, .signal_destroy,
            .impl_destroy, .free, .wlr_log "Failed to upload texture",
            .wl_buffer_send_release resource.id] ∧
      sends (wlr_client_buffer_import sys renderer resource).trace = 2 ∧
      (wlr_client_buffer_import sys renderer resource).trace.count
        (.wl_buffer_send_release resource.id) = 2 := by
  obtain ⟨shm_buffer, hs, hc, hb⟩ := for_upload_eq_created sys resource b hshm hfor
  subst hb
  have himp : wlr_client_buffer_import sys renderer resource =
      .returned ⟨.null, .freed (.shm { created_shm_client_buffer sys resource shm_buffer true 0
          with
          base := { (created_shm_client_buffer sys resource shm_buffer true 0).base with
            events_release := [] },
          resource_destroy :=
            { link := .null, notify := some .shm_client_buffer_resource_handle_destroy },
          release :=
            { link := .null, notify := some .shm_client_buffer_handle_release } })⟩
        [.signal_release, .wl_buffer_send_release resource.id, .signal_destroy,
          .impl_destroy, .free, .wlr_log "Failed to upload texture",
          .wl_buffer_send_release resource.id] := by
    rw [import_shm_eq sys renderer resource shm_buffer hclass hs hc, hlock, htex]
    simp only [Bool.false_eq_true, if_false, import_finish_none, Outcome.after_returned,
      List.cons_append, List.nil_append]
  refine ⟨rfl, rfl, _, created_unlock_one sys resource shm_buffer, import_finish_none _ _ _ _,
    himp, ?_, ?_⟩
  · rw [himp]
    simp [Outcome.trace, sends, Effect.is_send_release]
  · rw [himp]
    simp [Outcome.trace, List.count_cons]

theorem import_shm_upload_failure_releases_twice_witness :
    wlr_client_buffer_import example_sys failing_renderer_without_lock example_shm_resource =
      .returned
        ⟨.null, .freed (.shm { created_shm_client_buffer example_sys example_shm_resource
            ⟨4, 4, 16, 1, 4096, 7⟩ true 0 with
          base := { (created_shm_client_buffer example_sys example_shm_resource
            ⟨4, 4, 16, 1, 4096, 7⟩ true 0).base with events_release := [] },
          resource_destroy :=
            { link := .null, notify := some .shm_client_buffer_resource_handle_destroy },
          release :=
            { link := .null, notify := some .shm_client_buffer_handle_release } })⟩
        [.signal_release, .wl_buffer_send_release 42, .signal_destroy, .impl_destroy, .free,
          .wlr_log "Failed to upload texture", .wl_buffer_send_release 42] ∧
    sends (wlr_client_buffer_import example_sys failing_renderer_without_lock
      example_shm_resource).trace = 2 ∧
    (wlr_client_buffer_import example_sys failing_renderer_without_lock
      example_shm_resource).trace.count (.wl_buffer_send_release example_shm_resource.id) = 2 :=
  ⟨rfl,
    ((import_shm_upload_failure_releases_twice example_sys failing_renderer_without_lock
      example_shm_resource
      (.shm (created_shm_client_buffer example_sys example_shm_resource
        ⟨4, 4, 16, 1, 4096, 7⟩ true 1))
      rfl rfl rfl rfl rfl).2.2.choose_spec).2.2.2⟩

theorem import_shm_upload_failure_with_lock (sys : Sys) (renderer : wlr_renderer)
    (resource : wl_resource) (b : Buffer)
    (hclass : resource.class_is_wl_buffer = true)
    (hshm : resource.shm_buffer.isSome = true)
    (hfor : shm_client_buffer_for_upload sys resource = some b)
    (htex : (renderer.texture_from_buffer b).1 = none)
    (hlock : (renderer.texture_from_buffer b).2 = true) :
    (wlr_client_buffer_import sys renderer resource).trace =
      [.wlr_log "Failed to upload texture", .wl_buffer_send_release resource.id] := by
  obtain ⟨shm_buffer, hs, hc, hb⟩ := for_upload_eq_created sys resource b hshm hfor
  subst hb
  rw [import_shm_eq sys renderer resource shm_buffer hclass hs hc, hlock, htex]
  simp only [if_true, import_finish_none, Outcome.trace]

end WlrBuffer
